import Mathlib

/-!
# Blueprint node commands: exec-chain closure and bound-event dedupe

A shallow embedding of the graph algorithms of
`UnrealMCPBlueprintNodeCommands.cpp`:

* `FindNodePinByName`, `CollectExecChainNodes` (the closure engine);
* the candidate collection, survivor selection and removal loops of
  `HandleDedupeBlueprintComponentBoundEvents` (the dedup engine);
* `ResolveClassByName` (the type resolver), over a type catalog taken as a
  parameter;
* the target class resolution, the function lookup and the node creation of
  `HandleAddBlueprintFunctionCall`;
* the sixteen command handlers and their dispatcher `HandleCommand`, on a
  store of blueprints: the tests of the required parameters, the lookup of
  the blueprint and of its event graph, the parameter coercion of the
  function-call and make-struct handlers, the steps of the bind-delegate
  handler, and the calls that mark the blueprint as modified. The operations
  of the host editor that the handlers call are the fields of `FEditorHost`.

The host object model is represented by an explicit object store: a node
pointer is an index into `UEdGraph.Objects`, an index outside the store is a
pointer that fails `IsValid`, and `UEdGraph.Nodes` is the graph's node array.
Pin arrays hold pins (no null entries). The comparisons `==` of the host's
`FString` and `FName` ignore letter case, as does `StartsWith`: each of them
is `EqualsIgnoreCase` or `StartsWith` here. Numbers of the command parameters
are held as decimal literals, and the integer conversion is computed on their
exact value.
-/

namespace UnrealMCP

/-- Pin direction, as `EEdGraphPinDirection`. -/
inductive EEdGraphPinDirection where
  | EGPD_Input
  | EGPD_Output
  deriving DecidableEq, Repr

/-- A pin pointer: the owning node (what `GetOwningNode` returns) and the
position of the pin in that node's `Pins` array. -/
structure PinRef where
  Node : Nat
  Pin : Nat
  deriving DecidableEq, Repr

/-- The pin categories of `UEdGraphSchema_K2` that the commands test
(`PinType.PinCategory`); `PC_Other` stands for every other category name. -/
inductive EPinCategory where
  | PC_Exec
  | PC_Boolean
  | PC_Int
  | PC_Float
  | PC_String
  | PC_Struct
  | PC_Class
  | PC_Other
  deriving DecidableEq, Repr

/-- The fields of `UEdGraphPin` the commands read or write. The sub-category
object of the pin type and the default object are held by name; a pin that is
not said to be typed is of category `PC_Other` with an empty default. -/
structure UEdGraphPin where
  PinName : String
  Direction : EEdGraphPinDirection
  LinkedTo : List PinRef
  PinCategory : EPinCategory := EPinCategory.PC_Other
  PinSubCategoryObject : Option String := none
  DefaultValue : String := ""
  DefaultObject : Option String := none
  deriving DecidableEq, Repr

/-- The fields of `UEdGraphNode` the commands read. `BoundEvent` is
`some (ComponentPropertyName, DelegatePropertyName)` exactly when the node is a
`UK2Node_ComponentBoundEvent` (when the `Cast` succeeds). -/
structure UEdGraphNode where
  NodeGuid : String
  NodePosX : Int
  NodePosY : Int
  Pins : List UEdGraphPin
  BoundEvent : Option (String × String)
  deriving DecidableEq, Repr

/-- The event graph together with the node objects it can point to:
`Objects` is the object store (a node pointer is an index into it) and `Nodes`
is the graph's ordered node array. -/
structure UEdGraph where
  Objects : List UEdGraphNode
  Nodes : List Nat
  deriving DecidableEq, Repr

/-- The characters of a string, letters folded to lower case. -/
def lowerChars (s : String) : List Char :=
  s.data.map Char.toLower

/-- The comparison `A.Equals(B, ESearchCase::IgnoreCase)`, which is also the
comparison `A == B` of two `FString`s and of two `FName`s: the host compares
them ignoring letter case. -/
def EqualsIgnoreCase (A B : String) : Bool :=
  lowerChars A == lowerChars B

/-- A node pointer is valid when it points into the object store. -/
@[reducible] def IsValid (g : UEdGraph) (Node : Nat) : Prop :=
  Node < g.Objects.length

/-- The pins of the node behind a pointer (no pins behind an invalid one). -/
def pinsOf (g : UEdGraph) (Node : Nat) : List UEdGraphPin :=
  match g.Objects[Node]? with
  | some n => n.Pins
  | none => []

/-- The function `FindNodePinByName`: the first pin of the node whose name equals `PinName`
as `FString ==` compares them (line 89), whatever its direction; `none` for an
invalid node or when no pin matches. -/
def FindNodePinByName (g : UEdGraph) (Node : Nat) (PinName : String) :
    Option UEdGraphPin :=
  if IsValid g Node then
    (pinsOf g Node).find? (fun Pin => EqualsIgnoreCase Pin.PinName PinName)
  else none

/-- The body of both link loops of the traversal (lines 117-127 and 147-157):
a linked node that is valid, is not the event node and is not yet in
`NodesToRemove` is added to `NodesToRemove` and to `ExecQueue`.
The state is `(NodesToRemove, ExecQueue)`, the set in insertion order. -/
def visitLinkedPin (g : UEdGraph) (EventNode : Nat)
    (st : List Nat × List Nat) (LinkedPin : PinRef) : List Nat × List Nat :=
  if IsValid g LinkedPin.Node ∧ LinkedPin.Node ≠ EventNode ∧ LinkedPin.Node ∉ st.1 then
    (st.1 ++ [LinkedPin.Node], st.2 ++ [LinkedPin.Node])
  else st

/-- The loop over the pins of the dequeued node (lines 138-159): input pins
are skipped, every link of an output pin is visited. -/
def visitNodePins (g : UEdGraph) (EventNode : Nat)
    (st : List Nat × List Nat) (Pins : List UEdGraphPin) : List Nat × List Nat :=
  Pins.foldl (fun s Pin =>
    if Pin.Direction = EEdGraphPinDirection.EGPD_Output then
      Pin.LinkedTo.foldl (visitLinkedPin g EventNode) s
    else s) st

/-- The state of the breadth-first loop. -/
structure ExecState where
  NodesToRemove : List Nat
  ExecQueue : List Nat
  QueueIndex : Nat
  deriving DecidableEq, Repr

/-- The loop `while (QueueIndex < ExecQueue.Num())` (lines 130-160); one unit
of fuel per evaluation of the loop condition. -/
def execLoop (g : UEdGraph) (EventNode : Nat) : Nat → ExecState → ExecState
  | 0, st => st
  | fuel + 1, st =>
    match st.ExecQueue[st.QueueIndex]? with
    | none => st
    | some CurrentNode =>
      let r := visitNodePins g EventNode (st.NodesToRemove, st.ExecQueue) (pinsOf g CurrentNode)
      execLoop g EventNode fuel ⟨r.1, r.2, st.QueueIndex + 1⟩

/-- The loop over `EventExecPin->LinkedTo` (lines 112-128): the queue is
seeded with the direct link targets of the event pin. -/
def execInit (g : UEdGraph) (EventNode : Nat) (EventExecPin : UEdGraphPin) : ExecState :=
  let r := EventExecPin.LinkedTo.foldl (visitLinkedPin g EventNode) ([], [])
  ⟨r.1, r.2, 0⟩

/-- The traversal phase (lines 112-160): the queue is seeded with the direct
link targets of the event pin, then drained. The fuel is the size of the
object store, which `execPhase_drained` shows to be enough. -/
def execPhase (g : UEdGraph) (EventNode : Nat) (EventExecPin : UEdGraphPin) : ExecState :=
  execLoop g EventNode g.Objects.length (execInit g EventNode EventExecPin)

/-- The loop over `CandidatePin->LinkedTo` (lines 188-207) on the flags
`(bHasAnyLink, bAllLinksPointToRemovalSet)`; it stops at the first link that
leaves the removal set. -/
def scanLinks (g : UEdGraph) (EventNode : Nat) (NodesToRemove : List Nat) :
    List PinRef → Bool × Bool → Bool × Bool
  | [], st => st
  | LinkedPin :: rest, st =>
    if ¬ IsValid g LinkedPin.Node then
      scanLinks g EventNode NodesToRemove rest st
    else if LinkedPin.Node ≠ EventNode ∧ LinkedPin.Node ∉ NodesToRemove then
      (true, false)
    else
      scanLinks g EventNode NodesToRemove rest (true, st.2)

/-- The loop over `CandidateNode->Pins` (lines 181-213), left as soon as
`bAllLinksPointToRemovalSet` is false. -/
def scanPins (g : UEdGraph) (EventNode : Nat) (NodesToRemove : List Nat) :
    List UEdGraphPin → Bool × Bool → Bool × Bool
  | [], st => st
  | CandidatePin :: rest, st =>
    let st1 := scanLinks g EventNode NodesToRemove CandidatePin.LinkedTo st
    if st1.2 = false then st1 else scanPins g EventNode NodesToRemove rest st1

/-- One iteration of the loop over `Graph->Nodes` (lines 172-220) on the state
`(NodesToRemove, bAddedDependencyNode)`. -/
def scanCandidate (g : UEdGraph) (EventNode : Nat)
    (st : List Nat × Bool) (CandidateNode : Nat) : List Nat × Bool :=
  if ¬ IsValid g CandidateNode ∨ CandidateNode = EventNode ∨ CandidateNode ∈ st.1 then st
  else
    let flags := scanPins g EventNode st.1 (pinsOf g CandidateNode) (false, true)
    if flags.1 = true ∧ flags.2 = true then (st.1 ++ [CandidateNode], true) else st

/-- One full scan of the graph: the body of `while (bAddedDependencyNode)`. -/
def dependencyScan (g : UEdGraph) (EventNode : Nat) (NodesToRemove : List Nat) :
    List Nat × Bool :=
  g.Nodes.foldl (scanCandidate g EventNode) (NodesToRemove, false)

/-- The state of the absorption loop; `Scans` counts the full scans made. -/
structure DependencyState where
  NodesToRemove : List Nat
  bAddedDependencyNode : Bool
  Scans : Nat
  deriving DecidableEq, Repr

/-- The loop `while (bAddedDependencyNode)` (lines 168-221); one unit of fuel
per scan. It returns with `bAddedDependencyNode = false` when the loop
condition has failed, and with `true` when the fuel is used up. -/
def dependencyLoop (g : UEdGraph) (EventNode : Nat) : Nat → List Nat → Nat → DependencyState
  | 0, NodesToRemove, scans => ⟨NodesToRemove, true, scans⟩
  | fuel + 1, NodesToRemove, scans =>
    let r := dependencyScan g EventNode NodesToRemove
    if r.2 = true then dependencyLoop g EventNode fuel r.1 (scans + 1)
    else ⟨r.1, false, scans + 1⟩

/-- The absorption phase, with fuel for `|Graph->Nodes| + 1` scans, which
`dependencyPhase_stops` shows to be enough. -/
def dependencyPhase (g : UEdGraph) (EventNode : Nat) (NodesToRemove : List Nat) :
    DependencyState :=
  dependencyLoop g EventNode (g.Nodes.length + 1) NodesToRemove 0

/-- The function `CollectExecChainNodes`: the returned `TSet`, in insertion order.
The graph of a valid event node is the one graph of the store, so the early
return on a null `GetGraph()` (lines 162-166) is never taken. -/
def CollectExecChainNodes (g : UEdGraph) (EventNode : Nat) (EventOutputPinName : String) :
    List Nat :=
  if ¬ IsValid g EventNode then []
  else
    match FindNodePinByName g EventNode EventOutputPinName with
    | none => []
    | some EventExecPin =>
      (dependencyPhase g EventNode (execPhase g EventNode EventExecPin).NodesToRemove).NodesToRemove

/-! ### Bound-event dedupe -/

/-- Modelled from the spec: part of the host's node removal, the pin with
every link to a pin of `Node` taken out of `LinkedTo`. -/
def UEdGraphPin.withoutLinksTo (Pin : UEdGraphPin) (Node : Nat) : UEdGraphPin :=
  { Pin with LinkedTo := Pin.LinkedTo.filter (fun l => l.Node ≠ Node) }

/-- Modelled from the spec: part of the host's node removal, the pin with an
empty `LinkedTo`. -/
def UEdGraphPin.withoutLinks (Pin : UEdGraphPin) : UEdGraphPin :=
  { Pin with LinkedTo := [] }

/-- Modelled from the spec: the host's `BreakAllNodeLinks`, which is not part
of the repository. The object store after all links of the node at index
`Node` are broken:
walking the store from index `i`, the node itself loses every link and every
other node loses its links to it. -/
def breakAllNodeLinks (Node : Nat) : Nat → List UEdGraphNode → List UEdGraphNode
  | _, [] => []
  | i, n :: rest =>
    (if i = Node then { n with Pins := n.Pins.map UEdGraphPin.withoutLinks }
     else { n with Pins := n.Pins.map (fun Pin => Pin.withoutLinksTo Node) })
      :: breakAllNodeLinks Node (i + 1) rest

/-- Modelled from the spec: `FBlueprintEditorUtils::RemoveNode` is a host
operation that is not part of the repository. Removal detaches every link
touching a pin of the node (I3: no dangling link survives) and takes the node
out of the graph's node array; the node object itself stays in the object
store, so a pointer to it is still valid. -/
def RemoveNode (g : UEdGraph) (Node : Nat) : UEdGraph where
  Objects := breakAllNodeLinks Node 0 g.Objects
  Nodes := g.Nodes.filter (fun n => n ≠ Node)

/-- The test of the candidate loop (lines 1604-1618): the node is a
`UK2Node_ComponentBoundEvent` whose component and delegate property names are
the requested ones, as `FName`s compare. -/
def isMatchedEvent (g : UEdGraph) (WidgetName EventName : String) (Node : Nat) : Bool :=
  match g.Objects[Node]? with
  | some n =>
    match n.BoundEvent with
    | some (ComponentPropertyName, DelegatePropertyName) =>
      EqualsIgnoreCase ComponentPropertyName WidgetName &&
        EqualsIgnoreCase DelegatePropertyName EventName
    | none => false
  | none => false

/-- The array `MatchedEvents` as filled by lines 1601-1621, in graph order. -/
def collectMatchedEvents (g : UEdGraph) (WidgetName EventName : String) : List Nat :=
  g.Nodes.filter (isMatchedEvent g WidgetName EventName)

/-- The text `NodeGuid.ToString()` of the node behind a pointer. -/
def nodeGuid (g : UEdGraph) (Node : Nat) : String :=
  match g.Objects[Node]? with
  | some n => n.NodeGuid
  | none => ""

/-- The search for the preferred node (lines 1639-1649): skipped when
`KeepNodeId` is empty, otherwise the first candidate whose identifier equals
it as `FString ==` compares them (line 1643). -/
def findKeepNode (g : UEdGraph) (KeepNodeId : String) (MatchedEvents : List Nat) :
    Option Nat :=
  if KeepNodeId = "" then none
  else MatchedEvents.find? (fun Candidate => EqualsIgnoreCase (nodeGuid g Candidate) KeepNodeId)

/-- The sort predicate of lines 1653-1664: ascending `NodePosY`, then
ascending `NodePosX`; a null pointer sorts after a node. -/
def positionLess (g : UEdGraph) (A B : Nat) : Bool :=
  match g.Objects[A]?, g.Objects[B]? with
  | some a, some b =>
    if a.NodePosY = b.NodePosY then decide (a.NodePosX < b.NodePosX)
    else decide (a.NodePosY < b.NodePosY)
  | some _, none => true
  | none, _ => false

/-- Modelled from the spec: one step of the host's array sort, the insertion of
a candidate into a sorted array before the first entry that is not less than
it. -/
def insertByPosition (g : UEdGraph) (A : Nat) : List Nat → List Nat
  | [] => [A]
  | B :: rest =>
    if positionLess g B A then B :: insertByPosition g A rest else A :: B :: rest

/-- Modelled from the spec: the host's `TArray::Sort`, which is not part of the
repository, called as `MatchedEvents.Sort(...)` with the predicate
`positionLess` (candidates sorted by ascending row, then ascending column).
The host's sort does not fix the order of two candidates at the same position;
here they keep their graph order. -/
def sortByPosition (g : UEdGraph) : List Nat → List Nat
  | [] => []
  | A :: rest => insertByPosition g A (sortByPosition g rest)

/-- The survivor selection (lines 1638-1666): `(KeptEventNode, MatchedEvents)`,
where `MatchedEvents` has been sorted when no preferred node was found. -/
def selectKeptEventNode (g : UEdGraph) (KeepNodeId : String) (MatchedEvents : List Nat) :
    Option Nat × List Nat :=
  match findKeepNode g KeepNodeId MatchedEvents with
  | some Candidate => (some Candidate, MatchedEvents)
  | none => ((sortByPosition g MatchedEvents).head?, sortByPosition g MatchedEvents)

/-- The state of the removal loops. -/
structure DedupeState where
  Graph : UEdGraph
  ChainNodesToRemove : List Nat
  RemovedEventNodes : Nat
  deriving DecidableEq, Repr

/-- The loop over `CandidateChainNodes` (lines 1679-1685): valid nodes are added
to the set `ChainNodesToRemove`. -/
def addChainNodes (g : UEdGraph) (ChainNodesToRemove CandidateChainNodes : List Nat) :
    List Nat :=
  CandidateChainNodes.foldl (fun acc ChainNode =>
    if IsValid g ChainNode ∧ ChainNode ∉ acc then acc ++ [ChainNode] else acc)
    ChainNodesToRemove

/-- One iteration of the loop over `MatchedEvents` (lines 1671-1689): the
survivor is skipped; for any other candidate its closure, computed on the
graph as it stands, joins `ChainNodesToRemove` and the candidate is removed. -/
def dedupeCandidate (KeptEventNode : Option Nat) (EventOutputPinName : String)
    (st : DedupeState) (Candidate : Nat) : DedupeState :=
  if some Candidate = KeptEventNode then st
  else
    ⟨RemoveNode st.Graph Candidate,
     addChainNodes st.Graph st.ChainNodesToRemove
       (CollectExecChainNodes st.Graph Candidate EventOutputPinName),
     st.RemovedEventNodes + 1⟩

/-- One iteration of the loop over `ChainNodesToRemove` (lines 1691-1699) on
the state `(graph, RemovedChainNodes)`. -/
def removeChainNode (st : UEdGraph × Nat) (NodeToRemove : Nat) : UEdGraph × Nat :=
  if IsValid st.1 NodeToRemove then (RemoveNode st.1 NodeToRemove, st.2 + 1) else st

/-- The result object of the dedupe command, with the graph it leaves. -/
structure DedupeResult where
  Graph : UEdGraph
  matched_events : Nat
  kept_node_id : Option String
  removed_event_nodes : Nat
  removed_chain_nodes : Nat
  deriving DecidableEq, Repr

/-- The handler `HandleDedupeBlueprintComponentBoundEvents` from line 1599 on, once the
parameters are read and the event graph is found. -/
def HandleDedupeBlueprintComponentBoundEvents (g : UEdGraph)
    (WidgetName EventName KeepNodeId EventOutputPinName : String) : DedupeResult :=
  let MatchedEvents := collectMatchedEvents g WidgetName EventName
  if MatchedEvents.length ≤ 1 then
    ⟨g, MatchedEvents.length, MatchedEvents.head?.map (nodeGuid g), 0, 0⟩
  else
    let sel := selectKeptEventNode g KeepNodeId MatchedEvents
    let st := sel.2.foldl (dedupeCandidate sel.1 EventOutputPinName) ⟨g, [], 0⟩
    let r := st.ChainNodesToRemove.foldl removeChainNode (st.Graph, 0)
    ⟨r.1, MatchedEvents.length,
     some (match sel.1 with
       | some KeptEventNode => nodeGuid g KeptEventNode
       | none => ""),
     st.RemovedEventNodes, r.2⟩

/-! ### Reachability and links, as the properties speak of them -/

/-- A link out of an output pin of `a` ends at a pin of `b`. -/
def ExecEdge (g : UEdGraph) (a b : Nat) : Prop :=
  ∃ Pin ∈ pinsOf g a, Pin.Direction = EEdGraphPinDirection.EGPD_Output ∧
    ∃ l ∈ Pin.LinkedTo, l.Node = b

/-- The nodes other than the event node reached from the link targets `start`
by following links out of output pins, along paths that never visit the event
node. -/
inductive ExecReach (g : UEdGraph) (EventNode : Nat) (start : List PinRef) : Nat → Prop
  | direct (l : PinRef) : l ∈ start → IsValid g l.Node → l.Node ≠ EventNode →
      ExecReach g EventNode start l.Node
  | step (a b : Nat) : ExecReach g EventNode start a → ExecEdge g a b → IsValid g b →
      b ≠ EventNode → ExecReach g EventNode start b

/-- Some pin of `a`, of either direction, holds a link that ends at a pin of
the node `b`. -/
def LinkedNode (g : UEdGraph) (a b : Nat) : Prop :=
  IsValid g b ∧ ∃ Pin ∈ pinsOf g a, ∃ l ∈ Pin.LinkedTo, l.Node = b

/-- The absorption test: `n` has at least one link and every link of `n` ends
at the event node or at a node of `S`. -/
def Absorbable (g : UEdGraph) (EventNode : Nat) (S : List Nat) (n : Nat) : Prop :=
  (∃ b, LinkedNode g n b) ∧ ∀ b, LinkedNode g n b → b = EventNode ∨ b ∈ S

/-- The invariant of the breadth-first loop. -/
structure ExecInv (g : UEdGraph) (e : Nat) (start : List PinRef) (st : ExecState) : Prop where
  same : st.NodesToRemove = st.ExecQueue
  nodup : st.ExecQueue.Nodup
  reach : ∀ n ∈ st.ExecQueue, ExecReach g e start n
  index : st.QueueIndex ≤ st.ExecQueue.length
  closed : ∀ i a, i < st.QueueIndex → st.ExecQueue[i]? = some a →
    ∀ b, ExecEdge g a b → IsValid g b → b ≠ e → b ∈ st.ExecQueue
  seeded : ∀ l ∈ start, IsValid g l.Node → l.Node ≠ e → l.Node ∈ st.ExecQueue

/-- The number of entries of `Graph->Nodes` that a scan could still absorb:
those that are neither the event node nor already in `S`. -/
def unabsorbed (g : UEdGraph) (EventNode : Nat) (S : List Nat) : Nat :=
  (g.Nodes.filter (fun n => decide (n ≠ EventNode ∧ n ∉ S))).length

/-- Forward reachability from the seed's named pin as property P2 words it:
the first link leaves an output pin of the seed that carries the name, and
every further link leaves an output pin of a node already reached. -/
inductive ForwardReach (g : UEdGraph) (EventNode : Nat) (PinName : String) : Nat → Prop
  | direct (Pin : UEdGraphPin) (l : PinRef) : Pin ∈ pinsOf g EventNode →
      EqualsIgnoreCase Pin.PinName PinName = true →
      Pin.Direction = EEdGraphPinDirection.EGPD_Output →
      l ∈ Pin.LinkedTo → ForwardReach g EventNode PinName l.Node
  | step (a b : Nat) : ForwardReach g EventNode PinName a → ExecEdge g a b →
      ForwardReach g EventNode PinName b

/-! ### Scenario graphs -/

/-- An output pin. -/
def outPin (name : String) (links : List PinRef) : UEdGraphPin :=
  { PinName := name, Direction := EEdGraphPinDirection.EGPD_Output, LinkedTo := links }

/-- An input pin. -/
def inPin (name : String) (links : List PinRef) : UEdGraphPin :=
  { PinName := name, Direction := EEdGraphPinDirection.EGPD_Input, LinkedTo := links }

/-- Scenario 1: Event E (0) → FunctionCall F (1) → FunctionCall G (2), with a
literal node L (3) feeding a data input of G and linked to nothing else. -/
def scenario1 : UEdGraph where
  Objects :=
    [ ⟨"E", 0, 0, [outPin "Then" [⟨1, 0⟩]], none⟩,
      ⟨"F", 200, 0, [inPin "execute" [⟨0, 0⟩], outPin "then" [⟨2, 0⟩]], none⟩,
      ⟨"G", 400, 0, [inPin "execute" [⟨1, 1⟩], inPin "Value" [⟨3, 0⟩], outPin "then" []], none⟩,
      ⟨"L", 200, 100, [outPin "ReturnValue" [⟨2, 1⟩]], none⟩ ]
  Nodes := [0, 1, 2, 3]

/-- Scenario 2: three bound events for ("Button1", "OnClicked") at rows 10, 5
and 20 (nodes 0, 1, 2), each driving a function call of its own (3, 4, 5). -/
def scenario2 : UEdGraph where
  Objects :=
    [ ⟨"B0", 0, 10, [outPin "Then" [⟨3, 0⟩]], some ("Button1", "OnClicked")⟩,
      ⟨"B1", 0, 5, [outPin "Then" [⟨4, 0⟩]], some ("Button1", "OnClicked")⟩,
      ⟨"B2", 0, 20, [outPin "Then" [⟨5, 0⟩]], some ("Button1", "OnClicked")⟩,
      ⟨"C0", 200, 10, [inPin "execute" [⟨0, 0⟩], outPin "then" []], none⟩,
      ⟨"C1", 200, 5, [inPin "execute" [⟨1, 0⟩], outPin "then" []], none⟩,
      ⟨"C2", 200, 20, [inPin "execute" [⟨2, 0⟩], outPin "then" []], none⟩ ]
  Nodes := [0, 1, 2, 3, 4, 5]

/-- The pin of node `k` once the nodes of `R` have been removed: no link is
left when `k` is one of them, and the links into them are gone otherwise. -/
def detachPin (R : List Nat) (k : Nat) (Pin : UEdGraphPin) : UEdGraphPin :=
  if k ∈ R then Pin.withoutLinks
  else { Pin with LinkedTo := Pin.LinkedTo.filter (fun l => decide (l.Node ∉ R)) }

/-- The graph `g1` is `g` with the nodes of `R` detached: the same objects,
each pin with the links that `detachPin` leaves. -/
structure Detached (g g1 : UEdGraph) (R : List Nat) : Prop where
  length : g1.Objects.length = g.Objects.length
  pins : ∀ k, pinsOf g1 k = (pinsOf g k).map (detachPin R k)

/-- The invariant of the loop over `MatchedEvents`, `R` being the candidates
removed so far: the current graph is `g` with `R` detached, and every chain
node collected so far is forward-reachable in `g` from the named pin of a
removed candidate or has all its links of `g` ending at removed candidates or
collected chain nodes. -/
structure DedupeInv (g : UEdGraph) (EventOutputPinName : String) (st : DedupeState)
    (R : List Nat) : Prop where
  detached : Detached g st.Graph R
  nodes : ∀ n, n ∈ st.Graph.Nodes ↔ n ∈ g.Nodes ∧ n ∉ R
  chainValid : ∀ n ∈ st.ChainNodesToRemove, IsValid g n
  chain : ∀ n ∈ st.ChainNodesToRemove,
    (∃ c ∈ R, ∃ Pin, FindNodePinByName g c EventOutputPinName = some Pin ∧
      ExecReach g c Pin.LinkedTo n) ∨
    ((∃ b, LinkedNode g n b) ∧
      ∀ b, LinkedNode g n b → b ∈ R ∨ b ∈ st.ChainNodesToRemove)
  count : st.RemovedEventNodes = R.length

/-- Two duplicate bound events K (0, row 0) and D (1, row 10) for
("Button1", "OnClicked"), both wired to the same function call F (2). -/
def sharedChain : UEdGraph where
  Objects :=
    [ ⟨"K", 0, 0, [outPin "Then" [⟨2, 0⟩]], some ("Button1", "OnClicked")⟩,
      ⟨"D", 0, 10, [outPin "Then" [⟨2, 0⟩]], some ("Button1", "OnClicked")⟩,
      ⟨"F", 200, 0, [inPin "execute" [⟨0, 0⟩, ⟨1, 0⟩], outPin "then" []], none⟩ ]
  Nodes := [0, 1, 2]

/-- A seed S (0) whose pin named "Then" is an input pin, fed by the output of
A (1); A is itself fed by Z (2), and Z also feeds W (3). -/
def inputPinSeed : UEdGraph where
  Objects :=
    [ ⟨"S", 0, 0, [inPin "Then" [⟨1, 0⟩]], none⟩,
      ⟨"A", -200, 0, [outPin "out" [⟨0, 0⟩], inPin "in" [⟨2, 0⟩]], none⟩,
      ⟨"Z", -400, 0, [outPin "out" [⟨1, 1⟩, ⟨3, 0⟩]], none⟩,
      ⟨"W", -200, 100, [inPin "in" [⟨2, 0⟩]], none⟩ ]
  Nodes := [0, 1, 2, 3]

/-- A single bound event B (0) for ("Button1", "OnClicked") driving the call
C (1). -/
def oneBoundEvent : UEdGraph where
  Objects :=
    [ ⟨"B", 0, 0, [outPin "Then" [⟨1, 0⟩]], some ("Button1", "OnClicked")⟩,
      ⟨"C", 200, 0, [inPin "execute" [⟨0, 0⟩], outPin "then" []], none⟩ ]
  Nodes := [0, 1]

/-- The fields of a node that removal never touches: identifier, position and
bound-event names. -/
def nodeMeta (n : UEdGraphNode) : String × Int × Int × Option (String × String) :=
  (n.NodeGuid, n.NodePosX, n.NodePosY, n.BoundEvent)

/-- The graph `g1` holds the same node objects as `g` up to their pins. -/
def SameMeta (g g1 : UEdGraph) : Prop :=
  ∀ k : Nat, (g1.Objects[k]?).map nodeMeta = (g.Objects[k]?).map nodeMeta

/-- Three bound events for ("Button1", "OnClicked"): the survivor K (0, row 0)
drives G (4); the duplicates D1 (1, row 5) and D2 (2, row 10) both drive the
same call F (3). -/
def nestedDuplicates : UEdGraph where
  Objects :=
    [ ⟨"K", 0, 0, [outPin "Then" [⟨4, 0⟩]], some ("Button1", "OnClicked")⟩,
      ⟨"D1", 0, 5, [outPin "Then" [⟨3, 0⟩]], some ("Button1", "OnClicked")⟩,
      ⟨"D2", 0, 10, [outPin "Then" [⟨3, 0⟩]], some ("Button1", "OnClicked")⟩,
      ⟨"F", 200, 5, [inPin "execute" [⟨1, 0⟩, ⟨2, 0⟩], outPin "then" []], none⟩,
      ⟨"G", 200, 0, [inPin "execute" [⟨0, 0⟩], outPin "then" []], none⟩ ]
  Nodes := [0, 1, 2, 3, 4]

/-! ### Type resolver -/

/-- A member function: its name, and the pins a call node for it is given. -/
structure UFunction where
  Name : String
  Pins : List UEdGraphPin
  deriving DecidableEq, Repr

/-- A class of the type catalog: `GetName()`, its own member functions in
field-iterator order, and its super class when it has one. -/
inductive UClass where
  | root (Name : String) (Functions : List UFunction)
  | sub (Name : String) (Functions : List UFunction) (SuperClass : UClass)
  deriving DecidableEq, Repr

/-- The name `GetName()` of a class. -/
def UClass.GetName : UClass → String
  | .root Name _ => Name
  | .sub Name _ _ => Name

/-- The own member functions of a class. -/
def UClass.Functions : UClass → List UFunction
  | .root _ Functions => Functions
  | .sub _ Functions _ => Functions

/-- The parent `GetSuperClass()` of a class, absent at the root. -/
def UClass.GetSuperClass : UClass → Option UClass
  | .root _ _ => none
  | .sub _ _ SuperClass => some SuperClass

/-- The type catalog the resolver reads, taken as a parameter: `Classes` is what
`TObjectIterator<UClass>` yields (valid classes, in iteration order),
`FindObject` is `FindObject<UClass>(ANY_PACKAGE, name)` and `LoadObject` is
`LoadObject<UClass>(nullptr, path)`; a null result is `none`. -/
structure TypeCatalog where
  Classes : List UClass
  FindObject : String → Option UClass
  LoadObject : String → Option UClass

/-- The test `S.StartsWith(Start)`, which the host runs ignoring case unless
told otherwise. -/
def StartsWith (S Start : String) : Bool :=
  (lowerChars Start).isPrefixOf (lowerChars S)

/-- The string `S.RightChop(Count)`: `S` without its first `Count` characters. -/
def RightChop (S : String) (Count : Nat) : String :=
  ⟨S.data.drop Count⟩

/-- The string after `TrimStartAndEndInline()`: no whitespace at either end. -/
def TrimStartAndEnd (S : String) : String :=
  ⟨((S.data.dropWhile Char.isWhitespace).reverse.dropWhile Char.isWhitespace).reverse⟩

/-- The name with a leading "U" taken off, as `TargetNoPrefix` and
`CandidateNoPrefix` are computed (lines 57 and 67). -/
def stripUPrefix (Name : String) : String :=
  if StartsWith Name "U" then RightChop Name 1 else Name

/-- The test of the scan over all classes (lines 68-69). -/
def scanMatches (ClassName : String) (CandidateClass : UClass) : Bool :=
  EqualsIgnoreCase CandidateClass.GetName ClassName ||
    EqualsIgnoreCase (stripUPrefix CandidateClass.GetName) (stripUPrefix ClassName)

/-- The loop over `TObjectIterator<UClass>` (lines 58-74), left at the first
class that passes the test. -/
def scanClasses (ClassName : String) : List UClass → Option UClass
  | [] => none
  | CandidateClass :: rest =>
    if scanMatches ClassName CandidateClass then some CandidateClass
    else scanClasses ClassName rest

/-- The function `ResolveClassByName` (lines 35-78); `none` is `nullptr`. -/
def ResolveClassByName (cat : TypeCatalog) (InClassName : String) : Option UClass :=
  let ClassName := TrimStartAndEnd InClassName
  if ClassName = "" then none
  else
    let Resolved1 := cat.FindObject ClassName
    let Resolved2 :=
      if Resolved1.isNone ∧ StartsWith ClassName "/Script/" then cat.LoadObject ClassName
      else Resolved1
    let Resolved3 :=
      if Resolved2.isNone ∧ ¬ StartsWith ClassName "U" then cat.FindObject ("U" ++ ClassName)
      else Resolved2
    let Resolved4 :=
      if Resolved3.isNone then scanClasses ClassName cat.Classes else Resolved3
    Resolved4

/-- Strategy 1 of the resolver contract: exact name lookup. -/
def exactLookup (cat : TypeCatalog) (Name : String) : Option UClass :=
  cat.FindObject Name

/-- Strategy 2 of the resolver contract: direct load of a fully-qualified
module path. -/
def directLoad (cat : TypeCatalog) (Name : String) : Option UClass :=
  if StartsWith Name "/Script/" then cat.LoadObject Name else none

/-- Strategy 3 of the resolver contract: lookup with the letter "U" prepended
when the name does not begin with it. -/
def prefixedLookup (cat : TypeCatalog) (Name : String) : Option UClass :=
  if StartsWith Name "U" then none else cat.FindObject ("U" ++ Name)

/-- Strategy 4 of the resolver contract: the first class, in iteration order,
that equals the query ignoring case with or without the leading letter. -/
def linearScan (cat : TypeCatalog) (Name : String) : Option UClass :=
  cat.Classes.find? (scanMatches Name)

/-- The resolver contract of the design: the result of the earliest of the four
strategies that succeeds. -/
def firstSuccessfulStrategy (cat : TypeCatalog) (Name : String) : Option UClass :=
  (exactLookup cat Name).orElse fun _ =>
    (directLoad cat Name).orElse fun _ =>
      (prefixedLookup cat Name).orElse fun _ => linearScan cat Name

/-- A catalog holding exactly the given classes: a class is found under its
exact name and nothing can be loaded from a path. -/
def catalogOf (classes : List UClass) : TypeCatalog where
  Classes := classes
  FindObject := fun Name => classes.find? (fun c => c.GetName == Name)
  LoadObject := fun _ => none

/-- Scenario 4: a catalog that stores the class as "UGameplayStatics". -/
def scenario4 : TypeCatalog :=
  catalogOf [UClass.root "UObject" [], UClass.sub "UGameplayStatics" [] (UClass.root "UObject" [])]

/-! ### Function resolution and the function-call node -/

/-- Modelled from the spec: `UClass::FindFunctionByName` is a host operation
that is not part of the repository; it is the exact function-name match within
one type, among the member functions of that type. -/
def UClass.FindFunctionByName (c : UClass) (FunctionName : String) : Option UFunction :=
  c.Functions.find? (fun f => f.Name == FunctionName)

/-- The loop over `TFieldIterator<UFunction>` (lines 658-669), left at the first
function whose name equals `FunctionName` ignoring case. Modelled from the
spec: the iterator yields the member functions of the one type. -/
def findFunctionIgnoreCase (FunctionName : String) : List UFunction → Option UFunction
  | [] => none
  | AvailableFunc :: rest =>
    if EqualsIgnoreCase AvailableFunc.Name FunctionName then some AvailableFunc
    else findFunctionIgnoreCase FunctionName rest

/-- The body of the hierarchy loop for `CurrentClass` (lines 653-670): the exact
match, then the match ignoring case. -/
def searchClass (FunctionName : String) (CurrentClass : UClass) : Option UFunction :=
  match CurrentClass.FindFunctionByName FunctionName with
  | some Function => some Function
  | none => findFunctionIgnoreCase FunctionName CurrentClass.Functions

/-- The loop `while (!Function && CurrentClass)` (lines 648-674), entered with
no function found: the class is searched, then its super class. -/
def searchClassHierarchy (FunctionName : String) : UClass → Option UFunction
  | .root Name Functions => searchClass FunctionName (.root Name Functions)
  | .sub Name Functions SuperClass =>
    match searchClass FunctionName (.sub Name Functions SuperClass) with
    | some Function => some Function
    | none => searchClassHierarchy FunctionName SuperClass

/-- The function lookup in a resolved target class (lines 644-674): the exact
match in the target class first, then the walk up the hierarchy. -/
def findFunctionInClass (TargetClass : UClass) (FunctionName : String) : Option UFunction :=
  match TargetClass.FindFunctionByName FunctionName with
  | some Function => some Function
  | none => searchClassHierarchy FunctionName TargetClass

/-- The owner type followed by its ancestors, nearest first. -/
def UClass.ancestors : UClass → List UClass
  | .root Name Functions => [.root Name Functions]
  | .sub Name Functions SuperClass => .sub Name Functions SuperClass :: SuperClass.ancestors

/-- The match of one type as the design words it: the first function with
exactly the requested name, and failing that the first whose name equals it
ignoring case. -/
def matchInType (FunctionName : String) (c : UClass) : Option UFunction :=
  (c.Functions.find? (fun f => f.Name == FunctionName)).orElse fun _ =>
    c.Functions.find? (fun f => EqualsIgnoreCase f.Name FunctionName)

/-- The target class resolution of the function-call handler (lines 556-635):
exact lookup, lookup with "U" prepended, the two component names, load of a
script path, scan of all classes, and the special case "UGameplayStatics". -/
def resolveTargetClass (cat : TypeCatalog) (Target : String) : Option UClass :=
  let Target1 := cat.FindObject Target
  let Target2 :=
    if Target1.isNone ∧ ¬ StartsWith Target "U" then cat.FindObject ("U" ++ Target)
    else Target1
  let Target3 :=
    if Target2.isNone then
      match cat.FindObject ("U" ++ Target ++ "Component") with
      | some c => some c
      | none => cat.FindObject (Target ++ "Component")
    else Target2
  let Target4 :=
    if Target3.isNone ∧ StartsWith Target "/Script/" then cat.LoadObject Target
    else Target3
  let Target5 :=
    if Target4.isNone then scanClasses Target cat.Classes else Target4
  let Target6 :=
    if Target5.isNone ∧ EqualsIgnoreCase Target "UGameplayStatics" then
      match cat.FindObject "UGameplayStatics" with
      | some c => some c
      | none => cat.LoadObject "/Script/Engine.GameplayStatics"
    else Target5
  Target6

/-- Modelled from the spec: `EventGraph->AddNode` after `NewObject`,
`CreateNewGuid` and `AllocateDefaultPins`, host operations that are not part of
the repository. The new node object goes to the end of the object store and of
the graph's node array; the result is the graph and the pointer to the node. -/
def AddNode (g : UEdGraph) (NodeGuid : String) (NodePosition : Int × Int)
    (Pins : List UEdGraphPin) : UEdGraph × Nat :=
  (⟨g.Objects ++ [⟨NodeGuid, NodePosition.1, NodePosition.2, Pins, none⟩],
    g.Nodes ++ [g.Objects.length]⟩, g.Objects.length)

/-- Modelled from the spec: `FUnrealMCPCommonUtils::CreateFunctionCallNode` is
code of the repository that is not among the sources. It adds to the graph a
call node for the function, at the position, with the pins of the function. -/
def CreateFunctionCallNode (g : UEdGraph) (Function : UFunction) (NodePosition : Int × Int)
    (NewGuid : String) : UEdGraph × Nat :=
  AddNode g NewGuid NodePosition Function.Pins

/-- The test of the special case for a known function (lines 679-680). -/
def isGetActorOfClassCase (TargetClass : UClass) (FunctionName : String) : Bool :=
  EqualsIgnoreCase TargetClass.GetName "GameplayStatics" &&
    (EqualsIgnoreCase FunctionName "GetActorOfClass" ||
      EqualsIgnoreCase FunctionName "GetActorOfClass")

/-- The search in the target class (lines 553-713), for a non-empty `Target`:
`(Function, FunctionNode, graph)`. When the target class is found but the
function is not, the special case creates the node directly, with the pins
`UnresolvedPins` that the host allocates for the unresolved member. -/
def findInTarget (cat : TypeCatalog) (g : UEdGraph) (FunctionName Target : String)
    (NodePosition : Int × Int) (NewGuid : String) (UnresolvedPins : List UEdGraphPin) :
    Option UFunction × Option Nat × UEdGraph :=
  match resolveTargetClass cat Target with
  | none => (none, none, g)
  | some TargetClass =>
    match findFunctionInClass TargetClass FunctionName with
    | some Function => (some Function, none, g)
    | none =>
      if isGetActorOfClassCase TargetClass FunctionName then
        (none, some (AddNode g NewGuid NodePosition UnresolvedPins).2,
          (AddNode g NewGuid NodePosition UnresolvedPins).1)
      else (none, none, g)

/-- The part of `HandleAddBlueprintFunctionCall` that finds the function and
creates the node (lines 544-731), once the parameters are read and the event
graph is found: the error of line 730, or the graph with the new node and the
pointer `FunctionNode`. `GeneratedClass` is `Blueprint->GeneratedClass`. -/
def findOrCreateFunctionNode (cat : TypeCatalog) (g : UEdGraph) (GeneratedClass : UClass)
    (FunctionName Target : String) (NodePosition : Int × Int) (NewGuid : String)
    (UnresolvedPins : List UEdGraphPin) : Except String (UEdGraph × Nat) :=
  let found : Option UFunction × Option Nat × UEdGraph :=
    if Target ≠ "" then
      findInTarget cat g FunctionName Target NodePosition NewGuid UnresolvedPins
    else (none, none, g)
  let Function : Option UFunction :=
    if found.1.isNone ∧ found.2.1.isNone then GeneratedClass.FindFunctionByName FunctionName
    else found.1
  match found.2.1 with
  | some FunctionNode => Except.ok (found.2.2, FunctionNode)
  | none =>
    match Function with
    | some f => Except.ok (CreateFunctionCallNode found.2.2 f NodePosition NewGuid)
    | none =>
      Except.error ("Function not found: " ++ FunctionName ++ " in target " ++
        (if Target = "" then "Blueprint" else Target))

/-- A class with the member functions "Foo" on the owner and "foo", "Bar" on
its parent. -/
def sampleOwner : UClass :=
  UClass.sub "Child" [⟨"Foo", []⟩] (UClass.root "Parent" [⟨"foo", []⟩, ⟨"Bar", []⟩])

/-- A blueprint class with one member function "MyFunc". -/
def sampleGeneratedClass : UClass :=
  UClass.root "BP_Sample_C" [⟨"MyFunc", [inPin "execute" [], outPin "then" []]⟩]

/-! ### Command parameters, the blueprint store and responses -/

/-- A JSON number, held as the decimal literal `Mantissa * 10 ^ Exponent`. -/
structure FJsonNumber where
  Mantissa : Int
  Exponent : Int
  deriving DecidableEq, Repr

/-- A JSON value (`FJsonValue` with its `EJson` type tag). -/
inductive FJsonValue where
  | JsonNull
  | JsonString (Value : String)
  | JsonNumber (Value : FJsonNumber)
  | JsonBoolean (Value : Bool)
  | JsonArray (Items : List FJsonValue)
  | JsonObject (Values : List (String × FJsonValue))

/-- The fields of a JSON object (`FJsonObject::Values`), in iteration order. -/
abbrev FJsonObject := List (String × FJsonValue)

/-- The value of a field, if present (`FJsonObject::TryGetField`). -/
def TryGetField (Params : FJsonObject) (FieldName : String) : Option FJsonValue :=
  (Params.find? (fun f => f.1 == FieldName)).map (fun f => f.2)

/-- The method `FJsonObject::HasField`. -/
def HasField (Params : FJsonObject) (FieldName : String) : Bool :=
  (TryGetField Params FieldName).isSome

/-- The method `FJsonObject::TryGetObjectField`. -/
def TryGetObjectField (Params : FJsonObject) (FieldName : String) : Option FJsonObject :=
  match TryGetField Params FieldName with
  | some (FJsonValue.JsonObject Values) => some Values
  | _ => none

/-- The method `FJsonObject::GetBoolField`, read after `HasField`. -/
def GetBoolField (Params : FJsonObject) (FieldName : String) : Bool :=
  match TryGetField Params FieldName with
  | some (FJsonValue.JsonBoolean Value) => Value
  | _ => false

/-- The value of a response field. -/
inductive FResultValue where
  | Text (Value : String)
  | Count (Value : Nat)
  | Flag (Value : Bool)
  | Texts (Values : List String)
  deriving DecidableEq, Repr

/-- The response of a command: the error response of `CreateErrorResponse`
with its message, or the result object with its fields. -/
inductive FResponse where
  | Error (Message : String)
  | Result (Fields : List (String × FResultValue))
  deriving DecidableEq, Repr

/-- Whether the response is an error response. -/
def FResponse.isError : FResponse → Bool
  | FResponse.Error _ => true
  | FResponse.Result _ => false

/-- A member variable of a blueprint (`FBPVariableDescription`): its name, the
category and sub-category object of its pin type, and the flag `CPF_Edit`. -/
structure FBPVariableDescription where
  VarName : String
  PinCategory : EPinCategory
  PinSubCategoryObject : Option String
  Edit : Bool
  deriving DecidableEq, Repr

/-- The fields of `UBlueprint` the commands use. `EventGraph` is `none` while
the blueprint has no event graph; `Modified` and `StructurallyModified` count
the calls of `MarkBlueprintAsModified` and
`MarkBlueprintAsStructurallyModified` on the blueprint. -/
structure UBlueprint where
  EventGraph : Option UEdGraph
  GeneratedClass : UClass
  NewVariables : List FBPVariableDescription
  Modified : Nat
  StructurallyModified : Nat
  deriving DecidableEq, Repr

/-- The blueprints of the editor, by name. -/
abbrev BlueprintStore := List (String × UBlueprint)

/-- Modelled from the spec: `FUnrealMCPCommonUtils::FindBlueprint` is code of
the repository that is not among the sources. It finds the blueprint of the
given name. -/
def FindBlueprint (W : BlueprintStore) (BlueprintName : String) : Option UBlueprint :=
  (W.find? (fun e => e.1 == BlueprintName)).map (fun e => e.2)

/-- The store after the blueprint of the given name was changed in place. -/
def StoreBlueprint : BlueprintStore → String → UBlueprint → BlueprintStore
  | [], _, _ => []
  | e :: rest, BlueprintName, Blueprint =>
    if e.1 == BlueprintName then (e.1, Blueprint) :: rest
    else e :: StoreBlueprint rest BlueprintName Blueprint

/-- The call `FBlueprintEditorUtils::MarkBlueprintAsModified`. -/
def MarkBlueprintAsModified (Blueprint : UBlueprint) : UBlueprint :=
  { Blueprint with Modified := Blueprint.Modified + 1 }

/-- The call `FBlueprintEditorUtils::MarkBlueprintAsStructurallyModified`. -/
def MarkBlueprintAsStructurallyModified (Blueprint : UBlueprint) : UBlueprint :=
  { Blueprint with StructurallyModified := Blueprint.StructurallyModified + 1 }

/-- The blueprint with its event graph replaced by the graph the handler has
changed in place. -/
def UBlueprint.withGraph (Blueprint : UBlueprint) (EventGraph : UEdGraph) : UBlueprint :=
  { Blueprint with EventGraph := some EventGraph }

/-! ### Host operations taken as parameters -/

/-- A struct of the host (`UScriptStruct`): `GetName()` and `GetPathName()`. -/
structure UScriptStruct where
  Name : String
  PathName : String
  deriving DecidableEq, Repr

/-- A multicast delegate property of a class, with its signature function when
it has one. -/
structure FMulticastDelegateProperty where
  SignatureFunction : Option UFunction
  deriving DecidableEq, Repr

/-- The operations of the host editor and of `FUnrealMCPCommonUtils` that the
handlers call and that are not among the sources, taken as parameters. -/
structure FEditorHost where
  /-- The text `FJsonValueNumber::TryGetString` gives a number. -/
  NumberAsString : FJsonNumber → String
  /-- The text `FString::SanitizeFloat` of the number narrowed to `float`. -/
  SanitizeFloat : FJsonNumber → String
  /-- The text `FString::SanitizeFloat` of the number as a `double`. -/
  SanitizeDouble : FJsonNumber → String
  /-- The text the format `%f` gives for the number narrowed to `float`. -/
  PrintfFloat : FJsonNumber → String
  /-- The number `AsNumber` reads from a string value. -/
  StringAsNumber : String → FJsonNumber
  /-- The flag `AsBool` reads from a string value. -/
  StringAsBool : String → Bool
  /-- Whether the schema of the event graph is a `UEdGraphSchema_K2`. -/
  GraphSchemaIsK2 : Bool
  /-- The default object of the pin after `TrySetDefaultObject`. -/
  TrySetDefaultObject : UEdGraphPin → UClass → Option String
  /-- The default value of the pin after `TrySetDefaultValue`. -/
  TrySetDefaultValue : UEdGraphPin → String → String
  /-- The node after `ReconstructNode`. -/
  ReconstructNode : UEdGraphNode → UEdGraphNode
  /-- The identifier `CreateNewGuid` gives the next node of the graph. -/
  CreateNewGuid : UEdGraph → String
  /-- The pins allocated for a call node whose member is not resolved. -/
  UnresolvedPins : List UEdGraphPin
  /-- The position `GetVector2DFromJson` reads from a field. -/
  GetVector2DFromJson : FJsonObject → String → Int × Int
  /-- The graph `FindOrCreateEventGraph` creates for a blueprint that has no
  event graph, `none` when it returns null. -/
  CreateEventGraph : Option UEdGraph
  /-- The graph after `ConnectGraphNodes`, `none` when it returns false. -/
  ConnectGraphNodes : UEdGraph → Nat → String → Nat → String → Option UEdGraph
  /-- The graph and node of `CreateEventNode`, `none` when it returns null. -/
  CreateEventNode : UEdGraph → String → Int × Int → Option (UEdGraph × Nat)
  /-- The graph and node of `CreateInputActionNode`. -/
  CreateInputActionNode : UEdGraph → String → Int × Int → Option (UEdGraph × Nat)
  /-- The graph and node of `CreateSelfReferenceNode`. -/
  CreateSelfReferenceNode : UEdGraph → Int × Int → Option (UEdGraph × Nat)
  /-- The pins of a variable-get node for a member of the given name. -/
  VariableGetPins : String → List UEdGraphPin
  /-- The pins of a dynamic-cast node to the given class. -/
  DynamicCastPins : UClass → List UEdGraphPin
  /-- The pins of a get-subsystem node for the given class. -/
  GetSubsystemPins : UClass → List UEdGraphPin
  /-- Whether the class is a child of `USubsystem`. -/
  IsSubsystem : UClass → Bool
  /-- The path name `GetPathName` of a class. -/
  GetPathName : UClass → String
  /-- The member variables of the blueprint after
  `FBlueprintEditorUtils::AddMemberVariable`. -/
  AddMemberVariable :
    UBlueprint → String → EPinCategory → Option String → List FBPVariableDescription
  /-- The member name of the event reference of a node that is a
  `UK2Node_Event`, `none` when the cast fails. -/
  EventMemberName : UEdGraphNode → Option String
  /-- The struct `FindObject<UScriptStruct>` finds under a name. -/
  FindStruct : String → Option UScriptStruct
  /-- The struct `LoadObject<UScriptStruct>` loads from a path. -/
  LoadStruct : String → Option UScriptStruct
  /-- The valid structs `TObjectIterator<UScriptStruct>` yields, in order. -/
  Structs : List UScriptStruct
  /-- The pins of a make-struct node for the given struct. -/
  MakeStructPins : UScriptStruct → List UEdGraphPin
  /-- The property `FindFProperty<FMulticastDelegateProperty>` finds on a class
  under a name. -/
  FindDelegateProperty : UClass → String → Option FMulticastDelegateProperty
  /-- The pins of an assign-delegate node set from the given property. -/
  AssignDelegatePins : UClass → String → List UEdGraphPin
  /-- The name `FBlueprintEditorUtils::FindUniqueKismetName` gives. -/
  FindUniqueKismetName : UBlueprint → String → String
  /-- The graph and node of `UK2Node_CustomEvent::CreateFromFunction`, `none`
  when it returns null. -/
  CreateCustomEvent : UEdGraph → Int × Int → String → UFunction → Option (UEdGraph × Nat)
  /-- The pin `FindPin(UK2Node_CustomEvent::DelegateOutputName)` of a node. -/
  CustomEventDelegatePin : UEdGraph → Nat → Option PinRef
  /-- The pin `GetDelegatePin()` of an assign-delegate node. -/
  GetDelegatePin : UEdGraph → Nat → Option PinRef
  /-- Whether `EventGraph->GetSchema()` is not null. -/
  HasSchema : Bool
  /-- The graph after `TryCreateConnection`, `none` when it returns false. -/
  TryCreateConnection : UEdGraph → PinRef → PinRef → Option UEdGraph
  /-- The graph after `MakeLinkTo`. -/
  MakeLinkTo : UEdGraph → PinRef → PinRef → UEdGraph
  /-- The text `CustomFunctionName.ToString()` of a custom event node. -/
  CustomFunctionName : UEdGraph → Nat → String

/-- The method `FJsonObject::TryGetStringField`, which succeeds when the field
is present and `TryGetString` succeeds on its value: a string gives itself, a
number the text the host gives it, a flag "true" or "false"; it fails on null,
on an array and on an object. -/
def TryGetStringField (H : FEditorHost) (Params : FJsonObject) (FieldName : String) :
    Option String :=
  match TryGetField Params FieldName with
  | some (FJsonValue.JsonString Value) => some Value
  | some (FJsonValue.JsonNumber Value) => some (H.NumberAsString Value)
  | some (FJsonValue.JsonBoolean Value) => some (if Value then "true" else "false")
  | _ => none

/-- Modelled from the spec: `FUnrealMCPCommonUtils::FindOrCreateEventGraph` is
code of the repository that is not among the sources. It returns the event
graph of the blueprint, and creates one for a blueprint that has none. -/
def FindOrCreateEventGraph (H : FEditorHost) (Blueprint : UBlueprint) :
    Option (UBlueprint × UEdGraph) :=
  match Blueprint.EventGraph with
  | some EventGraph => some (Blueprint, EventGraph)
  | none =>
    match H.CreateEventGraph with
    | some EventGraph => some (Blueprint.withGraph EventGraph, EventGraph)
    | none => none

/-- The test of a required string parameter, as every handler makes it:
`if (!Params->TryGetStringField(Field, Value)) return CreateErrorResponse(...)`
with the message "Missing 'Field' parameter". -/
def requireStringField (H : FEditorHost) (W : BlueprintStore) (Params : FJsonObject)
    (FieldName : String) (body : String → FResponse × BlueprintStore) :
    FResponse × BlueprintStore :=
  match TryGetStringField H Params FieldName with
  | none => (FResponse.Error ("Missing '" ++ FieldName ++ "' parameter"), W)
  | some Value => body Value

/-- The lookup of the blueprint alone, as `HandleAddBlueprintVariable` makes it
(lines 986-990): the error when the blueprint is not found, otherwise the
response of `body` and the store with the blueprint as `body` leaves it. -/
def withBlueprint (W : BlueprintStore) (BlueprintName : String)
    (body : UBlueprint → FResponse × UBlueprint) : FResponse × BlueprintStore :=
  match FindBlueprint W BlueprintName with
  | none => (FResponse.Error ("Blueprint not found: " ++ BlueprintName), W)
  | some Blueprint =>
    ((body Blueprint).1, StoreBlueprint W BlueprintName (body Blueprint).2)

/-- The lookup of the blueprint and of its event graph, as the handlers make
it (for instance lines 335-346): the two errors, otherwise the response of
`body` and the store with the blueprint as `body` leaves it. -/
def withEventGraph (H : FEditorHost) (W : BlueprintStore) (BlueprintName : String)
    (body : UBlueprint → UEdGraph → FResponse × UBlueprint) : FResponse × BlueprintStore :=
  withBlueprint W BlueprintName fun Blueprint =>
    match FindOrCreateEventGraph H Blueprint with
    | none => (FResponse.Error "Failed to get event graph", Blueprint)
    | some found => body found.1 found.2

/-- The optional parameter `node_position` (for instance lines 399-403). -/
def readNodePosition (H : FEditorHost) (Params : FJsonObject) : Int × Int :=
  if HasField Params "node_position" then H.GetVector2DFromJson Params "node_position"
  else (0, 0)

/-- The first valid node of the graph whose identifier equals the given one as
`FString ==` compares them, as the loops of lines 1447-1455, 1518-1526,
1834-1841 and 1877-1884 find it. -/
def findNodeByGuid (g : UEdGraph) (NodeId : String) : Option Nat :=
  g.Nodes.find? (fun Node =>
    decide (IsValid g Node) && EqualsIgnoreCase (nodeGuid g Node) NodeId)

/-! ### Integer conversion -/

/-- The call `FMath::RoundToInt` on the number `AsNumber` returns, which is
`floor (F + 0.5)` as a 64-bit integer, computed on the exact value
`Mantissa * 10 ^ Exponent` of the number. -/
def RoundToInt (Value : FJsonNumber) : Int :=
  if 0 ≤ Value.Exponent then Value.Mantissa * 10 ^ Value.Exponent.toNat
  else
    (2 * Value.Mantissa + 10 ^ (-Value.Exponent).toNat) / (2 * 10 ^ (-Value.Exponent).toNat)

/-- The narrowing of the rounded value to `int32`, the type of `IntValue`
(lines 819 and 887) and of the argument of `FString::FromInt`: the value
modulo `2 ^ 32`, in the range of `int32`. -/
def toInt32 (Value : Int) : Int :=
  (Value + 2147483648) % 4294967296 - 2147483648

/-- The text `FString::FromInt`: the decimal text of the integer. -/
def FromInt (Value : Int) : String :=
  toString Value

/-- The method `AsNumber` of a JSON value: the number itself, the number a
string or a flag is read as, zero for the other values. -/
def FJsonValue.AsNumber (H : FEditorHost) : FJsonValue → FJsonNumber
  | FJsonValue.JsonNumber Value => Value
  | FJsonValue.JsonString Value => H.StringAsNumber Value
  | FJsonValue.JsonBoolean Value => if Value then ⟨1, 0⟩ else ⟨0, 0⟩
  | _ => ⟨0, 0⟩

/-- The name of the struct `TBaseStructure<FVector>::Get()`. -/
def FVectorStruct : String := "Vector"

/-- Modelled from the spec: `FUnrealMCPCommonUtils::FindPin` is code of the
repository that is not among the sources. It finds the first pin of the given
direction whose name is exactly the given name; the result is the position of
the pin in the pin array. -/
def FindPin (Pins : List UEdGraphPin) (PinName : String) (Direction : EEdGraphPinDirection) :
    Option Nat :=
  let Index := Pins.findIdx (fun Pin => Pin.PinName == PinName && Pin.Direction == Direction)
  if Index < Pins.length then some Index else none

/-- The class lookup for a class-reference pin (lines 777-791): `FindObject`,
then `LoadObject`, then `LoadObject` of the name under "/Script/Engine.". -/
def findClassReference (cat : TypeCatalog) (ClassName : String) : Option UClass :=
  let Class1 := cat.FindObject ClassName
  let Class2 := if Class1.isNone then cat.LoadObject ClassName else Class1
  if Class2.isNone then cat.LoadObject ("/Script/Engine." ++ ClassName) else Class2

/-- The text `FString::Printf("(X=%f,Y=%f,Z=%f)", X, Y, Z)` of lines 849-853
and 921-925, for an array of three values. -/
def vectorString (H : FEditorHost) (X Y Z : FJsonValue) : String :=
  "(X=" ++ H.PrintfFloat (X.AsNumber H) ++ ",Y=" ++ H.PrintfFloat (Y.AsNumber H) ++
    ",Z=" ++ H.PrintfFloat (Z.AsNumber H) ++ ")"

/-- The text of a flag, `BoolValue ? "true" : "false"`. -/
def boolText (BoolValue : Bool) : String :=
  if BoolValue then "true" else "false"

/-- The branch for a string value (lines 762-880): the pin with its new
default, or the error that ends the command. -/
def setStringParameter (H : FEditorHost) (cat : TypeCatalog) (ParamPin : UEdGraphPin)
    (StringVal : String) : Except String UEdGraphPin :=
  if ParamPin.PinCategory = EPinCategory.PC_Class then
    match findClassReference cat StringVal with
    | none => Except.error ("Failed to find class '" ++ StringVal ++ "'")
    | some Class =>
      if ¬ H.GraphSchemaIsK2 then Except.error "Failed to get K2Schema"
      else if H.TrySetDefaultObject ParamPin Class ≠ some Class.GetName then
        Except.error ("Failed to set class reference for pin '" ++ ParamPin.PinName ++ "'")
      else Except.ok { ParamPin with DefaultObject := H.TrySetDefaultObject ParamPin Class }
  else if ParamPin.PinCategory = EPinCategory.PC_Int then
    Except.ok { ParamPin with
      DefaultValue := FromInt (toInt32 (RoundToInt (H.StringAsNumber StringVal))) }
  else if ParamPin.PinCategory = EPinCategory.PC_Float then
    Except.ok { ParamPin with DefaultValue := H.SanitizeFloat (H.StringAsNumber StringVal) }
  else if ParamPin.PinCategory = EPinCategory.PC_Boolean then
    Except.ok { ParamPin with DefaultValue := boolText (H.StringAsBool StringVal) }
  else if ParamPin.PinCategory = EPinCategory.PC_Struct ∧
      ParamPin.PinSubCategoryObject = some FVectorStruct then
    Except.ok ParamPin
  else
    Except.ok { ParamPin with DefaultValue := H.TrySetDefaultValue ParamPin StringVal }

/-- The body of the loop over the parameters for a pin that was found (lines
762-939): the dispatch on the type of the JSON value, then on the category of
the pin. The result is the pin with its new default, or the error that ends
the command. -/
def setParameterDefault (H : FEditorHost) (cat : TypeCatalog) (ParamPin : UEdGraphPin) :
    FJsonValue → Except String UEdGraphPin
  | FJsonValue.JsonString StringVal => setStringParameter H cat ParamPin StringVal
  | FJsonValue.JsonNumber Value =>
    if ParamPin.PinCategory = EPinCategory.PC_Int then
      Except.ok { ParamPin with DefaultValue := FromInt (toInt32 (RoundToInt Value)) }
    else
      Except.ok { ParamPin with DefaultValue := H.SanitizeFloat Value }
  | FJsonValue.JsonBoolean BoolValue =>
    Except.ok { ParamPin with DefaultValue := boolText BoolValue }
  | FJsonValue.JsonArray [X, Y, Z] =>
    if ParamPin.PinCategory = EPinCategory.PC_Struct ∧
        ParamPin.PinSubCategoryObject = some FVectorStruct then
      Except.ok { ParamPin with DefaultValue := vectorString H X Y Z }
    else Except.ok ParamPin
  | _ => Except.ok ParamPin

/-- The loop over the parameters (lines 743-945) on the pins of the function
node: the error that ends the command, if any, and the pins as the loop leaves
them. A parameter whose pin is not found is skipped. -/
def setFunctionParameters (H : FEditorHost) (cat : TypeCatalog) :
    List (String × FJsonValue) → List UEdGraphPin → Option String × List UEdGraphPin
  | [], Pins => (none, Pins)
  | Param :: rest, Pins =>
    match FindPin Pins Param.1 EEdGraphPinDirection.EGPD_Input with
    | none => setFunctionParameters H cat rest Pins
    | some Index =>
      match Pins[Index]? with
      | none => setFunctionParameters H cat rest Pins
      | some ParamPin =>
        match setParameterDefault H cat ParamPin Param.2 with
        | Except.error Message => (some Message, Pins)
        | Except.ok NewPin => setFunctionParameters H cat rest (Pins.set Index NewPin)

/-- The parameters the loop runs over: the values of the field `params` when
it holds an object (lines 737-741), none otherwise. -/
def functionParameters (Params : FJsonObject) : List (String × FJsonValue) :=
  match TryGetObjectField Params "params" with
  | some ParamsObj => ParamsObj
  | none => []

/-- The graph with the node behind a pointer replaced. -/
def UEdGraph.setNode (g : UEdGraph) (Node : Nat) (NewNode : UEdGraphNode) : UEdGraph :=
  { g with Objects := g.Objects.set Node NewNode }

/-- The node behind a pointer with its pins replaced. -/
def UEdGraphNode.withPins (Node : UEdGraphNode) (Pins : List UEdGraphPin) : UEdGraphNode :=
  { Node with Pins := Pins }

/-! ### The command handlers -/

/-- The body of the node search of `HandleConnectBlueprintNodes` (lines
353-360) on the state `(SourceNode, TargetNode)`: a node whose identifier is
`SourceNodeId` becomes the source node, otherwise a node whose identifier is
`TargetNodeId` becomes the target node; the identifiers are compared as
`FString ==` compares them. -/
def connectSearchStep (g : UEdGraph) (SourceNodeId TargetNodeId : String)
    (st : Option Nat × Option Nat) (Node : Nat) : Option Nat × Option Nat :=
  if EqualsIgnoreCase (nodeGuid g Node) SourceNodeId then (some Node, st.2)
  else if EqualsIgnoreCase (nodeGuid g Node) TargetNodeId then (st.1, some Node)
  else st

/-- The node search of `HandleConnectBlueprintNodes` (lines 349-361). -/
def findSourceAndTarget (g : UEdGraph) (SourceNodeId TargetNodeId : String) :
    Option Nat × Option Nat :=
  g.Nodes.foldl (connectSearchStep g SourceNodeId TargetNodeId) (none, none)

/-- The handler `HandleConnectBlueprintNodes` (lines 301-381). -/
def HandleConnectBlueprintNodes (H : FEditorHost) (W : BlueprintStore) (Params : FJsonObject) :
    FResponse × BlueprintStore :=
  requireStringField H W Params "blueprint_name" fun BlueprintName =>
  requireStringField H W Params "source_node_id" fun SourceNodeId =>
  requireStringField H W Params "target_node_id" fun TargetNodeId =>
  requireStringField H W Params "source_pin" fun SourcePinName =>
  requireStringField H W Params "target_pin" fun TargetPinName =>
  withEventGraph H W BlueprintName fun Blueprint EventGraph =>
    match findSourceAndTarget EventGraph SourceNodeId TargetNodeId with
    | (some SourceNode, some TargetNode) =>
      match H.ConnectGraphNodes EventGraph SourceNode SourcePinName TargetNode TargetPinName with
      | some Connected =>
        (FResponse.Result [("source_node_id", FResultValue.Text SourceNodeId),
            ("target_node_id", FResultValue.Text TargetNodeId)],
          MarkBlueprintAsModified (Blueprint.withGraph Connected))
      | none => (FResponse.Error "Failed to connect nodes", Blueprint)
    | _ => (FResponse.Error "Source or target node not found", Blueprint)

/-- The response and blueprint of a handler that has added a node and marks
the blueprint as modified (for instance lines 445-450). -/
def nodeAddedModified (Blueprint : UBlueprint) (added : UEdGraph × Nat) :
    FResponse × UBlueprint :=
  (FResponse.Result [("node_id", FResultValue.Text (nodeGuid added.1 added.2))],
    MarkBlueprintAsModified (Blueprint.withGraph added.1))

/-- The handler `HandleAddBlueprintGetSelfComponentReference` (lines 383-451). -/
def HandleAddBlueprintGetSelfComponentReference (H : FEditorHost) (W : BlueprintStore)
    (Params : FJsonObject) : FResponse × BlueprintStore :=
  requireStringField H W Params "blueprint_name" fun BlueprintName =>
  requireStringField H W Params "component_name" fun ComponentName =>
  withEventGraph H W BlueprintName fun Blueprint EventGraph =>
    nodeAddedModified Blueprint
      (AddNode EventGraph (H.CreateNewGuid EventGraph) (readNodePosition H Params)
        (H.VariableGetPins ComponentName))

/-- The handler `HandleAddBlueprintEvent` (lines 453-502). -/
def HandleAddBlueprintEvent (H : FEditorHost) (W : BlueprintStore) (Params : FJsonObject) :
    FResponse × BlueprintStore :=
  requireStringField H W Params "blueprint_name" fun BlueprintName =>
  requireStringField H W Params "event_name" fun EventName =>
  withEventGraph H W BlueprintName fun Blueprint EventGraph =>
    match H.CreateEventNode EventGraph EventName (readNodePosition H Params) with
    | none => (FResponse.Error "Failed to create event node", Blueprint)
    | some added => nodeAddedModified Blueprint added

/-- The function node after `FunctionNode->ReconstructNode()` (line 734). -/
def reconstructedNode (H : FEditorHost) (g : UEdGraph) (FunctionNode : Nat) : UEdGraphNode :=
  H.ReconstructNode (g.Objects.getD FunctionNode ⟨"", 0, 0, [], none⟩)

/-- The handler `HandleAddBlueprintFunctionCall` (lines 504-955): the node is
found or created, reconstructed, its parameters are set, and the blueprint is
marked as modified. An error of the parameter loop returns with the node, and
the defaults set so far, left in the graph. -/
def HandleAddBlueprintFunctionCall (H : FEditorHost) (cat : TypeCatalog) (W : BlueprintStore)
    (Params : FJsonObject) : FResponse × BlueprintStore :=
  requireStringField H W Params "blueprint_name" fun BlueprintName =>
  requireStringField H W Params "function_name" fun FunctionName =>
  withEventGraph H W BlueprintName fun Blueprint EventGraph =>
    match findOrCreateFunctionNode cat EventGraph Blueprint.GeneratedClass FunctionName
        ((TryGetStringField H Params "target").getD "") (readNodePosition H Params)
        (H.CreateNewGuid EventGraph) H.UnresolvedPins with
    | Except.error Message => (FResponse.Error Message, Blueprint)
    | Except.ok created =>
      let FunctionNode := created.2
      let Reconstructed := reconstructedNode H created.1 FunctionNode
      let r := setFunctionParameters H cat (functionParameters Params) Reconstructed.Pins
      let g := created.1.setNode FunctionNode (Reconstructed.withPins r.2)
      match r.1 with
      | some Message => (FResponse.Error Message, Blueprint.withGraph g)
      | none => nodeAddedModified Blueprint (g, FunctionNode)

/-- The pin type of `HandleAddBlueprintVariable` for a type name (lines
993-1020): category and sub-category object, `none` for an unsupported name.
The name is compared as `FString ==` compares it. -/
def variablePinType (VariableType : String) : Option (EPinCategory × Option String) :=
  if EqualsIgnoreCase VariableType "Boolean" then some (EPinCategory.PC_Boolean, none)
  else if EqualsIgnoreCase VariableType "Integer" ∨ EqualsIgnoreCase VariableType "Int" then
    some (EPinCategory.PC_Int, none)
  else if EqualsIgnoreCase VariableType "Float" then some (EPinCategory.PC_Float, none)
  else if EqualsIgnoreCase VariableType "String" then some (EPinCategory.PC_String, none)
  else if EqualsIgnoreCase VariableType "Vector" then
    some (EPinCategory.PC_Struct, some FVectorStruct)
  else none

/-- The flag `CPF_Edit` set on the first variable of the given name, as
`FName`s compare (lines 1026-1043). -/
def exposeVariable (VariableName : String) :
    List FBPVariableDescription → List FBPVariableDescription
  | [] => []
  | Variable :: rest =>
    if EqualsIgnoreCase Variable.VarName VariableName then
      { Variable with Edit := true } :: rest
    else Variable :: exposeVariable VariableName rest

/-- The handler `HandleAddBlueprintVariable` (lines 957-1052). -/
def HandleAddBlueprintVariable (H : FEditorHost) (W : BlueprintStore) (Params : FJsonObject) :
    FResponse × BlueprintStore :=
  requireStringField H W Params "blueprint_name" fun BlueprintName =>
  requireStringField H W Params "variable_name" fun VariableName =>
  requireStringField H W Params "variable_type" fun VariableType =>
  let IsExposed := HasField Params "is_exposed" && GetBoolField Params "is_exposed"
  withBlueprint W BlueprintName fun Blueprint =>
    match variablePinType VariableType with
    | none => (FResponse.Error ("Unsupported variable type: " ++ VariableType), Blueprint)
    | some PinType =>
      let Added := H.AddMemberVariable Blueprint VariableName PinType.1 PinType.2
      let Exposed := if IsExposed then exposeVariable VariableName Added else Added
      (FResponse.Result [("variable_name", FResultValue.Text VariableName),
          ("variable_type", FResultValue.Text VariableType)],
        MarkBlueprintAsModified { Blueprint with NewVariables := Exposed })

/-- The handler `HandleAddBlueprintInputActionNode` (lines 1054-1103). -/
def HandleAddBlueprintInputActionNode (H : FEditorHost) (W : BlueprintStore)
    (Params : FJsonObject) : FResponse × BlueprintStore :=
  requireStringField H W Params "blueprint_name" fun BlueprintName =>
  requireStringField H W Params "action_name" fun ActionName =>
  withEventGraph H W BlueprintName fun Blueprint EventGraph =>
    match H.CreateInputActionNode EventGraph ActionName (readNodePosition H Params) with
    | none => (FResponse.Error "Failed to create input action node", Blueprint)
    | some added => nodeAddedModified Blueprint added

/-- The handler `HandleAddBlueprintSelfReference` (lines 1105-1148). -/
def HandleAddBlueprintSelfReference (H : FEditorHost) (W : BlueprintStore)
    (Params : FJsonObject) : FResponse × BlueprintStore :=
  requireStringField H W Params "blueprint_name" fun BlueprintName =>
  withEventGraph H W BlueprintName fun Blueprint EventGraph =>
    match H.CreateSelfReferenceNode EventGraph (readNodePosition H Params) with
    | none => (FResponse.Error "Failed to create self node", Blueprint)
    | some added => nodeAddedModified Blueprint added

/-- The handler `HandleAddBlueprintDynamicCastNode` (lines 1150-1208). -/
def HandleAddBlueprintDynamicCastNode (H : FEditorHost) (cat : TypeCatalog)
    (W : BlueprintStore) (Params : FJsonObject) : FResponse × BlueprintStore :=
  requireStringField H W Params "blueprint_name" fun BlueprintName =>
  requireStringField H W Params "target_class" fun TargetClassName =>
  withEventGraph H W BlueprintName fun Blueprint EventGraph =>
    match ResolveClassByName cat TargetClassName with
    | none =>
      (FResponse.Error ("Failed to resolve target class: " ++ TargetClassName), Blueprint)
    | some TargetClass =>
      nodeAddedModified Blueprint
        (AddNode EventGraph (H.CreateNewGuid EventGraph) (readNodePosition H Params)
          (H.DynamicCastPins TargetClass))

/-- The handler `HandleAddBlueprintSubsystemGetterNode` (lines 1210-1276). -/
def HandleAddBlueprintSubsystemGetterNode (H : FEditorHost) (cat : TypeCatalog)
    (W : BlueprintStore) (Params : FJsonObject) : FResponse × BlueprintStore :=
  requireStringField H W Params "blueprint_name" fun BlueprintName =>
  requireStringField H W Params "subsystem_class" fun SubsystemClassName =>
  withEventGraph H W BlueprintName fun Blueprint EventGraph =>
    match ResolveClassByName cat SubsystemClassName with
    | none =>
      (FResponse.Error ("Failed to resolve subsystem class: " ++ SubsystemClassName),
        Blueprint)
    | some SubsystemClass =>
      if ¬ H.IsSubsystem SubsystemClass then
        (FResponse.Error ("Class is not a subsystem: " ++ H.GetPathName SubsystemClass),
          Blueprint)
      else
        let added := AddNode EventGraph (H.CreateNewGuid EventGraph)
          (readNodePosition H Params) (H.GetSubsystemPins SubsystemClass)
        (FResponse.Result [("node_id", FResultValue.Text (nodeGuid added.1 added.2)),
            ("subsystem_class", FResultValue.Text (H.GetPathName SubsystemClass))],
          MarkBlueprintAsStructurallyModified (Blueprint.withGraph added.1))

/-- Modelled from the spec: the host's `UEdGraphPin::BreakAllPinLinks`, which
is not part of the repository. The pins of the node at index `i` after the
links of the pin `Target` are broken: the pin itself loses every link and
every other pin loses its links to it. -/
def breakPinLinksInNode (Target : PinRef) (i : Nat) :
    Nat → List UEdGraphPin → List UEdGraphPin
  | _, [] => []
  | j, Pin :: rest =>
    (if i = Target.Node ∧ j = Target.Pin then Pin.withoutLinks
     else { Pin with LinkedTo := Pin.LinkedTo.filter (fun l => l ≠ Target) })
      :: breakPinLinksInNode Target i (j + 1) rest

/-- Modelled from the spec: the object store after `BreakAllPinLinks` on the
pin `Target`, walking the store from index `i`. -/
def breakPinLinksInStore (Target : PinRef) : Nat → List UEdGraphNode → List UEdGraphNode
  | _, [] => []
  | i, n :: rest =>
    { n with Pins := breakPinLinksInNode Target i 0 n.Pins }
      :: breakPinLinksInStore Target (i + 1) rest

/-- Modelled from the spec: the graph after `TargetPin->BreakAllPinLinks()`.
After it the pin and its former partners no longer appear in each other. -/
def BreakAllPinLinks (g : UEdGraph) (Target : PinRef) : UEdGraph :=
  { g with Objects := breakPinLinksInStore Target 0 g.Objects }

/-- The pin behind a pin pointer. -/
def pinAt (g : UEdGraph) (Ref : PinRef) : Option UEdGraphPin :=
  (pinsOf g Ref.Node)[Ref.Pin]?

/-- The position of the first pin whose name equals the given one as
`FString ==` compares them, as the loop of lines 1462-1470 finds it. -/
def findPinIndexByName (Pins : List UEdGraphPin) (PinName : String) : Option Nat :=
  let Index := Pins.findIdx (fun Pin => EqualsIgnoreCase Pin.PinName PinName)
  if Index < Pins.length then some Index else none

/-- The handler `HandleBreakBlueprintNodePinLinks` (lines 1415-1487). -/
def HandleBreakBlueprintNodePinLinks (H : FEditorHost) (W : BlueprintStore)
    (Params : FJsonObject) : FResponse × BlueprintStore :=
  requireStringField H W Params "blueprint_name" fun BlueprintName =>
  requireStringField H W Params "node_id" fun NodeId =>
  requireStringField H W Params "pin_name" fun PinName =>
  withEventGraph H W BlueprintName fun Blueprint EventGraph =>
    match findNodeByGuid EventGraph NodeId with
    | none => (FResponse.Error ("Node not found: " ++ NodeId), Blueprint)
    | some TargetNode =>
      match findPinIndexByName (pinsOf EventGraph TargetNode) PinName with
      | none =>
        (FResponse.Error ("Pin '" ++ PinName ++ "' not found on node '" ++ NodeId ++ "'"),
          Blueprint)
      | some TargetPin =>
        let PreviousLinkCount :=
          match pinAt EventGraph ⟨TargetNode, TargetPin⟩ with
          | some Pin => Pin.LinkedTo.length
          | none => 0
        (FResponse.Result [("node_id", FResultValue.Text NodeId),
            ("pin_name", FResultValue.Text PinName),
            ("removed_links", FResultValue.Count PreviousLinkCount)],
          MarkBlueprintAsModified
            (Blueprint.withGraph (BreakAllPinLinks EventGraph ⟨TargetNode, TargetPin⟩)))

/-- The handler `HandleClearBlueprintEventExecChain` (lines 1489-1559). The
removal loop of lines 1542-1550 is the loop `removeChainNode`. -/
def HandleClearBlueprintEventExecChain (H : FEditorHost) (W : BlueprintStore)
    (Params : FJsonObject) : FResponse × BlueprintStore :=
  requireStringField H W Params "blueprint_name" fun BlueprintName =>
  requireStringField H W Params "event_node_id" fun EventNodeId =>
  let EventOutputPinName := (TryGetStringField H Params "event_output_pin").getD "Then"
  withEventGraph H W BlueprintName fun Blueprint EventGraph =>
    match findNodeByGuid EventGraph EventNodeId with
    | none => (FResponse.Error ("Event node not found: " ++ EventNodeId), Blueprint)
    | some EventNode =>
      match FindNodePinByName EventGraph EventNode EventOutputPinName with
      | none =>
        (FResponse.Error ("Pin '" ++ EventOutputPinName ++ "' not found on event node '" ++
            EventNodeId ++ "'"), Blueprint)
      | some _ =>
        let removed :=
          (CollectExecChainNodes EventGraph EventNode EventOutputPinName).foldl
            removeChainNode (EventGraph, 0)
        (FResponse.Result [("event_node_id", FResultValue.Text EventNodeId),
            ("event_output_pin", FResultValue.Text EventOutputPinName),
            ("removed_nodes", FResultValue.Count removed.2)],
          MarkBlueprintAsStructurallyModified (Blueprint.withGraph removed.1))

/-- The whole handler `HandleDedupeBlueprintComponentBoundEvents` (lines
1561-1711): the parameters are read, the blueprint and its event graph are
found, and the part from line 1599 on runs on the graph. With at most one
candidate the handler returns at line 1635, before the blueprint is marked. -/
def HandleDedupeCommand (H : FEditorHost) (W : BlueprintStore) (Params : FJsonObject) :
    FResponse × BlueprintStore :=
  requireStringField H W Params "blueprint_name" fun BlueprintName =>
  requireStringField H W Params "widget_name" fun WidgetName =>
  requireStringField H W Params "event_name" fun EventName =>
  let KeepNodeId := (TryGetStringField H Params "keep_node_id").getD ""
  let EventOutputPinName := (TryGetStringField H Params "event_output_pin").getD "Then"
  withEventGraph H W BlueprintName fun Blueprint EventGraph =>
    let r := HandleDedupeBlueprintComponentBoundEvents EventGraph WidgetName EventName
      KeepNodeId EventOutputPinName
    if r.matched_events ≤ 1 then
      (FResponse.Result ([("widget_name", FResultValue.Text WidgetName),
          ("event_name", FResultValue.Text EventName),
          ("matched_events", FResultValue.Count r.matched_events),
          ("removed_event_nodes", FResultValue.Count 0),
          ("removed_chain_nodes", FResultValue.Count 0)] ++
          (match r.kept_node_id with
           | some Id => [("kept_node_id", FResultValue.Text Id)]
           | none => [])),
        Blueprint)
    else
      (FResponse.Result [("widget_name", FResultValue.Text WidgetName),
          ("event_name", FResultValue.Text EventName),
          ("matched_events", FResultValue.Count r.matched_events),
          ("kept_node_id", FResultValue.Text (r.kept_node_id.getD "")),
          ("removed_event_nodes", FResultValue.Count r.removed_event_nodes),
          ("removed_chain_nodes", FResultValue.Count r.removed_chain_nodes)],
        MarkBlueprintAsStructurallyModified (Blueprint.withGraph r.Graph))

/-- The identifiers of the event nodes of the given member name, as `FName`s
compare (lines 1962-1970), in graph order. -/
def eventNodeGuids (H : FEditorHost) (g : UEdGraph) (EventName : String) : List String :=
  (g.Nodes.filter (fun Node =>
    match g.Objects[Node]? with
    | some n =>
      match H.EventMemberName n with
      | some MemberName => EqualsIgnoreCase MemberName EventName
      | none => false
    | none => false)).map (nodeGuid g)

/-- The handler `HandleFindBlueprintNodes` (lines 1920-1978). The parameter
`event_name` is read at line 1956, after the blueprint and its event graph
are found. -/
def HandleFindBlueprintNodes (H : FEditorHost) (W : BlueprintStore) (Params : FJsonObject) :
    FResponse × BlueprintStore :=
  requireStringField H W Params "blueprint_name" fun BlueprintName =>
  requireStringField H W Params "node_type" fun NodeType =>
  withEventGraph H W BlueprintName fun Blueprint EventGraph =>
    if EqualsIgnoreCase NodeType "Event" then
      match TryGetStringField H Params "event_name" with
      | none =>
        (FResponse.Error "Missing 'event_name' parameter for Event node search", Blueprint)
      | some EventName =>
        (FResponse.Result [("node_guids",
            FResultValue.Texts (eventNodeGuids H EventGraph EventName))], Blueprint)
    else (FResponse.Result [("node_guids", FResultValue.Texts [])], Blueprint)

/-- The struct lookup of `HandleAddBlueprintMakeStructNode` (lines 1310-1334):
`FindObject`, then `LoadObject` for a script path, then the first valid struct
whose name or path name equals the requested name ignoring case. -/
def findStructType (H : FEditorHost) (StructTypeName : String) : Option UScriptStruct :=
  let StructType1 := H.FindStruct StructTypeName
  let StructType2 :=
    if StructType1.isNone ∧ StartsWith StructTypeName "/Script/" then
      H.LoadStruct StructTypeName
    else StructType1
  if StructType2.isNone then
    H.Structs.find? (fun Candidate =>
      EqualsIgnoreCase Candidate.Name StructTypeName ||
        EqualsIgnoreCase Candidate.PathName StructTypeName)
  else StructType2

/-- The default a field value gives an input pin of the make-struct node
(lines 1371-1391). -/
def setStructFieldDefault (H : FEditorHost) (InputPin : UEdGraphPin) :
    FJsonValue → UEdGraphPin
  | FJsonValue.JsonString Value => { InputPin with DefaultValue := Value }
  | FJsonValue.JsonNumber Value =>
    if InputPin.PinCategory = EPinCategory.PC_Int then
      { InputPin with DefaultValue := FromInt (toInt32 (RoundToInt Value)) }
    else { InputPin with DefaultValue := H.SanitizeDouble Value }
  | FJsonValue.JsonBoolean Value => { InputPin with DefaultValue := boolText Value }
  | _ => InputPin

/-- The loop over the field values (lines 1361-1392) on the pins of the
make-struct node; a field whose input pin is not found is skipped. -/
def setStructValues (H : FEditorHost) :
    List (String × FJsonValue) → List UEdGraphPin → List UEdGraphPin
  | [], Pins => Pins
  | Field :: rest, Pins =>
    match FindPin Pins Field.1 EEdGraphPinDirection.EGPD_Input with
    | none => setStructValues H rest Pins
    | some Index =>
      match Pins[Index]? with
      | none => setStructValues H rest Pins
      | some InputPin =>
        setStructValues H rest (Pins.set Index (setStructFieldDefault H InputPin Field.2))

/-- The name of the first output pin, "ReturnValue" when there is none (lines
1398-1406). -/
def structOutputPinName (Pins : List UEdGraphPin) : String :=
  match Pins.find? (fun Pin => Pin.Direction == EEdGraphPinDirection.EGPD_Output) with
  | some Pin => Pin.PinName
  | none => "ReturnValue"

/-- The handler `HandleAddBlueprintMakeStructNode` (lines 1278-1413). The
struct is resolved before the node is created; `NewObject` is taken to
succeed, and `MakeStructPins` gives the pins of the node after
`AllocateDefaultPins` and `ReconstructNode`. -/
def HandleAddBlueprintMakeStructNode (H : FEditorHost) (W : BlueprintStore)
    (Params : FJsonObject) : FResponse × BlueprintStore :=
  requireStringField H W Params "blueprint_name" fun BlueprintName =>
  requireStringField H W Params "struct_type" fun StructTypeName =>
  withEventGraph H W BlueprintName fun Blueprint EventGraph =>
    match findStructType H StructTypeName with
    | none =>
      (FResponse.Error ("Failed to resolve struct type: " ++ StructTypeName), Blueprint)
    | some StructType =>
      let added := AddNode EventGraph (H.CreateNewGuid EventGraph) (readNodePosition H Params)
        (H.MakeStructPins StructType)
      let Pins :=
        match TryGetObjectField Params "values" with
        | some ValuesObj => setStructValues H ValuesObj (H.MakeStructPins StructType)
        | none => H.MakeStructPins StructType
      let g := added.1.setNode added.2
        ((added.1.Objects.getD added.2 ⟨"", 0, 0, [], none⟩).withPins Pins)
      (FResponse.Result [("node_id", FResultValue.Text (nodeGuid g added.2)),
          ("struct_type", FResultValue.Text StructType.PathName),
          ("output_pin", FResultValue.Text (structOutputPinName Pins))],
        MarkBlueprintAsStructurallyModified (Blueprint.withGraph g))

/-- The connection of the custom event to the assign node (lines 1810-1827):
the graph with the connection made, or the error that ends the command. -/
def connectDelegatePins (H : FEditorHost) (g : UEdGraph) (CustomEventNode AssignNode : Nat) :
    Except String UEdGraph :=
  match H.CustomEventDelegatePin g CustomEventNode, H.GetDelegatePin g AssignNode with
  | some CustomEventDelegatePin, some AssignDelegatePin =>
    if H.HasSchema then
      match H.TryCreateConnection g CustomEventDelegatePin AssignDelegatePin with
      | some Connected => Except.ok Connected
      | none =>
        Except.error "Failed to connect custom event delegate output to assign delegate pin"
    else Except.ok (H.MakeLinkTo g CustomEventDelegatePin AssignDelegatePin)
  | _, _ => Except.error "Failed to resolve delegate pins for custom-event binding"

/-- The connection of the node named by `target_node_id` to the assign node
(lines 1829-1870); nothing is done when the parameter is absent or empty. -/
def connectDelegateTarget (H : FEditorHost) (Params : FJsonObject) (g : UEdGraph)
    (AssignNode : Nat) : Except String UEdGraph :=
  let TargetNodeId := (TryGetStringField H Params "target_node_id").getD ""
  if TargetNodeId = "" then Except.ok g
  else
    match findNodeByGuid g TargetNodeId with
    | none => Except.error ("target_node_id not found: " ++ TargetNodeId)
    | some TargetNode =>
      let TargetOutputPinName :=
        (TryGetStringField H Params "target_output_pin").getD "ReturnValue"
      let AssignTargetPinName := (TryGetStringField H Params "assign_target_pin").getD "self"
      let Failure : Except String UEdGraph :=
        Except.error ("Failed to connect target node '" ++ TargetNodeId ++ "' pin '" ++
          TargetOutputPinName ++ "' to assign node pin '" ++ AssignTargetPinName ++ "'")
      match H.ConnectGraphNodes g TargetNode TargetOutputPinName AssignNode
          AssignTargetPinName with
      | some Connected => Except.ok Connected
      | none =>
        if EqualsIgnoreCase AssignTargetPinName "self" then
          match H.ConnectGraphNodes g TargetNode TargetOutputPinName AssignNode "Target" with
          | some Connected => Except.ok Connected
          | none => Failure
        else Failure

/-- The connection of the node named by `exec_source_node_id` to the assign
node (lines 1872-1904); nothing is done when the parameter is absent or
empty. -/
def connectDelegateExec (H : FEditorHost) (Params : FJsonObject) (g : UEdGraph)
    (AssignNode : Nat) : Except String UEdGraph :=
  let ExecSourceNodeId := (TryGetStringField H Params "exec_source_node_id").getD ""
  if ExecSourceNodeId = "" then Except.ok g
  else
    match findNodeByGuid g ExecSourceNodeId with
    | none => Except.error ("exec_source_node_id not found: " ++ ExecSourceNodeId)
    | some ExecSourceNode =>
      let ExecSourcePinName := (TryGetStringField H Params "exec_source_pin").getD "Then"
      let AssignExecPinName := (TryGetStringField H Params "assign_exec_pin").getD "Execute"
      match H.ConnectGraphNodes g ExecSourceNode ExecSourcePinName AssignNode
          AssignExecPinName with
      | some Connected => Except.ok Connected
      | none =>
        Except.error ("Failed to connect exec node '" ++ ExecSourceNodeId ++ "' pin '" ++
          ExecSourcePinName ++ "' to assign node pin '" ++ AssignExecPinName ++ "'")

/-- The position of the custom event (lines 1739-1745 and 1794-1796): the
parameter `custom_event_position` when it is given, otherwise the position of
the assign node moved by (300, 120). -/
def customEventPosition (H : FEditorHost) (Params : FJsonObject) : Int × Int :=
  if HasField Params "custom_event_position" then
    H.GetVector2DFromJson Params "custom_event_position"
  else ((readNodePosition H Params).1 + 300, (readNodePosition H Params).2 + 120)

/-- The part of `HandleBindBlueprintMulticastDelegate` that follows the test of
the signature function (lines 1794-1917), on the graph that holds the assign
node: the custom event is created and connected, then the optional
connections are made. An error returns with the graph as it is by then. -/
def bindDelegateEvent (H : FEditorHost) (Params : FJsonObject) (Blueprint : UBlueprint)
    (g : UEdGraph) (AssignNode : Nat) (TargetClass : UClass) (DelegateName : String)
    (SignatureFunction : UFunction) : FResponse × UBlueprint :=
  let UniqueEventName := H.FindUniqueKismetName Blueprint (DelegateName ++ "_Event")
  match H.CreateCustomEvent g (customEventPosition H Params) UniqueEventName
      SignatureFunction with
  | none =>
    (FResponse.Error "Failed to create custom event for delegate binding",
      Blueprint.withGraph g)
  | some created =>
    match connectDelegatePins H created.1 created.2 AssignNode with
    | Except.error Message => (FResponse.Error Message, Blueprint.withGraph created.1)
    | Except.ok g1 =>
      match connectDelegateTarget H Params g1 AssignNode with
      | Except.error Message => (FResponse.Error Message, Blueprint.withGraph g1)
      | Except.ok g2 =>
        match connectDelegateExec H Params g2 AssignNode with
        | Except.error Message => (FResponse.Error Message, Blueprint.withGraph g2)
        | Except.ok g3 =>
          (FResponse.Result [("assign_node_id", FResultValue.Text (nodeGuid g3 AssignNode)),
              ("delegate_name", FResultValue.Text DelegateName),
              ("target_class", FResultValue.Text (H.GetPathName TargetClass)),
              ("custom_event_node_id", FResultValue.Text (nodeGuid g3 created.2)),
              ("custom_event_name", FResultValue.Text (H.CustomFunctionName g3 created.2))],
            MarkBlueprintAsStructurallyModified (Blueprint.withGraph g3))

/-- The handler `HandleBindBlueprintMulticastDelegate` (lines 1713-1918). The
assign node is added (line 1781) before the signature function is tested
(line 1787); the error of that test returns with the node in the graph.
`NewObject` is taken to succeed, and `AssignDelegatePins` gives the pins of
the node after `AllocateDefaultPins` and `ReconstructNode`. -/
def HandleBindBlueprintMulticastDelegate (H : FEditorHost) (cat : TypeCatalog)
    (W : BlueprintStore) (Params : FJsonObject) : FResponse × BlueprintStore :=
  requireStringField H W Params "blueprint_name" fun BlueprintName =>
  requireStringField H W Params "target_class" fun TargetClassName =>
  requireStringField H W Params "delegate_name" fun DelegateName =>
  withEventGraph H W BlueprintName fun Blueprint EventGraph =>
    match ResolveClassByName cat TargetClassName with
    | none =>
      (FResponse.Error ("Failed to resolve target class: " ++ TargetClassName), Blueprint)
    | some TargetClass =>
      match H.FindDelegateProperty TargetClass DelegateName with
      | none =>
        (FResponse.Error ("Delegate '" ++ DelegateName ++ "' not found on class '" ++
            TargetClass.GetName ++ "'"), Blueprint)
      | some DelegateProperty =>
        let added := AddNode EventGraph (H.CreateNewGuid EventGraph)
          (readNodePosition H Params) (H.AssignDelegatePins TargetClass DelegateName)
        match DelegateProperty.SignatureFunction with
        | none =>
          (FResponse.Error ("Delegate '" ++ DelegateName ++ "' on class '" ++
              TargetClass.GetName ++ "' has no signature function"),
            Blueprint.withGraph added.1)
        | some SignatureFunction =>
          bindDelegateEvent H Params Blueprint added.1 added.2 TargetClass DelegateName
            SignatureFunction

/-- Whether the node behind a pointer is a `UK2Node_ComponentBoundEvent`. -/
def isComponentBoundEvent (g : UEdGraph) (Node : Nat) : Bool :=
  match g.Objects[Node]? with
  | some n => n.BoundEvent.isSome
  | none => false

/-- The body of the loop of `HandleClearBlueprintEventGraph` (lines 2010-2023)
for a position of the node array, on the state `(graph, RemovedCount,
KeptCount)`. -/
def clearEventGraphStep (KeepBoundEvents : Bool) (st : UEdGraph × Nat × Nat)
    (NodeIndex : Nat) : UEdGraph × Nat × Nat :=
  match st.1.Nodes[NodeIndex]? with
  | none => st
  | some Node =>
    if ¬ IsValid st.1 Node then st
    else if KeepBoundEvents ∧ isComponentBoundEvent st.1 Node then
      (st.1, st.2.1, st.2.2 + 1)
    else (RemoveNode st.1 Node, st.2.1 + 1, st.2.2)

/-- The handler `HandleClearBlueprintEventGraph` (lines 1980-2033): the loop
runs over the positions of the node array from the last to the first. -/
def HandleClearBlueprintEventGraph (H : FEditorHost) (W : BlueprintStore)
    (Params : FJsonObject) : FResponse × BlueprintStore :=
  requireStringField H W Params "blueprint_name" fun BlueprintName =>
  let KeepBoundEvents :=
    HasField Params "keep_bound_events" && GetBoolField Params "keep_bound_events"
  withEventGraph H W BlueprintName fun Blueprint EventGraph =>
    let cleared := (List.range EventGraph.Nodes.length).reverse.foldl
      (clearEventGraphStep KeepBoundEvents) (EventGraph, 0, 0)
    (FResponse.Result [("blueprint_name", FResultValue.Text BlueprintName),
        ("removed_count", FResultValue.Count cleared.2.1),
        ("kept_count", FResultValue.Count cleared.2.2)],
      MarkBlueprintAsStructurallyModified (Blueprint.withGraph cleared.1))

/-- The dispatcher `HandleCommand` (lines 231-299); the command name is
compared as `FString ==` compares it. -/
def HandleCommand (H : FEditorHost) (cat : TypeCatalog) (W : BlueprintStore)
    (CommandType : String) (Params : FJsonObject) : FResponse × BlueprintStore :=
  if EqualsIgnoreCase CommandType "connect_blueprint_nodes" then
    HandleConnectBlueprintNodes H W Params
  else if EqualsIgnoreCase CommandType "add_blueprint_get_self_component_reference" then
    HandleAddBlueprintGetSelfComponentReference H W Params
  else if EqualsIgnoreCase CommandType "add_blueprint_event_node" then
    HandleAddBlueprintEvent H W Params
  else if EqualsIgnoreCase CommandType "add_blueprint_function_node" then
    HandleAddBlueprintFunctionCall H cat W Params
  else if EqualsIgnoreCase CommandType "add_blueprint_variable" then
    HandleAddBlueprintVariable H W Params
  else if EqualsIgnoreCase CommandType "add_blueprint_input_action_node" then
    HandleAddBlueprintInputActionNode H W Params
  else if EqualsIgnoreCase CommandType "add_blueprint_self_reference" then
    HandleAddBlueprintSelfReference H W Params
  else if EqualsIgnoreCase CommandType "add_blueprint_dynamic_cast_node" then
    HandleAddBlueprintDynamicCastNode H cat W Params
  else if EqualsIgnoreCase CommandType "add_blueprint_subsystem_getter_node" then
    HandleAddBlueprintSubsystemGetterNode H cat W Params
  else if EqualsIgnoreCase CommandType "add_blueprint_make_struct_node" then
    HandleAddBlueprintMakeStructNode H W Params
  else if EqualsIgnoreCase CommandType "break_blueprint_node_pin_links" then
    HandleBreakBlueprintNodePinLinks H W Params
  else if EqualsIgnoreCase CommandType "clear_blueprint_event_exec_chain" then
    HandleClearBlueprintEventExecChain H W Params
  else if EqualsIgnoreCase CommandType "dedupe_blueprint_component_bound_events" then
    HandleDedupeCommand H W Params
  else if EqualsIgnoreCase CommandType "bind_blueprint_multicast_delegate" then
    HandleBindBlueprintMulticastDelegate H cat W Params
  else if EqualsIgnoreCase CommandType "find_blueprint_nodes" then
    HandleFindBlueprintNodes H W Params
  else if EqualsIgnoreCase CommandType "clear_blueprint_event_graph" then
    HandleClearBlueprintEventGraph H W Params
  else (FResponse.Error ("Unknown blueprint node command: " ++ CommandType), W)

/-! ### Required parameters, as the properties speak of them -/

/-- The parameters a command requires whatever the other parameters are, in
the order in which its handler tests them. -/
def validationOrder (CommandType : String) : List String :=
  if EqualsIgnoreCase CommandType "connect_blueprint_nodes" then
    ["blueprint_name", "source_node_id", "target_node_id", "source_pin", "target_pin"]
  else if EqualsIgnoreCase CommandType "add_blueprint_get_self_component_reference" then
    ["blueprint_name", "component_name"]
  else if EqualsIgnoreCase CommandType "add_blueprint_event_node" then
    ["blueprint_name", "event_name"]
  else if EqualsIgnoreCase CommandType "add_blueprint_function_node" then
    ["blueprint_name", "function_name"]
  else if EqualsIgnoreCase CommandType "add_blueprint_variable" then
    ["blueprint_name", "variable_name", "variable_type"]
  else if EqualsIgnoreCase CommandType "add_blueprint_input_action_node" then
    ["blueprint_name", "action_name"]
  else if EqualsIgnoreCase CommandType "add_blueprint_self_reference" then ["blueprint_name"]
  else if EqualsIgnoreCase CommandType "add_blueprint_dynamic_cast_node" then
    ["blueprint_name", "target_class"]
  else if EqualsIgnoreCase CommandType "add_blueprint_subsystem_getter_node" then
    ["blueprint_name", "subsystem_class"]
  else if EqualsIgnoreCase CommandType "add_blueprint_make_struct_node" then
    ["blueprint_name", "struct_type"]
  else if EqualsIgnoreCase CommandType "break_blueprint_node_pin_links" then
    ["blueprint_name", "node_id", "pin_name"]
  else if EqualsIgnoreCase CommandType "clear_blueprint_event_exec_chain" then
    ["blueprint_name", "event_node_id"]
  else if EqualsIgnoreCase CommandType "dedupe_blueprint_component_bound_events" then
    ["blueprint_name", "widget_name", "event_name"]
  else if EqualsIgnoreCase CommandType "bind_blueprint_multicast_delegate" then
    ["blueprint_name", "target_class", "delegate_name"]
  else if EqualsIgnoreCase CommandType "find_blueprint_nodes" then ["blueprint_name", "node_type"]
  else if EqualsIgnoreCase CommandType "clear_blueprint_event_graph" then ["blueprint_name"]
  else []

/-- The first of the given parameters that `TryGetStringField` fails on. -/
def firstAbsent (H : FEditorHost) (Params : FJsonObject) (Fields : List String) :
    Option String :=
  Fields.find? (fun FieldName => (TryGetStringField H Params FieldName).isNone)

/-- The event graph a blueprint of the store holds, `none` when the blueprint
is not in the store or has no event graph. -/
def graphOf (W : BlueprintStore) (BlueprintName : String) : Option UEdGraph :=
  (FindBlueprint W BlueprintName).bind (fun Blueprint => Blueprint.EventGraph)

/-! ### Sample host and stores -/

/-- A host for the examples: whole numbers are printed in decimal, `%f` adds
six zero decimals and `SanitizeFloat` one; nodes are named after their
position in the object store; the creation and connection helpers of
`FUnrealMCPCommonUtils` fail; no struct is known; a class has the delegate
"OnClicked" and the delegate "OnLegacy", which has no signature function; a
custom event is created without pins and is named after its function. -/
def sampleHost : FEditorHost where
  NumberAsString := fun n => toString n.Mantissa
  SanitizeFloat := fun n => toString n.Mantissa ++ ".0"
  SanitizeDouble := fun n => toString n.Mantissa ++ ".0"
  PrintfFloat := fun n => toString n.Mantissa ++ ".000000"
  StringAsNumber := fun _ => ⟨0, 0⟩
  StringAsBool := fun s => s == "true"
  GraphSchemaIsK2 := true
  TrySetDefaultObject := fun _ c => some c.GetName
  TrySetDefaultValue := fun _ s => s
  ReconstructNode := fun n => n
  CreateNewGuid := fun g => "N" ++ toString g.Objects.length
  UnresolvedPins := []
  GetVector2DFromJson := fun _ _ => (0, 0)
  CreateEventGraph := some ⟨[], []⟩
  ConnectGraphNodes := fun _ _ _ _ _ => none
  CreateEventNode := fun _ _ _ => none
  CreateInputActionNode := fun _ _ _ => none
  CreateSelfReferenceNode := fun _ _ => none
  VariableGetPins := fun _ => []
  DynamicCastPins := fun _ => []
  GetSubsystemPins := fun _ => []
  IsSubsystem := fun _ => true
  GetPathName := fun c => c.GetName
  AddMemberVariable := fun b n c s => b.NewVariables ++ [⟨n, c, s, false⟩]
  EventMemberName := fun _ => none
  FindStruct := fun _ => none
  LoadStruct := fun _ => none
  Structs := []
  MakeStructPins := fun _ => []
  FindDelegateProperty := fun _ Name =>
    if Name == "OnClicked" then some ⟨some ⟨"OnClicked__DelegateSignature", []⟩⟩
    else if Name == "OnLegacy" then some ⟨none⟩
    else none
  AssignDelegatePins := fun _ _ => []
  FindUniqueKismetName := fun _ Name => Name
  CreateCustomEvent := fun g Position Name _ => some (AddNode g Name Position [])
  CustomEventDelegatePin := fun _ Node => some ⟨Node, 0⟩
  GetDelegatePin := fun _ Node => some ⟨Node, 0⟩
  HasSchema := true
  TryCreateConnection := fun g _ _ => some g
  MakeLinkTo := fun g _ _ => g
  CustomFunctionName := fun g Node => nodeGuid g Node

/-- A blueprint class with one member function "Spawn" whose call node has a
class-reference pin, a boolean pin and a vector pin. -/
def sampleTypedClass : UClass :=
  UClass.root "BP_Typed_C"
    [⟨"Spawn",
      [ { PinName := "ActorClass", Direction := EEdGraphPinDirection.EGPD_Input, LinkedTo := [],
          PinCategory := EPinCategory.PC_Class },
        { PinName := "Enabled", Direction := EEdGraphPinDirection.EGPD_Input, LinkedTo := [],
          PinCategory := EPinCategory.PC_Boolean, DefaultValue := "false" },
        { PinName := "Location", Direction := EEdGraphPinDirection.EGPD_Input, LinkedTo := [],
          PinCategory := EPinCategory.PC_Struct, PinSubCategoryObject := some FVectorStruct } ]⟩]

/-- A store with the single blueprint "BP", of class `sampleTypedClass`, with
the given event graph. -/
def sampleStore (EventGraph : Option UEdGraph) : BlueprintStore :=
  [("BP", ⟨EventGraph, sampleTypedClass, [], 0, 0⟩)]

/-- A parameter map of string fields. -/
def stringParams (Fields : List (String × String)) : FJsonObject :=
  Fields.map (fun f => (f.1, FJsonValue.JsonString f.2))

/-- The graphs that an error of the bind-delegate handler can leave once the
assign node is in the graph `g`: `g` itself (the delegate has no signature
function, or no custom event is created), the graph with the custom event
(the delegate pins are not found or not connected), the graph with the
delegate pins connected (an error for `target_node_id`), or the graph with the
target connected (an error for `exec_source_node_id`). -/
def BindErrorGraph (H : FEditorHost) (Params : FJsonObject) (Blueprint : UBlueprint)
    (g : UEdGraph) (AssignNode : Nat) (DelegateName : String)
    (DelegateProperty : FMulticastDelegateProperty) (g1 : UEdGraph) : Prop :=
  g1 = g ∨
  ∃ SignatureFunction created,
    DelegateProperty.SignatureFunction = some SignatureFunction ∧
    H.CreateCustomEvent g (customEventPosition H Params)
      (H.FindUniqueKismetName Blueprint (DelegateName ++ "_Event")) SignatureFunction =
        some created ∧
    (g1 = created.1 ∨
      ∃ gc, connectDelegatePins H created.1 created.2 AssignNode = Except.ok gc ∧
        (g1 = gc ∨ connectDelegateTarget H Params gc AssignNode = Except.ok g1))

/-- What the store can be after a command has returned an error: the store as
it was; or, for the blueprint named by `blueprint_name` with the event graph
that `FindOrCreateEventGraph` returns for it, the store with the blueprint as
that lookup left it (with a new event graph if it had none); or, for
`add_blueprint_function_node`, that graph with the created call node after
its former nodes; or, for `bind_blueprint_multicast_delegate`, one of the
graphs of `BindErrorGraph`, which all descend from that graph with the assign
node added. -/
def ErrorOutcome (H : FEditorHost) (cat : TypeCatalog) (W : BlueprintStore)
    (CommandType : String) (Params : FJsonObject) (W1 : BlueprintStore) : Prop :=
  W1 = W ∨
  ∃ BlueprintName Blueprint found,
    TryGetStringField H Params "blueprint_name" = some BlueprintName ∧
    FindBlueprint W BlueprintName = some Blueprint ∧
    FindOrCreateEventGraph H Blueprint = some found ∧
    (W1 = StoreBlueprint W BlueprintName found.1 ∨
      (EqualsIgnoreCase CommandType "add_blueprint_function_node" = true ∧
        ∃ Node, W1 = StoreBlueprint W BlueprintName
          (found.1.withGraph
            ⟨found.2.Objects ++ [Node], found.2.Nodes ++ [found.2.Objects.length]⟩)) ∨
      (EqualsIgnoreCase CommandType "bind_blueprint_multicast_delegate" = true ∧
        ∃ TargetClassName DelegateName TargetClass DelegateProperty g1,
          TryGetStringField H Params "target_class" = some TargetClassName ∧
          TryGetStringField H Params "delegate_name" = some DelegateName ∧
          ResolveClassByName cat TargetClassName = some TargetClass ∧
          H.FindDelegateProperty TargetClass DelegateName = some DelegateProperty ∧
          BindErrorGraph H Params found.1
            (AddNode found.2 (H.CreateNewGuid found.2) (readNodePosition H Params)
              (H.AssignDelegatePins TargetClass DelegateName)).1
            (AddNode found.2 (H.CreateNewGuid found.2) (readNodePosition H Params)
              (H.AssignDelegatePins TargetClass DelegateName)).2
            DelegateName DelegateProperty g1 ∧
          W1 = StoreBlueprint W BlueprintName (found.1.withGraph g1)))

end UnrealMCP

namespace UnrealMCP

/-! ### The traversal phase -/

theorem visitLinkedPin_fst_eq_snd (g : UEdGraph) (e : Nat) (st : List Nat × List Nat)
    (l : PinRef) (h : st.1 = st.2) :
    (visitLinkedPin g e st l).1 = (visitLinkedPin g e st l).2 := by
  unfold visitLinkedPin
  split
  · simp [h]
  · exact h

theorem visitLinkedPin_grows (g : UEdGraph) (e : Nat) (st : List Nat × List Nat)
    (l : PinRef) : st.1 <+: (visitLinkedPin g e st l).1 := by
  unfold visitLinkedPin
  split
  · exact List.prefix_append _ _
  · exact List.prefix_refl _

theorem visitLinkedPin_mem (g : UEdGraph) (e : Nat) (st : List Nat × List Nat)
    (l : PinRef) (n : Nat) (hn : n ∈ (visitLinkedPin g e st l).1) :
    n ∈ st.1 ∨ (n = l.Node ∧ IsValid g n ∧ n ≠ e) := by
  unfold visitLinkedPin at hn
  split at hn
  · rename_i hc
    simp only [List.mem_append, List.mem_singleton] at hn
    rcases hn with hn | hn
    · exact Or.inl hn
    · subst hn
      exact Or.inr ⟨rfl, hc.1, hc.2.1⟩
  · exact Or.inl hn

theorem visitLinkedPin_visited (g : UEdGraph) (e : Nat) (st : List Nat × List Nat)
    (l : PinRef) (hv : IsValid g l.Node) (hne : l.Node ≠ e) :
    l.Node ∈ (visitLinkedPin g e st l).1 := by
  unfold visitLinkedPin
  split
  · simp
  · rename_i hc
    by_contra hcon
    exact hc ⟨hv, hne, hcon⟩

theorem visitLinkedPin_nodup (g : UEdGraph) (e : Nat) (st : List Nat × List Nat)
    (l : PinRef) (h : st.1.Nodup) : (visitLinkedPin g e st l).1.Nodup := by
  unfold visitLinkedPin
  split
  · rename_i hc
    rw [List.nodup_append]
    refine ⟨h, List.nodup_singleton _, ?_⟩
    intro a ha hb
    simp only [List.mem_singleton] at hb
    subst hb
    exact hc.2.2 ha
  · exact h

theorem visitLinks_fst_eq_snd (g : UEdGraph) (e : Nat) (links : List PinRef) :
    ∀ st : List Nat × List Nat, st.1 = st.2 →
      (links.foldl (visitLinkedPin g e) st).1 = (links.foldl (visitLinkedPin g e) st).2 := by
  induction links with
  | nil => intro st h; exact h
  | cons l rest ih =>
    intro st h
    exact ih _ (visitLinkedPin_fst_eq_snd g e st l h)

theorem visitLinks_grows (g : UEdGraph) (e : Nat) (links : List PinRef) :
    ∀ st : List Nat × List Nat, st.1 <+: (links.foldl (visitLinkedPin g e) st).1 := by
  induction links with
  | nil => intro st; exact List.prefix_refl _
  | cons l rest ih =>
    intro st
    exact (visitLinkedPin_grows g e st l).trans (ih _)

theorem visitLinks_mem (g : UEdGraph) (e : Nat) (links : List PinRef) (n : Nat) :
    ∀ st : List Nat × List Nat, n ∈ (links.foldl (visitLinkedPin g e) st).1 →
      n ∈ st.1 ∨ ((∃ l ∈ links, l.Node = n) ∧ IsValid g n ∧ n ≠ e) := by
  induction links with
  | nil => intro st hn; exact Or.inl hn
  | cons l rest ih =>
    intro st hn
    rcases ih _ hn with h | ⟨⟨l2, hl2, hl2n⟩, hv, hne⟩
    · rcases visitLinkedPin_mem g e st l n h with h1 | ⟨h1, hv, hne⟩
      · exact Or.inl h1
      · exact Or.inr ⟨⟨l, List.mem_cons_self _ _, h1.symm⟩, hv, hne⟩
    · exact Or.inr ⟨⟨l2, List.mem_cons_of_mem _ hl2, hl2n⟩, hv, hne⟩

theorem visitLinks_visited (g : UEdGraph) (e : Nat) (links : List PinRef) :
    ∀ st : List Nat × List Nat, ∀ l ∈ links, IsValid g l.Node → l.Node ≠ e →
      l.Node ∈ (links.foldl (visitLinkedPin g e) st).1 := by
  induction links with
  | nil => intro st l hl; simp at hl
  | cons l0 rest ih =>
    intro st l hl hv hne
    rcases List.mem_cons.mp hl with h | h
    · subst h
      exact (visitLinks_grows g e rest _).subset (visitLinkedPin_visited g e st l hv hne)
    · exact ih _ l h hv hne

theorem visitLinks_nodup (g : UEdGraph) (e : Nat) (links : List PinRef) :
    ∀ st : List Nat × List Nat, st.1.Nodup →
      (links.foldl (visitLinkedPin g e) st).1.Nodup := by
  induction links with
  | nil => intro st h; exact h
  | cons l rest ih =>
    intro st h
    exact ih _ (visitLinkedPin_nodup g e st l h)

theorem visitNodePins_fst_eq_snd (g : UEdGraph) (e : Nat) (pins : List UEdGraphPin) :
    ∀ st : List Nat × List Nat, st.1 = st.2 →
      (visitNodePins g e st pins).1 = (visitNodePins g e st pins).2 := by
  unfold visitNodePins
  induction pins with
  | nil => intro st h; exact h
  | cons p rest ih =>
    intro st h
    simp only [List.foldl_cons]
    apply ih
    split
    · exact visitLinks_fst_eq_snd g e _ st h
    · exact h

theorem visitNodePins_grows (g : UEdGraph) (e : Nat) (pins : List UEdGraphPin) :
    ∀ st : List Nat × List Nat, st.1 <+: (visitNodePins g e st pins).1 := by
  unfold visitNodePins
  induction pins with
  | nil => intro st; exact List.prefix_refl _
  | cons p rest ih =>
    intro st
    simp only [List.foldl_cons]
    refine List.IsPrefix.trans ?_ (ih _)
    split
    · exact visitLinks_grows g e _ st
    · exact List.prefix_refl _

theorem visitNodePins_nodup (g : UEdGraph) (e : Nat) (pins : List UEdGraphPin) :
    ∀ st : List Nat × List Nat, st.1.Nodup → (visitNodePins g e st pins).1.Nodup := by
  unfold visitNodePins
  induction pins with
  | nil => intro st h; exact h
  | cons p rest ih =>
    intro st h
    simp only [List.foldl_cons]
    apply ih
    split
    · exact visitLinks_nodup g e _ st h
    · exact h

theorem visitNodePins_mem (g : UEdGraph) (e : Nat) (pins : List UEdGraphPin) (n : Nat) :
    ∀ st : List Nat × List Nat, n ∈ (visitNodePins g e st pins).1 →
      n ∈ st.1 ∨ ((∃ Pin ∈ pins, Pin.Direction = EEdGraphPinDirection.EGPD_Output ∧
        ∃ l ∈ Pin.LinkedTo, l.Node = n) ∧ IsValid g n ∧ n ≠ e) := by
  unfold visitNodePins
  induction pins with
  | nil => intro st hn; exact Or.inl hn
  | cons p rest ih =>
    intro st hn
    simp only [List.foldl_cons] at hn
    rcases ih _ hn with h | ⟨⟨q, hq, hdir, hl⟩, hv, hne⟩
    · split at h
      · rename_i hdir
        rcases visitLinks_mem g e _ n st h with h1 | ⟨hl, hv, hne⟩
        · exact Or.inl h1
        · exact Or.inr ⟨⟨p, List.mem_cons_self _ _, hdir, hl⟩, hv, hne⟩
      · exact Or.inl h
    · exact Or.inr ⟨⟨q, List.mem_cons_of_mem _ hq, hdir, hl⟩, hv, hne⟩

theorem visitNodePins_visited (g : UEdGraph) (e : Nat) (pins : List UEdGraphPin) :
    ∀ st : List Nat × List Nat, ∀ Pin ∈ pins,
      Pin.Direction = EEdGraphPinDirection.EGPD_Output → ∀ l ∈ Pin.LinkedTo,
      IsValid g l.Node → l.Node ≠ e → l.Node ∈ (visitNodePins g e st pins).1 := by
  induction pins with
  | nil => intro st Pin hp; simp at hp
  | cons p rest ih =>
    intro st Pin hp hdir l hl hv hne
    have hunf : visitNodePins g e st (p :: rest) =
        visitNodePins g e (if p.Direction = EEdGraphPinDirection.EGPD_Output then
          p.LinkedTo.foldl (visitLinkedPin g e) st else st) rest := by
      simp [visitNodePins]
    rw [hunf]
    rcases List.mem_cons.mp hp with h | h
    · subst h
      rw [if_pos hdir]
      exact (visitNodePins_grows g e rest _).subset (visitLinks_visited g e _ st l hl hv hne)
    · exact ih _ Pin h hdir l hl hv hne

theorem ExecReach.valid {g : UEdGraph} {e : Nat} {start : List PinRef} {n : Nat}
    (h : ExecReach g e start n) : IsValid g n ∧ n ≠ e := by
  cases h with
  | direct l _ hv hne => exact ⟨hv, hne⟩
  | step a b _ _ hv hne => exact ⟨hv, hne⟩

theorem execStep_inv (g : UEdGraph) (e : Nat) (start : List PinRef) (st : ExecState)
    (cur : Nat) (hcur : st.ExecQueue[st.QueueIndex]? = some cur) (inv : ExecInv g e start st) :
    ExecInv g e start
      ⟨(visitNodePins g e (st.NodesToRemove, st.ExecQueue) (pinsOf g cur)).1,
       (visitNodePins g e (st.NodesToRemove, st.ExecQueue) (pinsOf g cur)).2,
       st.QueueIndex + 1⟩ := by
  have hsame := visitNodePins_fst_eq_snd g e (pinsOf g cur) (st.NodesToRemove, st.ExecQueue) inv.same
  have hpre : st.ExecQueue <+:
      (visitNodePins g e (st.NodesToRemove, st.ExecQueue) (pinsOf g cur)).2 := by
    obtain ⟨t, ht⟩ := visitNodePins_grows g e (pinsOf g cur) (st.NodesToRemove, st.ExecQueue)
    refine ⟨t, ?_⟩
    calc st.ExecQueue ++ t = st.NodesToRemove ++ t := by rw [inv.same]
      _ = _ := ht
      _ = _ := hsame
  have hidx : st.QueueIndex < st.ExecQueue.length := (List.getElem?_eq_some.mp hcur).1
  have hcurmem : cur ∈ st.ExecQueue := List.getElem?_mem hcur
  refine ⟨hsame, ?_, ?_, ?_, ?_, ?_⟩
  · show (visitNodePins g e (st.NodesToRemove, st.ExecQueue) (pinsOf g cur)).2.Nodup
    rw [← hsame]
    apply visitNodePins_nodup
    show st.NodesToRemove.Nodup
    rw [inv.same]
    exact inv.nodup
  · intro n hn
    have hn1 : n ∈ (visitNodePins g e (st.NodesToRemove, st.ExecQueue) (pinsOf g cur)).1 := by
      rw [hsame]; exact hn
    rcases visitNodePins_mem g e _ n _ hn1 with h | ⟨hedge, hv, hne⟩
    · exact inv.reach n (by simpa [inv.same] using h)
    · exact ExecReach.step cur n (inv.reach cur hcurmem) hedge hv hne
  · show st.QueueIndex + 1 ≤
      (visitNodePins g e (st.NodesToRemove, st.ExecQueue) (pinsOf g cur)).2.length
    have := hpre.length_le
    omega
  · intro i a hi ha b hedge hv hne
    show b ∈ (visitNodePins g e (st.NodesToRemove, st.ExecQueue) (pinsOf g cur)).2
    have hi2 : i < st.ExecQueue.length := by
      have : i < st.QueueIndex + 1 := hi
      omega
    obtain ⟨t, ht⟩ := hpre
    have ha2 : st.ExecQueue[i]? = some a := by
      have ha1 : (visitNodePins g e (st.NodesToRemove, st.ExecQueue) (pinsOf g cur)).2[i]? = some a := ha
      rw [← ht, List.getElem?_append_left hi2] at ha1
      exact ha1
    by_cases hlt : i < st.QueueIndex
    · have := inv.closed i a hlt ha2 b hedge hv hne
      rw [← ht]
      exact List.mem_append_left _ this
    · have hieq : i = st.QueueIndex := by
        have : i < st.QueueIndex + 1 := hi
        omega
      subst hieq
      have hac : a = cur := by
        rw [hcur] at ha2
        exact (Option.some.inj ha2).symm
      subst hac
      obtain ⟨Pin, hP, hdir, l, hl, hln⟩ := hedge
      subst hln
      rw [← hsame]
      exact visitNodePins_visited g e _ _ Pin hP hdir l hl hv hne
  · intro l hl hv hne
    exact hpre.subset (inv.seeded l hl hv hne)

theorem execLoop_inv (g : UEdGraph) (e : Nat) (start : List PinRef) (fuel : Nat) :
    ∀ st : ExecState, ExecInv g e start st → ExecInv g e start (execLoop g e fuel st) := by
  induction fuel with
  | zero => intro st inv; exact inv
  | succ k ih =>
    intro st inv
    unfold execLoop
    split
    · exact inv
    · rename_i cur hcur
      exact ih _ (execStep_inv g e start st cur hcur inv)

theorem nodup_length_le_of_lt (l : List Nat) (N : Nat) (hnd : l.Nodup)
    (hlt : ∀ n ∈ l, n < N) : l.length ≤ N := by
  have hsub : l.toFinset ⊆ Finset.range N := by
    intro x hx
    rw [List.mem_toFinset] at hx
    exact Finset.mem_range.mpr (hlt x hx)
  have hcard := Finset.card_le_card hsub
  rw [List.toFinset_card_of_nodup hnd, Finset.card_range] at hcard
  exact hcard

theorem ExecInv.queue_bound {g : UEdGraph} {e : Nat} {start : List PinRef} {st : ExecState}
    (inv : ExecInv g e start st) (he : IsValid g e) :
    st.ExecQueue.length + 1 ≤ g.Objects.length := by
  have hnd : (e :: st.ExecQueue).Nodup := by
    rw [List.nodup_cons]
    refine ⟨?_, inv.nodup⟩
    intro hmem
    exact (inv.reach e hmem).valid.2 rfl
  have := nodup_length_le_of_lt (e :: st.ExecQueue) g.Objects.length hnd (by
    intro n hn
    rcases List.mem_cons.mp hn with h | h
    · subst h; exact he
    · exact (inv.reach n h).valid.1)
  simpa using this

theorem execLoop_drained (g : UEdGraph) (e : Nat) (start : List PinRef) (he : IsValid g e)
    (fuel : Nat) : ∀ st : ExecState, ExecInv g e start st →
      g.Objects.length - 1 - st.QueueIndex < fuel →
      (execLoop g e fuel st).QueueIndex = (execLoop g e fuel st).ExecQueue.length := by
  induction fuel with
  | zero => intro st _ h; omega
  | succ k ih =>
    intro st inv hfuel
    unfold execLoop
    split
    · rename_i hnone
      have h1 := List.getElem?_eq_none_iff.mp hnone
      have h2 := inv.index
      omega
    · rename_i cur hcur
      have hinv := execStep_inv g e start st cur hcur inv
      apply ih _ hinv
      have hidx : st.QueueIndex < st.ExecQueue.length := (List.getElem?_eq_some.mp hcur).1
      have hb := inv.queue_bound he
      show g.Objects.length - 1 - (st.QueueIndex + 1) < k
      omega

theorem execPhase_init_inv (g : UEdGraph) (e : Nat) (EventExecPin : UEdGraphPin) :
    ExecInv g e EventExecPin.LinkedTo (execInit g e EventExecPin) := by
  show ExecInv g e EventExecPin.LinkedTo
      ⟨(EventExecPin.LinkedTo.foldl (visitLinkedPin g e) ([], [])).1,
       (EventExecPin.LinkedTo.foldl (visitLinkedPin g e) ([], [])).2, 0⟩
  have hsame := visitLinks_fst_eq_snd g e EventExecPin.LinkedTo ([], []) rfl
  refine ⟨hsame, ?_, ?_, ?_, ?_, ?_⟩
  · show (EventExecPin.LinkedTo.foldl (visitLinkedPin g e) ([], [])).2.Nodup
    rw [← hsame]
    exact visitLinks_nodup g e _ _ List.nodup_nil
  · intro n hn
    have hn1 : n ∈ (EventExecPin.LinkedTo.foldl (visitLinkedPin g e) ([], [])).1 := by
      rw [hsame]; exact hn
    rcases visitLinks_mem g e _ n _ hn1 with h | ⟨⟨l, hl, hln⟩, hv, hne⟩
    · simp at h
    · subst hln
      exact ExecReach.direct l hl hv hne
  · exact Nat.zero_le _
  · intro i a hi
    exact absurd hi (Nat.not_lt_zero i)
  · intro l hl hv hne
    show l.Node ∈ (EventExecPin.LinkedTo.foldl (visitLinkedPin g e) ([], [])).2
    rw [← hsame]
    exact visitLinks_visited g e _ _ l hl hv hne

theorem execPhase_inv (g : UEdGraph) (e : Nat) (EventExecPin : UEdGraphPin) :
    ExecInv g e EventExecPin.LinkedTo (execPhase g e EventExecPin) := by
  unfold execPhase
  exact execLoop_inv g e _ _ _ (execPhase_init_inv g e EventExecPin)

theorem execPhase_drained (g : UEdGraph) (e : Nat) (EventExecPin : UEdGraphPin)
    (he : IsValid g e) :
    (execPhase g e EventExecPin).QueueIndex = (execPhase g e EventExecPin).ExecQueue.length := by
  unfold execPhase
  apply execLoop_drained g e EventExecPin.LinkedTo he _ _ (execPhase_init_inv g e EventExecPin)
  have : 0 < g.Objects.length := Nat.lt_of_le_of_lt (Nat.zero_le _) he
  show g.Objects.length - 1 - 0 < g.Objects.length
  omega

theorem execLoop_extra_fuel (g : UEdGraph) (e : Nat) (fuel : Nat) :
    ∀ st : ExecState,
      (execLoop g e fuel st).QueueIndex = (execLoop g e fuel st).ExecQueue.length →
      ∀ extra, execLoop g e (fuel + extra) st = execLoop g e fuel st := by
  induction fuel with
  | zero =>
    intro st h extra
    cases extra with
    | zero => rfl
    | succ x =>
      have h0 : st.QueueIndex = st.ExecQueue.length := h
      have hnone : st.ExecQueue[st.QueueIndex]? = none :=
        List.getElem?_eq_none_iff.mpr (by omega)
      show execLoop g e (0 + (x + 1)) st = st
      rw [show 0 + (x + 1) = x + 1 from by omega]
      unfold execLoop
      rw [hnone]
  | succ k ih =>
    intro st h extra
    rw [show k + 1 + extra = (k + extra) + 1 from by omega]
    unfold execLoop at h ⊢
    split
    · rfl
    · rename_i cur hcur
      rw [hcur] at h
      exact ih _ h extra

theorem execPhase_mem_iff (g : UEdGraph) (e : Nat) (EventExecPin : UEdGraphPin)
    (he : IsValid g e) (n : Nat) :
    n ∈ (execPhase g e EventExecPin).NodesToRemove ↔ ExecReach g e EventExecPin.LinkedTo n := by
  have inv := execPhase_inv g e EventExecPin
  have hdr := execPhase_drained g e EventExecPin he
  rw [inv.same]
  constructor
  · exact inv.reach n
  · intro h
    induction h with
    | direct l hl hv hne => exact inv.seeded l hl hv hne
    | step a b _ hedge hv hne ih =>
      obtain ⟨i, hi⟩ := List.mem_iff_getElem?.mp ih
      have hilt : i < (execPhase g e EventExecPin).ExecQueue.length :=
        (List.getElem?_eq_some.mp hi).1
      exact inv.closed i a (by omega) hi b hedge hv hne

/-! ### The absorption phase -/

theorem Absorbable.mono {g : UEdGraph} {e : Nat} {S T : List Nat} {n : Nat}
    (hST : S ⊆ T) (h : Absorbable g e S n) : Absorbable g e T n := by
  refine ⟨h.1, ?_⟩
  intro b hb
  rcases h.2 b hb with h1 | h1
  · exact Or.inl h1
  · exact Or.inr (hST h1)

theorem scanLinks_bad (g : UEdGraph) (e : Nat) (S : List Nat) (links : List PinRef) :
    ∀ st : Bool × Bool,
      (∃ l ∈ links, IsValid g l.Node ∧ l.Node ≠ e ∧ l.Node ∉ S) →
      (scanLinks g e S links st).2 = false := by
  induction links with
  | nil => intro st h; simp at h
  | cons l0 rest ih =>
    intro st h
    unfold scanLinks
    by_cases hv : IsValid g l0.Node
    · by_cases hb : l0.Node ≠ e ∧ l0.Node ∉ S
      · simp [hv, hb]
      · have hrest : ∃ l ∈ rest, IsValid g l.Node ∧ l.Node ≠ e ∧ l.Node ∉ S := by
          obtain ⟨l, hl, hlv, hlb⟩ := h
          rcases List.mem_cons.mp hl with h1 | h1
          · subst h1; exact absurd hlb hb
          · exact ⟨l, h1, hlv, hlb⟩
        rw [if_neg (not_not_intro hv), if_neg hb]
        exact ih _ hrest
    · have hrest : ∃ l ∈ rest, IsValid g l.Node ∧ l.Node ≠ e ∧ l.Node ∉ S := by
        obtain ⟨l, hl, hlv, hlb⟩ := h
        rcases List.mem_cons.mp hl with h1 | h1
        · subst h1; exact absurd hlv hv
        · exact ⟨l, h1, hlv, hlb⟩
      rw [if_pos hv]
      exact ih _ hrest

theorem scanLinks_good (g : UEdGraph) (e : Nat) (S : List Nat) (links : List PinRef) :
    ∀ has : Bool,
      (∀ l ∈ links, IsValid g l.Node → l.Node = e ∨ l.Node ∈ S) →
      (scanLinks g e S links (has, true)).2 = true ∧
      ((scanLinks g e S links (has, true)).1 = true ↔
        (has = true ∨ ∃ l ∈ links, IsValid g l.Node)) := by
  induction links with
  | nil => intro has _; simp [scanLinks]
  | cons l0 rest ih =>
    intro has h
    have hrest : ∀ l ∈ rest, IsValid g l.Node → l.Node = e ∨ l.Node ∈ S :=
      fun l hl => h l (List.mem_cons_of_mem _ hl)
    unfold scanLinks
    by_cases hv : IsValid g l0.Node
    · have hin := h l0 (List.mem_cons_self _ _) hv
      have hb : ¬ (l0.Node ≠ e ∧ l0.Node ∉ S) := by
        intro hc
        rcases hin with h1 | h1
        · exact hc.1 h1
        · exact hc.2 h1
      rw [if_neg (not_not_intro hv), if_neg hb]
      obtain ⟨h2, h1⟩ := ih true hrest
      refine ⟨h2, ?_⟩
      rw [h1]
      constructor
      · intro _
        exact Or.inr ⟨l0, List.mem_cons_self _ _, hv⟩
      · intro _
        exact Or.inl rfl
    · rw [if_pos hv]
      obtain ⟨h2, h1⟩ := ih has hrest
      refine ⟨h2, ?_⟩
      rw [h1]
      constructor
      · rintro (hh | ⟨l, hl, hlv⟩)
        · exact Or.inl hh
        · exact Or.inr ⟨l, List.mem_cons_of_mem _ hl, hlv⟩
      · rintro (hh | ⟨l, hl, hlv⟩)
        · exact Or.inl hh
        · rcases List.mem_cons.mp hl with h3 | h3
          · subst h3; exact absurd hlv hv
          · exact Or.inr ⟨l, h3, hlv⟩

theorem scanPins_good (g : UEdGraph) (e : Nat) (S : List Nat) (pins : List UEdGraphPin) :
    ∀ has : Bool,
      (∀ Pin ∈ pins, ∀ l ∈ Pin.LinkedTo, IsValid g l.Node → l.Node = e ∨ l.Node ∈ S) →
      (scanPins g e S pins (has, true)).2 = true ∧
      ((scanPins g e S pins (has, true)).1 = true ↔
        (has = true ∨ ∃ Pin ∈ pins, ∃ l ∈ Pin.LinkedTo, IsValid g l.Node)) := by
  induction pins with
  | nil => intro has _; simp [scanPins]
  | cons p rest ih =>
    intro has h
    have hp := scanLinks_good g e S p.LinkedTo has (h p (List.mem_cons_self _ _))
    have hrest : ∀ Pin ∈ rest, ∀ l ∈ Pin.LinkedTo, IsValid g l.Node → l.Node = e ∨ l.Node ∈ S :=
      fun Pin hP => h Pin (List.mem_cons_of_mem _ hP)
    unfold scanPins
    simp only
    rw [if_neg (by rw [hp.1]; exact Bool.noConfusion)]
    have hst : scanLinks g e S p.LinkedTo (has, true) =
        ((scanLinks g e S p.LinkedTo (has, true)).1, true) :=
      Prod.ext rfl hp.1
    rw [hst]
    obtain ⟨h2, h1⟩ := ih (scanLinks g e S p.LinkedTo (has, true)).1 hrest
    refine ⟨h2, ?_⟩
    rw [h1, hp.2]
    constructor
    · rintro ((hh | ⟨l, hl, hlv⟩) | ⟨Pin, hP, l, hl, hlv⟩)
      · exact Or.inl hh
      · exact Or.inr ⟨p, List.mem_cons_self _ _, l, hl, hlv⟩
      · exact Or.inr ⟨Pin, List.mem_cons_of_mem _ hP, l, hl, hlv⟩
    · rintro (hh | ⟨Pin, hP, l, hl, hlv⟩)
      · exact Or.inl (Or.inl hh)
      · rcases List.mem_cons.mp hP with h3 | h3
        · subst h3; exact Or.inl (Or.inr ⟨l, hl, hlv⟩)
        · exact Or.inr ⟨Pin, h3, l, hl, hlv⟩

theorem scanPins_bad (g : UEdGraph) (e : Nat) (S : List Nat) (pins : List UEdGraphPin) :
    ∀ has : Bool,
      (∃ Pin ∈ pins, ∃ l ∈ Pin.LinkedTo, IsValid g l.Node ∧ l.Node ≠ e ∧ l.Node ∉ S) →
      (scanPins g e S pins (has, true)).2 = false := by
  induction pins with
  | nil => intro has h; simp at h
  | cons p rest ih =>
    intro has h
    unfold scanPins
    simp only
    by_cases hp : ∃ l ∈ p.LinkedTo, IsValid g l.Node ∧ l.Node ≠ e ∧ l.Node ∉ S
    · have := scanLinks_bad g e S p.LinkedTo (has, true) hp
      rw [if_pos this]
      exact this
    · have hgood : ∀ l ∈ p.LinkedTo, IsValid g l.Node → l.Node = e ∨ l.Node ∈ S := by
        intro l hl hv
        by_contra hc
        push_neg at hc
        exact hp ⟨l, hl, hv, hc.1, hc.2⟩
      have hpg := scanLinks_good g e S p.LinkedTo has hgood
      rw [if_neg (by rw [hpg.1]; exact Bool.noConfusion)]
      have hst : scanLinks g e S p.LinkedTo (has, true) =
          ((scanLinks g e S p.LinkedTo (has, true)).1, true) :=
        Prod.ext rfl hpg.1
      rw [hst]
      apply ih
      obtain ⟨Pin, hP, l, hl, hbad⟩ := h
      rcases List.mem_cons.mp hP with h3 | h3
      · subst h3; exact absurd ⟨l, hl, hbad⟩ hp
      · exact ⟨Pin, h3, l, hl, hbad⟩

theorem scanPins_absorbable (g : UEdGraph) (e : Nat) (S : List Nat) (n : Nat) :
    ((scanPins g e S (pinsOf g n) (false, true)).1 = true ∧
      (scanPins g e S (pinsOf g n) (false, true)).2 = true) ↔ Absorbable g e S n := by
  by_cases hall : ∀ Pin ∈ pinsOf g n, ∀ l ∈ Pin.LinkedTo,
      IsValid g l.Node → l.Node = e ∨ l.Node ∈ S
  · obtain ⟨h2, h1⟩ := scanPins_good g e S (pinsOf g n) false hall
    constructor
    · rintro ⟨hh, _⟩
      rcases h1.mp hh with h0 | ⟨Pin, hP, l, hl, hlv⟩
      · exact absurd h0 Bool.noConfusion
      · refine ⟨⟨l.Node, hlv, Pin, hP, l, hl, rfl⟩, ?_⟩
        rintro b ⟨hbv, Pin2, hP2, l2, hl2, hl2b⟩
        subst hl2b
        exact hall Pin2 hP2 l2 hl2 hbv
    · rintro ⟨⟨b, hbv, Pin, hP, l, hl, hlb⟩, _⟩
      subst hlb
      exact ⟨h1.mpr (Or.inr ⟨Pin, hP, l, hl, hbv⟩), h2⟩
  · have hbad : ∃ Pin ∈ pinsOf g n, ∃ l ∈ Pin.LinkedTo,
        IsValid g l.Node ∧ l.Node ≠ e ∧ l.Node ∉ S := by
      by_contra hc
      apply hall
      intro Pin hP l hl hv
      by_contra hc2
      push_neg at hc2
      exact hc ⟨Pin, hP, l, hl, hv, hc2.1, hc2.2⟩
    have hf := scanPins_bad g e S (pinsOf g n) false hbad
    constructor
    · rintro ⟨_, h2⟩
      rw [hf] at h2
      exact absurd h2 Bool.noConfusion
    · rintro ⟨_, hab⟩
      obtain ⟨Pin, hP, l, hl, hv, hne, hnS⟩ := hbad
      rcases hab l.Node ⟨hv, Pin, hP, l, hl, rfl⟩ with h1 | h1
      · exact absurd h1 hne
      · exact absurd h1 hnS

theorem scanCandidate_pos (g : UEdGraph) (e : Nat) (st : List Nat × Bool) (c : Nat)
    (hv : IsValid g c) (hne : c ≠ e) (hnS : c ∉ st.1) (hab : Absorbable g e st.1 c) :
    scanCandidate g e st c = (st.1 ++ [c], true) := by
  unfold scanCandidate
  rw [if_neg (by
    rintro (h | h | h)
    · exact h hv
    · exact hne h
    · exact hnS h)]
  simp only
  rw [if_pos ((scanPins_absorbable g e st.1 c).mpr hab)]

theorem scanCandidate_neg (g : UEdGraph) (e : Nat) (st : List Nat × Bool) (c : Nat)
    (h : ¬ (IsValid g c ∧ c ≠ e ∧ c ∉ st.1 ∧ Absorbable g e st.1 c)) :
    scanCandidate g e st c = st := by
  unfold scanCandidate
  split
  · rfl
  · rename_i hc
    push_neg at hc
    simp only
    rw [if_neg]
    intro hflags
    exact h ⟨hc.1, hc.2.1, hc.2.2, (scanPins_absorbable g e st.1 c).mp hflags⟩

theorem scanCandidate_cases (g : UEdGraph) (e : Nat) (st : List Nat × Bool) (c : Nat) :
    (scanCandidate g e st c = st ∧
      ¬ (IsValid g c ∧ c ≠ e ∧ c ∉ st.1 ∧ Absorbable g e st.1 c)) ∨
    (scanCandidate g e st c = (st.1 ++ [c], true) ∧
      (IsValid g c ∧ c ≠ e ∧ c ∉ st.1 ∧ Absorbable g e st.1 c)) := by
  by_cases h : IsValid g c ∧ c ≠ e ∧ c ∉ st.1 ∧ Absorbable g e st.1 c
  · exact Or.inr ⟨scanCandidate_pos g e st c h.1 h.2.1 h.2.2.1 h.2.2.2, h⟩
  · exact Or.inl ⟨scanCandidate_neg g e st c h, h⟩

theorem scanFold_grows (g : UEdGraph) (e : Nat) (nodes : List Nat) :
    ∀ st : List Nat × Bool, st.1 <+: (nodes.foldl (scanCandidate g e) st).1 := by
  induction nodes with
  | nil => intro st; exact List.prefix_refl _
  | cons c rest ih =>
    intro st
    refine List.IsPrefix.trans ?_ (ih _)
    rcases scanCandidate_cases g e st c with ⟨h, _⟩ | ⟨h, _⟩
    · rw [h]
    · rw [h]; exact List.prefix_append _ _

theorem scanFold_flag_true (g : UEdGraph) (e : Nat) (nodes : List Nat) :
    ∀ st : List Nat × Bool, st.2 = true → (nodes.foldl (scanCandidate g e) st).2 = true := by
  induction nodes with
  | nil => intro st h; exact h
  | cons c rest ih =>
    intro st hst
    apply ih
    rcases scanCandidate_cases g e st c with ⟨h, _⟩ | ⟨h, _⟩
    · rw [h]; exact hst
    · rw [h]

theorem scanFold_mem (g : UEdGraph) (e : Nat) (nodes : List Nat) (n : Nat) :
    ∀ st : List Nat × Bool, n ∈ (nodes.foldl (scanCandidate g e) st).1 →
      n ∈ st.1 ∨ (n ∈ nodes ∧ IsValid g n ∧ n ≠ e ∧
        Absorbable g e (nodes.foldl (scanCandidate g e) st).1 n) := by
  induction nodes with
  | nil => intro st hn; exact Or.inl hn
  | cons c rest ih =>
    intro st hn
    rcases ih _ hn with h | ⟨h1, h2, h3, h4⟩
    · rcases scanCandidate_cases g e st c with ⟨hc, _⟩ | ⟨hc, hv, hne, _, hab⟩
      · rw [hc] at h; exact Or.inl h
      · rw [hc] at h
        simp only [List.mem_append, List.mem_singleton] at h
        rcases h with h | h
        · exact Or.inl h
        · subst h
          refine Or.inr ⟨List.mem_cons_self _ _, hv, hne, ?_⟩
          refine Absorbable.mono ?_ hab
          have hpre := scanFold_grows g e rest (scanCandidate g e st n)
          rw [hc] at hpre
          intro x hx
          have : x ∈ st.1 ++ [n] := List.mem_append_left _ hx
          simp only [List.foldl_cons, hc]
          exact hpre.subset this
    · exact Or.inr ⟨List.mem_cons_of_mem _ h1, h2, h3, h4⟩

theorem scanFold_false (g : UEdGraph) (e : Nat) (nodes : List Nat) :
    ∀ st : List Nat × Bool, (nodes.foldl (scanCandidate g e) st).2 = false →
      nodes.foldl (scanCandidate g e) st = st ∧
      ∀ c ∈ nodes, ¬ (IsValid g c ∧ c ≠ e ∧ c ∉ st.1 ∧ Absorbable g e st.1 c) := by
  induction nodes with
  | nil => intro st _; exact ⟨rfl, by simp⟩
  | cons c rest ih =>
    intro st hf
    rcases scanCandidate_cases g e st c with ⟨hc, hneg⟩ | ⟨hc, _⟩
    · simp only [List.foldl_cons, hc] at hf ⊢
      obtain ⟨h1, h2⟩ := ih st hf
      refine ⟨h1, ?_⟩
      intro c2 hc2
      rcases List.mem_cons.mp hc2 with h | h
      · subst h; exact hneg
      · exact h2 c2 h
    · simp only [List.foldl_cons, hc] at hf
      have := scanFold_flag_true g e rest (st.1 ++ [c], true) rfl
      rw [this] at hf
      exact absurd hf Bool.noConfusion

theorem scanFold_true_added (g : UEdGraph) (e : Nat) (nodes : List Nat) :
    ∀ st : List Nat × Bool, st.2 = false →
      (nodes.foldl (scanCandidate g e) st).2 = true →
      ∃ c ∈ nodes, c ≠ e ∧ c ∉ st.1 ∧ c ∈ (nodes.foldl (scanCandidate g e) st).1 := by
  induction nodes with
  | nil =>
    intro st h0 h1
    simp only [List.foldl_nil] at h1
    rw [h0] at h1
    exact absurd h1 Bool.noConfusion
  | cons c rest ih =>
    intro st h0 h1
    rcases scanCandidate_cases g e st c with ⟨hc, _⟩ | ⟨hc, _, hne, hnS, _⟩
    · simp only [List.foldl_cons, hc] at h1 ⊢
      obtain ⟨c2, hc2, h2⟩ := ih st h0 h1
      exact ⟨c2, List.mem_cons_of_mem _ hc2, h2⟩
    · refine ⟨c, List.mem_cons_self _ _, hne, hnS, ?_⟩
      simp only [List.foldl_cons, hc]
      exact (scanFold_grows g e rest (st.1 ++ [c], true)).subset (by simp)

theorem filter_length_lt_of_imp {α : Type} (p q : α → Bool) (l : List α)
    (himp : ∀ a, p a = true → q a = true) (c : α) (hc : c ∈ l) (hq : q c = true)
    (hp : p c = false) : (l.filter p).length < (l.filter q).length := by
  induction l with
  | nil => simp at hc
  | cons a rest ih =>
    have hle : (rest.filter p).length ≤ (rest.filter q).length :=
      (List.monotone_filter_right rest (fun x hx => himp x hx)).length_le
    rcases List.mem_cons.mp hc with h | h
    · subst h
      rw [List.filter_cons_of_pos hq, List.filter_cons_of_neg (by rw [hp]; exact Bool.noConfusion)]
      rw [List.length_cons]
      omega
    · have := ih h
      by_cases hpa : p a = true
      · rw [List.filter_cons_of_pos hpa, List.filter_cons_of_pos (himp a hpa)]
        rw [List.length_cons, List.length_cons]
        omega
      · by_cases hqa : q a = true
        · rw [List.filter_cons_of_neg hpa, List.filter_cons_of_pos hqa, List.length_cons]
          omega
        · rw [List.filter_cons_of_neg hpa, List.filter_cons_of_neg hqa]
          exact this

theorem unabsorbed_lt_of_scan (g : UEdGraph) (e : Nat) (S : List Nat)
    (h : (dependencyScan g e S).2 = true) :
    unabsorbed g e (dependencyScan g e S).1 < unabsorbed g e S := by
  obtain ⟨c, hc, hne, hnS, hin⟩ := scanFold_true_added g e g.Nodes (S, false) rfl h
  have hsub : S ⊆ (dependencyScan g e S).1 :=
    (scanFold_grows g e g.Nodes (S, false)).subset
  unfold unabsorbed
  apply filter_length_lt_of_imp _ _ g.Nodes _ c hc
  · simp only [decide_eq_true_eq]
    exact ⟨hne, hnS⟩
  · simp only [decide_eq_false_iff_not]
    intro hcon
    exact hcon.2 hin
  · intro a ha
    simp only [decide_eq_true_eq] at ha ⊢
    exact ⟨ha.1, fun hmem => ha.2 (hsub hmem)⟩

theorem dependencyLoop_subset (g : UEdGraph) (e : Nat) (fuel : Nat) :
    ∀ (S : List Nat) (k : Nat), S ⊆ (dependencyLoop g e fuel S k).NodesToRemove := by
  induction fuel with
  | zero => intro S k; exact List.Subset.refl _
  | succ f ih =>
    intro S k
    have hsub : S ⊆ (dependencyScan g e S).1 :=
      (scanFold_grows g e g.Nodes (S, false)).subset
    unfold dependencyLoop
    simp only
    split
    · exact hsub.trans (ih _ _)
    · exact hsub

theorem dependencyLoop_mem (g : UEdGraph) (e : Nat) (n : Nat) (fuel : Nat) :
    ∀ (S : List Nat) (k : Nat), n ∈ (dependencyLoop g e fuel S k).NodesToRemove →
      n ∈ S ∨ (n ∈ g.Nodes ∧ IsValid g n ∧ n ≠ e ∧
        Absorbable g e (dependencyLoop g e fuel S k).NodesToRemove n) := by
  induction fuel with
  | zero => intro S k hn; exact Or.inl hn
  | succ f ih =>
    intro S k
    unfold dependencyLoop
    simp only
    split
    · intro hn
      rcases ih _ _ hn with h | h
      · rcases scanFold_mem g e g.Nodes n (S, false) h with h1 | ⟨h1, h2, h3, h4⟩
        · exact Or.inl h1
        · exact Or.inr ⟨h1, h2, h3, Absorbable.mono (dependencyLoop_subset g e f _ _) h4⟩
      · exact Or.inr h
    · intro hn
      rcases scanFold_mem g e g.Nodes n (S, false) hn with h1 | h1
      · exact Or.inl h1
      · exact Or.inr h1

theorem dependencyLoop_stops (g : UEdGraph) (e : Nat) (fuel : Nat) :
    ∀ (S : List Nat) (k : Nat), unabsorbed g e S < fuel →
      (dependencyLoop g e fuel S k).bAddedDependencyNode = false ∧
      (dependencyLoop g e fuel S k).Scans ≤ k + unabsorbed g e S + 1 := by
  induction fuel with
  | zero => intro S k h; omega
  | succ f ih =>
    intro S k hfuel
    unfold dependencyLoop
    simp only
    split
    · rename_i hflag
      have hlt := unabsorbed_lt_of_scan g e S hflag
      obtain ⟨h1, h2⟩ := ih (dependencyScan g e S).1 (k + 1) (by omega)
      exact ⟨h1, by omega⟩
    · exact ⟨rfl, by show k + 1 ≤ k + unabsorbed g e S + 1; omega⟩

theorem dependencyLoop_fixed (g : UEdGraph) (e : Nat) (fuel : Nat) :
    ∀ (S : List Nat) (k : Nat),
      (dependencyLoop g e fuel S k).bAddedDependencyNode = false →
      ∀ c ∈ g.Nodes, ¬ (IsValid g c ∧ c ≠ e ∧
        c ∉ (dependencyLoop g e fuel S k).NodesToRemove ∧
        Absorbable g e (dependencyLoop g e fuel S k).NodesToRemove c) := by
  induction fuel with
  | zero =>
    intro S k h
    exact absurd h Bool.noConfusion
  | succ f ih =>
    intro S k
    unfold dependencyLoop
    simp only
    split
    · exact ih _ _
    · rename_i hflag
      intro _
      have hfalse : (dependencyScan g e S).2 = false := by
        cases hb : (dependencyScan g e S).2
        · rfl
        · exact absurd hb hflag
      obtain ⟨h1, h2⟩ := scanFold_false g e g.Nodes (S, false) hfalse
      have h3 : (dependencyScan g e S).1 = S := by
        unfold dependencyScan
        rw [h1]
      show ∀ c ∈ g.Nodes, ¬ (IsValid g c ∧ c ≠ e ∧ c ∉ (dependencyScan g e S).1 ∧
        Absorbable g e (dependencyScan g e S).1 c)
      rw [h3]
      exact h2

theorem unabsorbed_le (g : UEdGraph) (e : Nat) (S : List Nat) :
    unabsorbed g e S ≤ g.Nodes.length := by
  unfold unabsorbed
  exact List.length_filter_le _ _

theorem unabsorbed_lt_of_mem (g : UEdGraph) (e : Nat) (S : List Nat) (he : e ∈ g.Nodes) :
    unabsorbed g e S < g.Nodes.length := by
  unfold unabsorbed
  have h := filter_length_lt_of_imp (fun n => decide (n ≠ e ∧ n ∉ S)) (fun _ => true)
    g.Nodes (fun _ _ => rfl) e he rfl (by simp)
  simpa using h

theorem dependencyLoop_extra_fuel (g : UEdGraph) (e : Nat) (fuel : Nat) :
    ∀ (S : List Nat) (k : Nat),
      (dependencyLoop g e fuel S k).bAddedDependencyNode = false →
      ∀ extra, dependencyLoop g e (fuel + extra) S k = dependencyLoop g e fuel S k := by
  induction fuel with
  | zero =>
    intro S k h
    exact absurd h Bool.noConfusion
  | succ f ih =>
    intro S k h extra
    rw [show f + 1 + extra = (f + extra) + 1 from by omega]
    unfold dependencyLoop at h ⊢
    simp only at h ⊢
    split
    · rename_i hflag
      rw [if_pos hflag] at h
      exact ih _ _ h extra
    · rfl

theorem dependencyPhase_stops (g : UEdGraph) (e : Nat) (S : List Nat) :
    (dependencyPhase g e S).bAddedDependencyNode = false := by
  unfold dependencyPhase
  exact (dependencyLoop_stops g e _ S 0 (Nat.lt_succ_of_le (unabsorbed_le g e S))).1

/-! ### The closure engine -/

theorem FindNodePinByName_valid {g : UEdGraph} {e : Nat} {name : String} {pin : UEdGraphPin}
    (h : FindNodePinByName g e name = some pin) : IsValid g e := by
  unfold FindNodePinByName at h
  by_contra hv
  rw [if_neg hv] at h
  exact Option.noConfusion h

theorem CollectExecChainNodes_of_pin {g : UEdGraph} {e : Nat} {name : String}
    {pin : UEdGraphPin} (h : FindNodePinByName g e name = some pin) :
    CollectExecChainNodes g e name =
      (dependencyPhase g e (execPhase g e pin).NodesToRemove).NodesToRemove := by
  unfold CollectExecChainNodes
  rw [if_neg (not_not_intro (FindNodePinByName_valid h)), h]

theorem CollectExecChainNodes_of_no_pin {g : UEdGraph} {e : Nat} {name : String}
    (h : FindNodePinByName g e name = none) : CollectExecChainNodes g e name = [] := by
  unfold CollectExecChainNodes
  split
  · rfl
  · rw [h]

theorem CollectExecChainNodes_mem {g : UEdGraph} {e : Nat} {name : String} {n : Nat}
    (hn : n ∈ CollectExecChainNodes g e name) :
    ∃ pin, FindNodePinByName g e name = some pin ∧
      (ExecReach g e pin.LinkedTo n ∨
        (n ∈ g.Nodes ∧ IsValid g n ∧ n ≠ e ∧
          Absorbable g e (CollectExecChainNodes g e name) n)) := by
  cases hpin : FindNodePinByName g e name with
  | none =>
    rw [CollectExecChainNodes_of_no_pin hpin] at hn
    simp at hn
  | some pin =>
    refine ⟨pin, rfl, ?_⟩
    have he := FindNodePinByName_valid hpin
    rw [CollectExecChainNodes_of_pin hpin] at hn ⊢
    unfold dependencyPhase at hn ⊢
    rcases dependencyLoop_mem g e n _ _ _ hn with h | h
    · exact Or.inl ((execPhase_mem_iff g e pin he n).mp h)
    · exact Or.inr h

theorem not_linked_of_invalid {g : UEdGraph} {n : Nat} (h : ¬ IsValid g n) (b : Nat) :
    ¬ LinkedNode g n b := by
  rintro ⟨_, Pin, hP, _⟩
  have hnone : g.Objects[n]? = none := List.getElem?_eq_none_iff.mpr (Nat.le_of_not_lt h)
  unfold pinsOf at hP
  rw [hnone] at hP
  simp at hP

/-- C1 (P1, I4): the set returned by `CollectExecChainNodes` never contains the
seed node, whatever the graph, the seed and the pin name, cycles included. -/
theorem closure_excludes_seed (g : UEdGraph) (EventNode : Nat) (EventOutputPinName : String) :
    EventNode ∉ CollectExecChainNodes g EventNode EventOutputPinName := by
  intro hmem
  obtain ⟨pin, _, h | h⟩ := CollectExecChainNodes_mem hmem
  · exact h.valid.2 rfl
  · exact h.2.2.1 rfl

/-- Every node of the closure is reached from the direct link targets of the
pin that `FindNodePinByName` returns, a pin of either direction, by following
links out of output pins, or has all of its links ending in the seed or the
closure. -/
theorem closure_sound (g : UEdGraph) (EventNode : Nat) (EventOutputPinName : String)
    (n : Nat) (hn : n ∈ CollectExecChainNodes g EventNode EventOutputPinName) :
    (∃ Pin, FindNodePinByName g EventNode EventOutputPinName = some Pin ∧
      ExecReach g EventNode Pin.LinkedTo n) ∨
    (∀ b, LinkedNode g n b →
      b = EventNode ∨ b ∈ CollectExecChainNodes g EventNode EventOutputPinName) := by
  obtain ⟨pin, hpin, h | h⟩ := CollectExecChainNodes_mem hn
  · exact Or.inl ⟨pin, hpin, h⟩
  · exact Or.inr h.2.2.2.2

/-- The literal node L of Scenario 1 is in the closure of E. -/
theorem closure_sound_witness :
    3 ∈ CollectExecChainNodes scenario1 0 "Then" ∧
    ((∃ Pin, FindNodePinByName scenario1 0 "Then" = some Pin ∧
      ExecReach scenario1 0 Pin.LinkedTo 3) ∨
    (∀ b, LinkedNode scenario1 3 b →
      b = 0 ∨ b ∈ CollectExecChainNodes scenario1 0 "Then")) :=
  ⟨by decide, closure_sound scenario1 0 "Then" 3 (by decide)⟩

theorem not_forwardReach_inputPinSeed (n : Nat) : ¬ ForwardReach inputPinSeed 0 "Then" n := by
  intro h
  induction h with
  | direct Pin l hP hname hdir _ =>
    have hpins : pinsOf inputPinSeed 0 = [inPin "Then" [⟨1, 0⟩]] := by decide
    rw [hpins] at hP
    simp only [List.mem_singleton] at hP
    subst hP
    exact absurd hdir (by decide)
  | step a b _ _ ih => exact ih

/-- C2, on the code as it is: `FindNodePinByName` does not test the direction
of the pin (line 89), so the traversal starts from an input pin of the given
name and its first hop follows a link backwards. In `inputPinSeed` the seed's
pin named "Then" is an input pin: node A is in the closure although no forward
link leaves the seed's named pin, and A has a link to Z, which is neither the
seed nor in the closure. In Scenario 1, the closure of G through its input pin
"execute" is F, then the event E upstream of F, then L. -/
theorem closure_sound_as_stated_fails :
    (FindNodePinByName inputPinSeed 0 "Then").map (fun Pin => Pin.Direction) =
      some EEdGraphPinDirection.EGPD_Input ∧
    1 ∈ CollectExecChainNodes inputPinSeed 0 "Then" ∧
    ¬ ForwardReach inputPinSeed 0 "Then" 1 ∧
    ¬ (∀ b, LinkedNode inputPinSeed 1 b →
        b = 0 ∨ b ∈ CollectExecChainNodes inputPinSeed 0 "Then") ∧
    CollectExecChainNodes scenario1 2 "execute" = [1, 0, 3] := by
  refine ⟨by decide, by decide, not_forwardReach_inputPinSeed 1, ?_, by decide⟩
  intro h
  have hl : LinkedNode inputPinSeed 1 2 := by
    unfold LinkedNode
    decide
  have := h 2 hl
  revert this
  decide

/-- C3: when the seed's named pin exists, the closure contains every node other
than the seed that is reached from the direct link targets of that pin by
following links out of output pins along paths avoiding the seed. -/
theorem closure_contains_exec_chain (g : UEdGraph) (EventNode : Nat)
    (EventOutputPinName : String) (EventExecPin : UEdGraphPin) (n : Nat)
    (hpin : FindNodePinByName g EventNode EventOutputPinName = some EventExecPin)
    (hreach : ExecReach g EventNode EventExecPin.LinkedTo n) :
    n ∈ CollectExecChainNodes g EventNode EventOutputPinName := by
  rw [CollectExecChainNodes_of_pin hpin]
  unfold dependencyPhase
  apply dependencyLoop_subset
  exact (execPhase_mem_iff g EventNode EventExecPin (FindNodePinByName_valid hpin) n).mpr hreach

/-- Witness of C3 on Scenario 1: G is reached from E through F. -/
theorem closure_contains_exec_chain_witness :
    FindNodePinByName scenario1 0 "Then" = some (outPin "Then" [⟨1, 0⟩]) ∧
    ExecReach scenario1 0 (outPin "Then" [⟨1, 0⟩]).LinkedTo 2 ∧
    2 ∈ CollectExecChainNodes scenario1 0 "Then" :=
  have hreach : ExecReach scenario1 0 (outPin "Then" [⟨1, 0⟩]).LinkedTo 2 :=
    ExecReach.step 1 2
      (ExecReach.direct ⟨1, 0⟩ (by decide) (by decide) (by decide))
      (by unfold ExecEdge; decide) (by decide) (by decide)
  ⟨by decide, hreach,
    closure_contains_exec_chain scenario1 0 "Then" (outPin "Then" [⟨1, 0⟩]) 2
      (by decide) hreach⟩

/-- C4: when the seed's named pin exists, the returned set is a fixed point of
dependency absorption: no node of the graph outside the seed and the result
has a link and has every link ending at the seed or in the result. -/
theorem closure_absorption_fixed_point (g : UEdGraph) (EventNode : Nat)
    (EventOutputPinName : String) (EventExecPin : UEdGraphPin)
    (hpin : FindNodePinByName g EventNode EventOutputPinName = some EventExecPin) :
    ¬ ∃ c ∈ g.Nodes, c ≠ EventNode ∧
        c ∉ CollectExecChainNodes g EventNode EventOutputPinName ∧
        Absorbable g EventNode (CollectExecChainNodes g EventNode EventOutputPinName) c := by
  rintro ⟨c, hc, hne, hnot, hab⟩
  have hv : IsValid g c := by
    by_contra hv
    obtain ⟨b, hb⟩ := hab.1
    exact not_linked_of_invalid hv b hb
  rw [CollectExecChainNodes_of_pin hpin] at hnot hab
  unfold dependencyPhase at hnot hab
  exact dependencyLoop_fixed g EventNode _ _ 0
    (dependencyPhase_stops g EventNode _) c hc ⟨hv, hne, hnot, hab⟩

/-- Witness of C4 on Scenario 1. -/
theorem closure_absorption_fixed_point_witness :
    FindNodePinByName scenario1 0 "Then" = some (outPin "Then" [⟨1, 0⟩]) ∧
    ¬ ∃ c ∈ scenario1.Nodes, c ≠ 0 ∧
        c ∉ CollectExecChainNodes scenario1 0 "Then" ∧
        Absorbable scenario1 0 (CollectExecChainNodes scenario1 0 "Then") c :=
  ⟨by decide,
    closure_absorption_fixed_point scenario1 0 "Then" (outPin "Then" [⟨1, 0⟩]) (by decide)⟩

/-- C5 (Scenario 1): on Event E → F → G with the literal L feeding only G, the
closure of E through "Then" is exactly F, G and L. -/
theorem closure_scenario1 :
    CollectExecChainNodes scenario1 0 "Then" = [1, 2, 3] ∧
    ∀ n, n ∈ CollectExecChainNodes scenario1 0 "Then" ↔ n = 1 ∨ n = 2 ∨ n = 3 := by
  have h : CollectExecChainNodes scenario1 0 "Then" = [1, 2, 3] := by decide
  refine ⟨h, ?_⟩
  intro n
  rw [h]
  simp

/-- When no pin of the seed, of either direction, has the given name as
`FString ==` compares names, the closure is empty. -/
theorem closure_empty_without_pin (g : UEdGraph) (EventNode : Nat)
    (EventOutputPinName : String)
    (hno : ∀ Pin ∈ pinsOf g EventNode,
      EqualsIgnoreCase Pin.PinName EventOutputPinName = false) :
    CollectExecChainNodes g EventNode EventOutputPinName = [] := by
  apply CollectExecChainNodes_of_no_pin
  unfold FindNodePinByName
  split
  · rw [List.find?_eq_none]
    intro Pin hP hname
    rw [hno Pin hP] at hname
    exact Bool.noConfusion hname
  · rfl

/-- C6, on the code as it is: `FindNodePinByName` returns the first pin whose
name matches, whatever its direction (line 89), so a seed without an output
pin of the given name but with an input pin of that name gets a closure that
is not empty. The seed of `inputPinSeed` has no output pin at all and its
closure through "Then" is A; G in Scenario 1 has no output pin named
"execute", not even up to letter case, and its closure through "execute" is
F, E and L. -/
theorem closure_without_output_pin_not_empty :
    (∀ Pin ∈ pinsOf inputPinSeed 0,
      Pin.Direction ≠ EEdGraphPinDirection.EGPD_Output) ∧
    CollectExecChainNodes inputPinSeed 0 "Then" = [1] ∧
    (∀ Pin ∈ pinsOf scenario1 2,
      Pin.Direction = EEdGraphPinDirection.EGPD_Output →
        EqualsIgnoreCase Pin.PinName "execute" = false) ∧
    CollectExecChainNodes scenario1 2 "execute" ≠ [] := by
  refine ⟨by decide, by decide, by decide, by decide⟩

/-- C7: the closure computation terminates on every graph, cycles included.
For a valid seed that is a node of its graph, the breadth-first loop leaves by
its own condition with every node enqueued at most once, the absorption loop
leaves by its own condition after at most `|Graph->Nodes|` full scans, and
neither result depends on fuel beyond the amount given. -/
theorem closure_terminates (g : UEdGraph) (EventNode : Nat) (EventExecPin : UEdGraphPin)
    (hvalid : IsValid g EventNode) (hnode : EventNode ∈ g.Nodes) :
    (execPhase g EventNode EventExecPin).ExecQueue.Nodup ∧
    (execPhase g EventNode EventExecPin).QueueIndex =
      (execPhase g EventNode EventExecPin).ExecQueue.length ∧
    (∀ extra, execLoop g EventNode (g.Objects.length + extra)
        (execInit g EventNode EventExecPin) = execPhase g EventNode EventExecPin) ∧
    (dependencyPhase g EventNode
      (execPhase g EventNode EventExecPin).NodesToRemove).bAddedDependencyNode = false ∧
    (dependencyPhase g EventNode
      (execPhase g EventNode EventExecPin).NodesToRemove).Scans ≤ g.Nodes.length ∧
    (∀ extra, dependencyLoop g EventNode (g.Nodes.length + 1 + extra)
        (execPhase g EventNode EventExecPin).NodesToRemove 0 =
      dependencyPhase g EventNode (execPhase g EventNode EventExecPin).NodesToRemove) := by
  have hdr := execPhase_drained g EventNode EventExecPin hvalid
  have hstop := dependencyPhase_stops g EventNode
    (execPhase g EventNode EventExecPin).NodesToRemove
  refine ⟨(execPhase_inv g EventNode EventExecPin).nodup, hdr, ?_, hstop, ?_, ?_⟩
  · intro extra
    exact execLoop_extra_fuel g EventNode _ _ hdr extra
  · have hlt := unabsorbed_lt_of_mem g EventNode
      (execPhase g EventNode EventExecPin).NodesToRemove hnode
    have h := (dependencyLoop_stops g EventNode (g.Nodes.length + 1)
      (execPhase g EventNode EventExecPin).NodesToRemove 0 (by omega)).2
    unfold dependencyPhase
    omega
  · intro extra
    exact dependencyLoop_extra_fuel g EventNode _ _ 0 hstop extra

/-- Witness of C7 on Scenario 1, for the seed E and its pin "Then". -/
theorem closure_terminates_witness :
    IsValid scenario1 0 ∧ 0 ∈ scenario1.Nodes ∧
    (execPhase scenario1 0 (outPin "Then" [⟨1, 0⟩])).ExecQueue.Nodup ∧
    (dependencyPhase scenario1 0
      (execPhase scenario1 0 (outPin "Then" [⟨1, 0⟩])).NodesToRemove).Scans
        ≤ scenario1.Nodes.length :=
  have h := closure_terminates scenario1 0 (outPin "Then" [⟨1, 0⟩]) (by decide) (by decide)
  ⟨by decide, by decide, h.1, h.2.2.2.2.1⟩

/-! ### Survivor selection -/

theorem positionLess_asymm (g : UEdGraph) (a b : Nat) (h : positionLess g a b = true) :
    positionLess g b a = false := by
  unfold positionLess at h ⊢
  cases ha : g.Objects[a]? with
  | none => simp [ha] at h
  | some na =>
    cases hb : g.Objects[b]? with
    | none => rfl
    | some nb =>
      simp only [ha, hb] at h ⊢
      split at h <;> split <;> simp only [decide_eq_true_eq, decide_eq_false_iff_not] at h ⊢ <;>
        omega

theorem positionLess_neg_trans (g : UEdGraph) (a b c : Nat)
    (hab : positionLess g a b = false) (hbc : positionLess g b c = false) :
    positionLess g a c = false := by
  unfold positionLess at hab hbc ⊢
  cases ha : g.Objects[a]? with
  | none => rfl
  | some na =>
    cases hb : g.Objects[b]? with
    | none => simp [ha, hb] at hab
    | some nb =>
      cases hc : g.Objects[c]? with
      | none => simp [hb, hc] at hbc
      | some nc =>
        simp only [ha, hb, hc] at hab hbc ⊢
        split at hab <;> split at hbc <;> split <;>
          simp only [decide_eq_true_eq, decide_eq_false_iff_not] at hab hbc ⊢ <;> omega

theorem mem_insertByPosition (g : UEdGraph) (a x : Nat) (l : List Nat) :
    x ∈ insertByPosition g a l ↔ x = a ∨ x ∈ l := by
  induction l with
  | nil => simp [insertByPosition]
  | cons b rest ih =>
    unfold insertByPosition
    split
    · simp only [List.mem_cons, ih]
      tauto
    · simp only [List.mem_cons]

theorem mem_sortByPosition (g : UEdGraph) (x : Nat) (l : List Nat) :
    x ∈ sortByPosition g l ↔ x ∈ l := by
  induction l with
  | nil => simp [sortByPosition]
  | cons a rest ih =>
    unfold sortByPosition
    rw [mem_insertByPosition, ih]
    simp only [List.mem_cons]

theorem positionLess_irrefl (g : UEdGraph) (a : Nat) : positionLess g a a = false := by
  cases hlt : positionLess g a a
  · rfl
  · have := positionLess_asymm g a a hlt
    rw [hlt] at this
    exact absurd this Bool.noConfusion

theorem insertByPosition_head_min (g : UEdGraph) (a : Nat) (l : List Nat)
    (hl : ∀ h, l.head? = some h → ∀ c ∈ l, positionLess g c h = false) :
    ∀ h, (insertByPosition g a l).head? = some h →
      ∀ c ∈ insertByPosition g a l, positionLess g c h = false := by
  intro h hh c hc
  rw [mem_insertByPosition] at hc
  cases l with
  | nil =>
    simp only [insertByPosition, List.head?_cons, Option.some.injEq] at hh
    rw [← hh]
    rcases hc with hc | hc
    · rw [hc]
      exact positionLess_irrefl g a
    · simp at hc
  | cons b rest =>
    have hb := hl b rfl
    unfold insertByPosition at hh
    by_cases hba : positionLess g b a = true
    · rw [if_pos hba] at hh
      simp only [List.head?_cons, Option.some.injEq] at hh
      rw [← hh]
      rcases hc with hc | hc
      · rw [hc]
        exact positionLess_asymm g b a hba
      · exact hb c hc
    · rw [if_neg hba] at hh
      simp only [List.head?_cons, Option.some.injEq] at hh
      rw [← hh]
      have hba2 : positionLess g b a = false := by
        cases hx : positionLess g b a
        · rfl
        · exact absurd hx hba
      rcases hc with hc | hc
      · rw [hc]
        exact positionLess_irrefl g a
      · exact positionLess_neg_trans g c b a (hb c hc) hba2

theorem sortByPosition_head_min (g : UEdGraph) (l : List Nat) :
    ∀ h, (sortByPosition g l).head? = some h →
      ∀ c ∈ sortByPosition g l, positionLess g c h = false := by
  induction l with
  | nil => intro h hh; simp [sortByPosition] at hh
  | cons a rest ih =>
    unfold sortByPosition
    exact insertByPosition_head_min g a _ ih

theorem sortByPosition_ne_nil (g : UEdGraph) (l : List Nat) (h : l ≠ []) :
    sortByPosition g l ≠ [] := by
  cases l with
  | nil => exact absurd rfl h
  | cons a rest =>
    intro hnil
    have : a ∈ sortByPosition g (a :: rest) :=
      (mem_sortByPosition g a (a :: rest)).mpr (List.mem_cons_self _ _)
    rw [hnil] at this
    simp at this

theorem isMatchedEvent_object {g : UEdGraph} {w ev : String} {c : Nat}
    (h : isMatchedEvent g w ev c = true) : ∃ n, g.Objects[c]? = some n := by
  unfold isMatchedEvent at h
  cases hc : g.Objects[c]? with
  | none => rw [hc] at h; exact absurd h Bool.noConfusion
  | some n => exact ⟨n, rfl⟩

theorem collectMatchedEvents_object {g : UEdGraph} {w ev : String} {c : Nat}
    (h : c ∈ collectMatchedEvents g w ev) : ∃ n, g.Objects[c]? = some n := by
  unfold collectMatchedEvents at h
  exact isMatchedEvent_object (List.mem_filter.mp h).2

theorem positionLess_false_lex {g : UEdGraph} {c k : Nat} {nc nk : UEdGraphNode}
    (hc : g.Objects[c]? = some nc) (hk : g.Objects[k]? = some nk)
    (h : positionLess g c k = false) :
    nk.NodePosY < nc.NodePosY ∨ (nk.NodePosY = nc.NodePosY ∧ nk.NodePosX ≤ nc.NodePosX) := by
  unfold positionLess at h
  simp only [hc, hk] at h
  split at h <;> simp only [decide_eq_false_iff_not] at h <;> omega

theorem findKeepNode_some {g : UEdGraph} {KeepNodeId : String} {M : List Nat} {k : Nat}
    (h : findKeepNode g KeepNodeId M = some k) :
    KeepNodeId ≠ "" ∧ k ∈ M ∧ EqualsIgnoreCase (nodeGuid g k) KeepNodeId = true := by
  unfold findKeepNode at h
  by_cases he : KeepNodeId = ""
  · rw [if_pos he] at h
    exact Option.noConfusion h
  · rw [if_neg he] at h
    have hk : (fun Candidate => EqualsIgnoreCase (nodeGuid g Candidate) KeepNodeId) k = true :=
      List.find?_some (p := fun Candidate => EqualsIgnoreCase (nodeGuid g Candidate) KeepNodeId) h
    exact ⟨he, List.mem_of_find?_eq_some h, hk⟩

theorem findKeepNode_none {g : UEdGraph} {KeepNodeId : String} {M : List Nat}
    (h : findKeepNode g KeepNodeId M = none) :
    ¬ (KeepNodeId ≠ "" ∧ ∃ c ∈ M, EqualsIgnoreCase (nodeGuid g c) KeepNodeId = true) := by
  rintro ⟨hne, c, hc, hguid⟩
  unfold findKeepNode at h
  rw [if_neg hne, List.find?_eq_none] at h
  exact h c hc hguid

theorem nodeGuid_of_object {g : UEdGraph} {k : Nat} {nk : UEdGraphNode}
    (h : g.Objects[k]? = some nk) : nodeGuid g k = nk.NodeGuid := by
  unfold nodeGuid
  rw [h]

theorem selectKeptEventNode_spec (g : UEdGraph) (KeepNodeId : String) (M : List Nat)
    (hne : M ≠ []) :
    ∃ k, (selectKeptEventNode g KeepNodeId M).1 = some k ∧ k ∈ M ∧
      ((KeepNodeId ≠ "" ∧ ∃ c ∈ M, EqualsIgnoreCase (nodeGuid g c) KeepNodeId = true) →
        EqualsIgnoreCase (nodeGuid g k) KeepNodeId = true) ∧
      (¬ (KeepNodeId ≠ "" ∧ ∃ c ∈ M, EqualsIgnoreCase (nodeGuid g c) KeepNodeId = true) →
        ∀ c ∈ M, positionLess g c k = false) := by
  unfold selectKeptEventNode
  cases hfind : findKeepNode g KeepNodeId M with
  | some k =>
    obtain ⟨h1, h2, h3⟩ := findKeepNode_some hfind
    exact ⟨k, rfl, h2, fun _ => h3, fun hn => absurd ⟨h1, k, h2, h3⟩ hn⟩
  | none =>
    have hnot := findKeepNode_none hfind
    cases hs : sortByPosition g M with
    | nil => exact absurd hs (sortByPosition_ne_nil g M hne)
    | cons k rest =>
      have hk : k ∈ M := by
        rw [← mem_sortByPosition g k M, hs]
        exact List.mem_cons_self _ _
      refine ⟨k, rfl, hk, fun hp => absurd hp hnot, ?_⟩
      intro _ c hc
      have hmin := sortByPosition_head_min g M k (by rw [hs]; rfl)
      exact hmin c ((mem_sortByPosition g c M).mpr hc)

/-- C8: with two or more candidates, the survivor is a candidate; when a
preferred identifier is given (non-empty) and some candidate carries it, the
survivor carries it, identifiers being compared as the host compares them,
ignoring letter case; otherwise the survivor's (row Y, column X) position is
lexicographically minimal among all candidates; the reported `kept_node_id` is
the survivor's identifier. In Scenario 2 (rows 10, 5, 20, no preferred
identifier) the node at row 5 is kept. -/
theorem dedupe_survivor_selection (g : UEdGraph)
    (WidgetName EventName KeepNodeId EventOutputPinName : String)
    (hmany : 2 ≤ (collectMatchedEvents g WidgetName EventName).length) :
    (∃ k nk,
      (selectKeptEventNode g KeepNodeId (collectMatchedEvents g WidgetName EventName)).1
        = some k ∧
      k ∈ collectMatchedEvents g WidgetName EventName ∧
      g.Objects[k]? = some nk ∧
      (HandleDedupeBlueprintComponentBoundEvents g WidgetName EventName KeepNodeId
        EventOutputPinName).kept_node_id = some nk.NodeGuid ∧
      ((KeepNodeId ≠ "" ∧ ∃ c ∈ collectMatchedEvents g WidgetName EventName,
          EqualsIgnoreCase (nodeGuid g c) KeepNodeId = true) →
        EqualsIgnoreCase nk.NodeGuid KeepNodeId = true) ∧
      (¬ (KeepNodeId ≠ "" ∧ ∃ c ∈ collectMatchedEvents g WidgetName EventName,
          EqualsIgnoreCase (nodeGuid g c) KeepNodeId = true) →
        ∀ c ∈ collectMatchedEvents g WidgetName EventName, ∀ nc, g.Objects[c]? = some nc →
          nk.NodePosY < nc.NodePosY ∨
            (nk.NodePosY = nc.NodePosY ∧ nk.NodePosX ≤ nc.NodePosX))) ∧
    (selectKeptEventNode scenario2 "" (collectMatchedEvents scenario2 "Button1" "OnClicked")).1
      = some 1 ∧
    (HandleDedupeBlueprintComponentBoundEvents scenario2 "Button1" "OnClicked" ""
      "Then").kept_node_id = some "B1" := by
  refine ⟨?_, by decide, by decide⟩
  have hne : collectMatchedEvents g WidgetName EventName ≠ [] := by
    intro h
    rw [h] at hmany
    simp at hmany
  obtain ⟨k, hsel, hk, hpref, hmin⟩ :=
    selectKeptEventNode_spec g KeepNodeId (collectMatchedEvents g WidgetName EventName) hne
  obtain ⟨nk, hnk⟩ := collectMatchedEvents_object hk
  have hguid := nodeGuid_of_object hnk
  refine ⟨k, nk, hsel, hk, hnk, ?_, ?_, ?_⟩
  · unfold HandleDedupeBlueprintComponentBoundEvents
    simp only
    rw [if_neg (by omega), hsel]
    show some (nodeGuid g k) = some nk.NodeGuid
    rw [hguid]
  · intro hp
    rw [← hguid]
    exact hpref hp
  · intro hnp c hc nc hnc
    exact positionLess_false_lex hnc hnk (hmin hnp c hc)

/-- Witness of C8 on Scenario 2 with the preferred identifier "b2", which the
candidate "B2" carries up to letter case: B2 is kept. -/
theorem dedupe_survivor_selection_witness :
    2 ≤ (collectMatchedEvents scenario2 "Button1" "OnClicked").length ∧
    (∃ k nk,
      (selectKeptEventNode scenario2 "b2"
        (collectMatchedEvents scenario2 "Button1" "OnClicked")).1 = some k ∧
      k ∈ collectMatchedEvents scenario2 "Button1" "OnClicked" ∧
      scenario2.Objects[k]? = some nk ∧
      (HandleDedupeBlueprintComponentBoundEvents scenario2 "Button1" "OnClicked" "b2"
        "Then").kept_node_id = some nk.NodeGuid ∧
      (("b2" ≠ "" ∧ ∃ c ∈ collectMatchedEvents scenario2 "Button1" "OnClicked",
          EqualsIgnoreCase (nodeGuid scenario2 c) "b2" = true) →
        EqualsIgnoreCase nk.NodeGuid "b2" = true) ∧
      (¬ ("b2" ≠ "" ∧ ∃ c ∈ collectMatchedEvents scenario2 "Button1" "OnClicked",
          EqualsIgnoreCase (nodeGuid scenario2 c) "b2" = true) →
        ∀ c ∈ collectMatchedEvents scenario2 "Button1" "OnClicked", ∀ nc,
          scenario2.Objects[c]? = some nc →
          nk.NodePosY < nc.NodePosY ∨
            (nk.NodePosY = nc.NodePosY ∧ nk.NodePosX ≤ nc.NodePosX))) ∧
    (HandleDedupeBlueprintComponentBoundEvents scenario2 "Button1" "OnClicked" "b2"
      "Then").kept_node_id = some "B2" :=
  ⟨by decide,
    (dedupe_survivor_selection scenario2 "Button1" "OnClicked" "b2" "Then" (by decide)).1,
    by decide⟩

/-! ### Node removal -/

theorem breakAllNodeLinks_length (c : Nat) (l : List UEdGraphNode) :
    ∀ i, (breakAllNodeLinks c i l).length = l.length := by
  induction l with
  | nil => intro i; rfl
  | cons n rest ih =>
    intro i
    simp only [breakAllNodeLinks, List.length_cons, ih]

theorem breakAllNodeLinks_getElem? (c : Nat) (l : List UEdGraphNode) :
    ∀ i k, (breakAllNodeLinks c i l)[k]? =
      (l[k]?).map (fun n =>
        if i + k = c then { n with Pins := n.Pins.map UEdGraphPin.withoutLinks }
        else { n with Pins := n.Pins.map (fun Pin => Pin.withoutLinksTo c) }) := by
  induction l with
  | nil => intro i k; simp [breakAllNodeLinks]
  | cons n rest ih =>
    intro i k
    cases k with
    | zero => simp [breakAllNodeLinks]
    | succ j =>
      simp only [breakAllNodeLinks, List.getElem?_cons_succ]
      rw [ih (i + 1) j]
      have : i + 1 + j = i + (j + 1) := by omega
      rw [this]

theorem RemoveNode_length (g : UEdGraph) (c : Nat) :
    (RemoveNode g c).Objects.length = g.Objects.length :=
  breakAllNodeLinks_length c g.Objects 0

theorem RemoveNode_valid (g : UEdGraph) (c n : Nat) :
    IsValid (RemoveNode g c) n ↔ IsValid g n := by
  unfold IsValid
  rw [RemoveNode_length]

theorem mem_RemoveNode_Nodes (g : UEdGraph) (c n : Nat) :
    n ∈ (RemoveNode g c).Nodes ↔ n ∈ g.Nodes ∧ n ≠ c := by
  unfold RemoveNode
  simp [List.mem_filter]

theorem pinsOf_RemoveNode (g : UEdGraph) (c k : Nat) :
    pinsOf (RemoveNode g c) k = (pinsOf g k).map (detachPin [c] k) := by
  unfold pinsOf
  have h : (RemoveNode g c).Objects[k]? = _ := breakAllNodeLinks_getElem? c g.Objects 0 k
  rw [h]
  cases hk : g.Objects[k]? with
  | none => rfl
  | some n =>
    simp only [Option.map_some', Nat.zero_add]
    by_cases hkc : k = c
    · rw [if_pos hkc]
      simp only
      apply List.map_congr_left
      intro Pin _
      unfold detachPin
      rw [if_pos (by simp [hkc])]
    · rw [if_neg hkc]
      simp only
      apply List.map_congr_left
      intro Pin _
      unfold detachPin
      rw [if_neg (by simp [hkc])]
      unfold UEdGraphPin.withoutLinksTo
      congr 1
      apply List.filter_congr
      intro l _
      simp

theorem detachPin_nil (k : Nat) (Pin : UEdGraphPin) : detachPin [] k Pin = Pin := by
  unfold detachPin
  rw [if_neg (by simp)]
  cases Pin
  simp

theorem detachPin_cons (c : Nat) (R : List Nat) (k : Nat) (Pin : UEdGraphPin) :
    detachPin [c] k (detachPin R k Pin) = detachPin (c :: R) k Pin := by
  by_cases hkc : k = c
  · have h1 : k ∈ [c] := by simp [hkc]
    have h2 : k ∈ c :: R := by simp [hkc]
    unfold detachPin
    rw [if_pos h1, if_pos h2]
    split <;> rfl
  · have h1 : k ∉ [c] := by simp [hkc]
    by_cases hkR : k ∈ R
    · have h2 : k ∈ c :: R := by simp [hkR]
      unfold detachPin
      rw [if_neg h1, if_pos hkR, if_pos h2]
      rfl
    · have h2 : k ∉ c :: R := by simp [hkc, hkR]
      unfold detachPin
      rw [if_neg h1, if_neg hkR, if_neg h2]
      simp only [List.filter_filter]
      congr 1
      apply List.filter_congr
      intro l _
      simp only [List.mem_singleton, List.mem_cons, Bool.decide_eq_true, decide_not,
        Bool.and_eq_true, Bool.not_eq_true', decide_eq_false_iff_not, not_or]
      simp

theorem Detached.refl (g : UEdGraph) : Detached g g [] := by
  refine ⟨rfl, ?_⟩
  intro k
  rw [List.map_congr_left (fun Pin _ => detachPin_nil k Pin)]
  simp

theorem Detached.remove {g g1 : UEdGraph} {R : List Nat} (h : Detached g g1 R) (c : Nat) :
    Detached g (RemoveNode g1 c) (c :: R) := by
  refine ⟨(RemoveNode_length g1 c).trans h.length, ?_⟩
  intro k
  rw [pinsOf_RemoveNode, h.pins k, List.map_map]
  apply List.map_congr_left
  intro Pin _
  exact detachPin_cons c R k Pin

theorem detachPin_name (R : List Nat) (k : Nat) (Pin : UEdGraphPin) :
    (detachPin R k Pin).PinName = Pin.PinName := by
  unfold detachPin
  split <;> rfl

theorem detachPin_direction (R : List Nat) (k : Nat) (Pin : UEdGraphPin) :
    (detachPin R k Pin).Direction = Pin.Direction := by
  unfold detachPin
  split <;> rfl

theorem mem_detachPin_links (R : List Nat) (k : Nat) (Pin : UEdGraphPin) (l : PinRef) :
    l ∈ (detachPin R k Pin).LinkedTo ↔ l ∈ Pin.LinkedTo ∧ k ∉ R ∧ l.Node ∉ R := by
  unfold detachPin
  by_cases hk : k ∈ R
  · rw [if_pos hk]
    simp [UEdGraphPin.withoutLinks, hk]
  · rw [if_neg hk]
    simp [List.mem_filter, hk]

theorem Detached.valid_iff {g g1 : UEdGraph} {R : List Nat} (h : Detached g g1 R) (n : Nat) :
    IsValid g1 n ↔ IsValid g n := by
  unfold IsValid
  rw [h.length]

theorem Detached.find {g g1 : UEdGraph} {R : List Nat} (h : Detached g g1 R)
    (c : Nat) (name : String) :
    FindNodePinByName g1 c name = (FindNodePinByName g c name).map (detachPin R c) := by
  unfold FindNodePinByName
  by_cases hv : IsValid g c
  · have hfun : ((fun Pin : UEdGraphPin => EqualsIgnoreCase Pin.PinName name) ∘
        detachPin R c) = (fun Pin : UEdGraphPin => EqualsIgnoreCase Pin.PinName name) := by
      funext Pin
      simp only [Function.comp_apply, detachPin_name]
    rw [if_pos ((h.valid_iff c).mpr hv), if_pos hv, h.pins c, List.find?_map, hfun]
  · rw [if_neg (fun hc => hv ((h.valid_iff c).mp hc)), if_neg hv]
    rfl

theorem Detached.execEdge {g g1 : UEdGraph} {R : List Nat} (h : Detached g g1 R)
    {a b : Nat} (he : ExecEdge g1 a b) : ExecEdge g a b := by
  obtain ⟨Pin1, hP1, hdir, l, hl, hlb⟩ := he
  rw [h.pins a, List.mem_map] at hP1
  obtain ⟨Pin, hP, hPeq⟩ := hP1
  subst hPeq
  rw [detachPin_direction] at hdir
  exact ⟨Pin, hP, hdir, l, ((mem_detachPin_links R a Pin l).mp hl).1, hlb⟩

theorem Detached.linked {g g1 : UEdGraph} {R : List Nat} (h : Detached g g1 R)
    {a b : Nat} (hl : LinkedNode g1 a b) : LinkedNode g a b ∧ a ∉ R ∧ b ∉ R := by
  obtain ⟨hv, Pin1, hP1, l, hl, hlb⟩ := hl
  rw [h.pins a, List.mem_map] at hP1
  obtain ⟨Pin, hP, hPeq⟩ := hP1
  subst hPeq
  obtain ⟨h1, h2, h3⟩ := (mem_detachPin_links R a Pin l).mp hl
  subst hlb
  exact ⟨⟨(h.valid_iff _).mp hv, Pin, hP, l, h1, rfl⟩, h2, h3⟩

theorem Detached.linked_of {g g1 : UEdGraph} {R : List Nat} (h : Detached g g1 R)
    {a b : Nat} (hl : LinkedNode g a b) (ha : a ∉ R) (hb : b ∉ R) : LinkedNode g1 a b := by
  obtain ⟨hv, Pin, hP, l, hl, hlb⟩ := hl
  subst hlb
  refine ⟨(h.valid_iff _).mpr hv, detachPin R a Pin, ?_, l, ?_, rfl⟩
  · rw [h.pins a]
    exact List.mem_map_of_mem _ hP
  · exact (mem_detachPin_links R a Pin l).mpr ⟨hl, ha, hb⟩

theorem Detached.execReach {g g1 : UEdGraph} {R : List Nat} (h : Detached g g1 R)
    {c n : Nat} {Pin : UEdGraphPin}
    (hr : ExecReach g1 c (detachPin R c Pin).LinkedTo n) : ExecReach g c Pin.LinkedTo n := by
  induction hr with
  | direct l hl hv hne =>
    exact ExecReach.direct l ((mem_detachPin_links R c Pin l).mp hl).1 ((h.valid_iff _).mp hv) hne
  | step a b _ hedge hv hne ih =>
    exact ExecReach.step a b ih (h.execEdge hedge) ((h.valid_iff _).mp hv) hne

theorem mem_addChainNodes (g : UEdGraph) (C : List Nat) (x : Nat) :
    ∀ S : List Nat, x ∈ addChainNodes g S C ↔ x ∈ S ∨ (x ∈ C ∧ IsValid g x) := by
  unfold addChainNodes
  induction C with
  | nil => intro S; simp
  | cons a rest ih =>
    intro S
    simp only [List.foldl_cons]
    rw [ih]
    by_cases ha : IsValid g a ∧ a ∉ S
    · rw [if_pos ha]
      rw [List.mem_append, List.mem_singleton, List.mem_cons]
      constructor
      · rintro ((h | h) | h)
        · exact Or.inl h
        · exact Or.inr ⟨Or.inl h, h ▸ ha.1⟩
        · exact Or.inr ⟨Or.inr h.1, h.2⟩
      · rintro (h | ⟨h | h, hv⟩)
        · exact Or.inl (Or.inl h)
        · exact Or.inl (Or.inr h)
        · exact Or.inr ⟨h, hv⟩
    · rw [if_neg ha]
      rw [List.mem_cons]
      constructor
      · rintro (h | h)
        · exact Or.inl h
        · exact Or.inr ⟨Or.inr h.1, h.2⟩
      · rintro (h | ⟨h | h, hv⟩)
        · exact Or.inl h
        · subst h
          by_cases hS : x ∈ S
          · exact Or.inl hS
          · exact absurd ⟨hv, hS⟩ ha
        · exact Or.inr ⟨h, hv⟩

/-! ### The dedupe loops -/

theorem dedupeCandidate_inv {g : UEdGraph} {pin : String} {st : DedupeState} {R : List Nat}
    (kept : Option Nat) (c : Nat) (inv : DedupeInv g pin st R) (hc : some c ≠ kept) :
    DedupeInv g pin (dedupeCandidate kept pin st c) (c :: R) := by
  unfold dedupeCandidate
  rw [if_neg hc]
  refine ⟨inv.detached.remove c, ?_, ?_, ?_, ?_⟩
  · intro n
    show n ∈ (RemoveNode st.Graph c).Nodes ↔ _
    rw [mem_RemoveNode_Nodes, inv.nodes n]
    simp only [List.mem_cons, not_or]
    tauto
  · intro n hn
    rcases (mem_addChainNodes st.Graph _ n _).mp hn with h | h
    · exact inv.chainValid n h
    · exact (inv.detached.valid_iff n).mp h.2
  · intro n hn
    rcases (mem_addChainNodes st.Graph _ n _).mp hn with h | ⟨h, _⟩
    · rcases inv.chain n h with ⟨c0, hc0, hreach⟩ | ⟨hex, hall⟩
      · exact Or.inl ⟨c0, List.mem_cons_of_mem _ hc0, hreach⟩
      · refine Or.inr ⟨hex, ?_⟩
        intro b hb
        rcases hall b hb with h1 | h1
        · exact Or.inl (List.mem_cons_of_mem _ h1)
        · exact Or.inr ((mem_addChainNodes st.Graph _ b _).mpr (Or.inl h1))
    · obtain ⟨Pin1, hfind1, hcase⟩ := CollectExecChainNodes_mem h
      rw [inv.detached.find c pin] at hfind1
      cases hfind : FindNodePinByName g c pin with
      | none => rw [hfind] at hfind1; exact Option.noConfusion hfind1
      | some Pin =>
        rw [hfind] at hfind1
        have hP1 : detachPin R c Pin = Pin1 := Option.some.inj hfind1
        rcases hcase with hreach | ⟨_, _, _, hex, hall⟩
        · rw [← hP1] at hreach
          exact Or.inl ⟨c, List.mem_cons_self _ _, Pin, hfind, inv.detached.execReach hreach⟩
        · obtain ⟨b0, hb0⟩ := hex
          have hnR : n ∉ R := (inv.detached.linked hb0).2.1
          refine Or.inr ⟨⟨b0, (inv.detached.linked hb0).1⟩, ?_⟩
          intro b hb
          by_cases hbR : b ∈ R
          · exact Or.inl (List.mem_cons_of_mem _ hbR)
          · have hb1 := inv.detached.linked_of hb hnR hbR
            rcases hall b hb1 with h1 | h1
            · exact Or.inl (by rw [h1]; exact List.mem_cons_self _ _)
            · exact Or.inr ((mem_addChainNodes st.Graph _ b _).mpr (Or.inr ⟨h1, hb1.1⟩))
  · show st.RemovedEventNodes + 1 = (c :: R).length
    rw [inv.count, List.length_cons]

theorem dedupeLoop_inv {g : UEdGraph} {pin : String} (kept : Option Nat) (l : List Nat) :
    ∀ (st : DedupeState) (R : List Nat), DedupeInv g pin st R →
      ∃ R1, DedupeInv g pin (l.foldl (dedupeCandidate kept pin) st) R1 ∧
        ∀ x, x ∈ R1 ↔ x ∈ R ∨ (x ∈ l ∧ some x ≠ kept) := by
  induction l with
  | nil =>
    intro st R inv
    exact ⟨R, inv, by simp⟩
  | cons c rest ih =>
    intro st R inv
    by_cases hc : some c = kept
    · have hst : dedupeCandidate kept pin st c = st := by
        unfold dedupeCandidate
        rw [if_pos hc]
      obtain ⟨R1, inv1, hR1⟩ := ih st R inv
      refine ⟨R1, by simpa only [List.foldl_cons, hst] using inv1, ?_⟩
      intro x
      rw [hR1 x, List.mem_cons]
      constructor
      · rintro (h | ⟨h1, h2⟩)
        · exact Or.inl h
        · exact Or.inr ⟨Or.inr h1, h2⟩
      · rintro (h | ⟨h1 | h1, h2⟩)
        · exact Or.inl h
        · subst h1; exact absurd hc h2
        · exact Or.inr ⟨h1, h2⟩
    · obtain ⟨R1, inv1, hR1⟩ := ih _ (c :: R) (dedupeCandidate_inv kept c inv hc)
      refine ⟨R1, inv1, ?_⟩
      intro x
      rw [hR1 x, List.mem_cons, List.mem_cons]
      constructor
      · rintro ((h | h) | ⟨h1, h2⟩)
        · subst h; exact Or.inr ⟨Or.inl rfl, hc⟩
        · exact Or.inl h
        · exact Or.inr ⟨Or.inr h1, h2⟩
      · rintro (h | ⟨h1 | h1, h2⟩)
        · exact Or.inl (Or.inr h)
        · exact Or.inl (Or.inl h1)
        · exact Or.inr ⟨h1, h2⟩

theorem DedupeInv.init (g : UEdGraph) (pin : String) : DedupeInv g pin ⟨g, [], 0⟩ [] := by
  refine ⟨Detached.refl g, ?_, ?_, ?_, rfl⟩
  · intro n; simp
  · intro n hn; simp at hn
  · intro n hn; simp at hn

theorem removeChainLoop_nodes (l : List Nat) (n : Nat) :
    ∀ st : UEdGraph × Nat,
      (n ∈ (l.foldl removeChainNode st).1.Nodes ↔
        n ∈ st.1.Nodes ∧ ¬ (n ∈ l ∧ IsValid st.1 n)) ∧
      (l.foldl removeChainNode st).1.Objects.length = st.1.Objects.length := by
  induction l with
  | nil => intro st; simp
  | cons a rest ih =>
    intro st
    simp only [List.foldl_cons]
    obtain ⟨h1, h2⟩ := ih (removeChainNode st a)
    rw [h1, h2]
    unfold removeChainNode
    by_cases hv : IsValid st.1 a
    · rw [if_pos hv]
      simp only [mem_RemoveNode_Nodes, RemoveNode_valid, RemoveNode_length, List.mem_cons]
      refine ⟨?_, trivial⟩
      constructor
      · rintro ⟨⟨hn, hna⟩, hnot⟩
        refine ⟨hn, ?_⟩
        rintro ⟨h | h, hvn⟩
        · exact hna h
        · exact hnot ⟨h, hvn⟩
      · rintro ⟨hn, hnot⟩
        refine ⟨⟨hn, ?_⟩, ?_⟩
        · intro hna
          subst hna
          exact hnot ⟨Or.inl rfl, hv⟩
        · rintro ⟨h, hvn⟩
          exact hnot ⟨Or.inr h, hvn⟩
    · rw [if_neg hv]
      simp only [List.mem_cons]
      refine ⟨?_, trivial⟩
      constructor
      · rintro ⟨hn, hnot⟩
        refine ⟨hn, ?_⟩
        rintro ⟨h | h, hvn⟩
        · subst h; exact hv hvn
        · exact hnot ⟨h, hvn⟩
      · rintro ⟨hn, hnot⟩
        exact ⟨hn, fun ⟨h, hvn⟩ => hnot ⟨Or.inr h, hvn⟩⟩

theorem mem_selectKeptEventNode (g : UEdGraph) (KeepNodeId : String) (M : List Nat) (x : Nat) :
    x ∈ (selectKeptEventNode g KeepNodeId M).2 ↔ x ∈ M := by
  unfold selectKeptEventNode
  split
  · rfl
  · exact mem_sortByPosition g x M

theorem dedupe_spec (g : UEdGraph) (WidgetName EventName KeepNodeId pin : String)
    (hmany : 2 ≤ (collectMatchedEvents g WidgetName EventName).length) :
    ∃ (R : List Nat) (st : DedupeState), DedupeInv g pin st R ∧
      (∀ x, x ∈ R ↔ x ∈ collectMatchedEvents g WidgetName EventName ∧
        some x ≠ (selectKeptEventNode g KeepNodeId
          (collectMatchedEvents g WidgetName EventName)).1) ∧
      (∀ n, n ∈ (HandleDedupeBlueprintComponentBoundEvents g WidgetName EventName
          KeepNodeId pin).Graph.Nodes ↔
        n ∈ g.Nodes ∧ n ∉ R ∧ n ∉ st.ChainNodesToRemove) ∧
      (HandleDedupeBlueprintComponentBoundEvents g WidgetName EventName
          KeepNodeId pin).removed_event_nodes = R.length := by
  obtain ⟨R, inv, hR⟩ := dedupeLoop_inv
    (selectKeptEventNode g KeepNodeId (collectMatchedEvents g WidgetName EventName)).1
    (selectKeptEventNode g KeepNodeId (collectMatchedEvents g WidgetName EventName)).2
    ⟨g, [], 0⟩ [] (DedupeInv.init g pin)
  refine ⟨R, _, inv, ?_, ?_, ?_⟩
  · intro x
    rw [hR x, mem_selectKeptEventNode]
    simp
  · intro n
    unfold HandleDedupeBlueprintComponentBoundEvents
    simp only
    rw [if_neg (by omega)]
    simp only
    rw [(removeChainLoop_nodes _ n _).1, inv.nodes n]
    constructor
    · rintro ⟨⟨h1, h2⟩, h3⟩
      exact ⟨h1, h2, fun hc => h3 ⟨hc, (inv.detached.valid_iff n).mpr (inv.chainValid n hc)⟩⟩
    · rintro ⟨h1, h2, h3⟩
      exact ⟨⟨h1, h2⟩, fun hc => h3 hc.1⟩
  · unfold HandleDedupeBlueprintComponentBoundEvents
    simp only
    rw [if_neg (by omega)]
    exact inv.count

/-- C9 (the code at the failing input): K and D are duplicates wired to the
same node F. K is selected as survivor and reported as `kept_node_id`, but the
closure of D absorbs K (its only link ends at F), so K is removed with F and
no node matching the key is left in the graph. -/
theorem dedupe_shared_chain_removes_survivor :
    collectMatchedEvents sharedChain "Button1" "OnClicked" = [0, 1] ∧
    (selectKeptEventNode sharedChain ""
      (collectMatchedEvents sharedChain "Button1" "OnClicked")).1 = some 0 ∧
    CollectExecChainNodes sharedChain 1 "Then" = [2, 0] ∧
    (HandleDedupeBlueprintComponentBoundEvents sharedChain "Button1" "OnClicked" ""
      "Then").kept_node_id = some "K" ∧
    0 ∉ (HandleDedupeBlueprintComponentBoundEvents sharedChain "Button1" "OnClicked" ""
      "Then").Graph.Nodes ∧
    collectMatchedEvents (HandleDedupeBlueprintComponentBoundEvents sharedChain "Button1"
      "OnClicked" "" "Then").Graph "Button1" "OnClicked" = [] ∧
    (HandleDedupeBlueprintComponentBoundEvents sharedChain "Button1" "OnClicked" ""
      "Then").removed_event_nodes = 1 ∧
    (HandleDedupeBlueprintComponentBoundEvents sharedChain "Button1" "OnClicked" ""
      "Then").removed_chain_nodes = 2 := by
  refine ⟨by decide, by decide, by decide, by decide, by decide, by decide, by decide,
    by decide⟩

/-- C11: when at most one node matches the identity key, Dedupe is a no-op: the
graph is unchanged, both removal counts are 0, `matched_events` is the number
of matches, and `kept_node_id` is absent for no match and is the identifier of
the matching node for one match. -/
theorem dedupe_noop_when_at_most_one (g : UEdGraph)
    (WidgetName EventName KeepNodeId EventOutputPinName : String)
    (hfew : (collectMatchedEvents g WidgetName EventName).length ≤ 1) :
    (HandleDedupeBlueprintComponentBoundEvents g WidgetName EventName KeepNodeId
      EventOutputPinName).Graph = g ∧
    (HandleDedupeBlueprintComponentBoundEvents g WidgetName EventName KeepNodeId
      EventOutputPinName).removed_event_nodes = 0 ∧
    (HandleDedupeBlueprintComponentBoundEvents g WidgetName EventName KeepNodeId
      EventOutputPinName).removed_chain_nodes = 0 ∧
    (HandleDedupeBlueprintComponentBoundEvents g WidgetName EventName KeepNodeId
      EventOutputPinName).matched_events = (collectMatchedEvents g WidgetName EventName).length ∧
    (collectMatchedEvents g WidgetName EventName = [] →
      (HandleDedupeBlueprintComponentBoundEvents g WidgetName EventName KeepNodeId
        EventOutputPinName).kept_node_id = none) ∧
    (∀ c, collectMatchedEvents g WidgetName EventName = [c] →
      (HandleDedupeBlueprintComponentBoundEvents g WidgetName EventName KeepNodeId
        EventOutputPinName).kept_node_id = some (nodeGuid g c)) := by
  unfold HandleDedupeBlueprintComponentBoundEvents
  simp only
  rw [if_pos hfew]
  refine ⟨rfl, rfl, rfl, rfl, ?_, ?_⟩
  · intro h
    rw [h]
    rfl
  · intro c h
    rw [h]
    rfl

/-- Witness of C11 on a graph with one bound event for ("Button1",
"OnClicked"), asked for as ("button1", "onclicked"): the names match as
`FName`s compare, the one candidate is reported as kept and nothing is
removed. -/
theorem dedupe_noop_when_at_most_one_witness :
    collectMatchedEvents oneBoundEvent "button1" "onclicked" = [0] ∧
    (HandleDedupeBlueprintComponentBoundEvents oneBoundEvent "button1" "onclicked" ""
      "Then").Graph = oneBoundEvent ∧
    (HandleDedupeBlueprintComponentBoundEvents oneBoundEvent "button1" "onclicked" ""
      "Then").removed_event_nodes = 0 ∧
    (HandleDedupeBlueprintComponentBoundEvents oneBoundEvent "button1" "onclicked" ""
      "Then").removed_chain_nodes = 0 ∧
    (HandleDedupeBlueprintComponentBoundEvents oneBoundEvent "button1" "onclicked" ""
      "Then").matched_events = 1 ∧
    (HandleDedupeBlueprintComponentBoundEvents oneBoundEvent "button1" "onclicked" ""
      "Then").kept_node_id = some "B" :=
  have h := dedupe_noop_when_at_most_one oneBoundEvent "button1" "onclicked" "" "Then"
    (by decide)
  ⟨by decide, h.1, h.2.1, h.2.2.1, h.2.2.2.1.trans (by decide),
    (h.2.2.2.2.2 0 (by decide)).trans (by decide)⟩

theorem sameMeta_refl (g : UEdGraph) : SameMeta g g := fun _ => rfl

theorem SameMeta.trans {g g1 g2 : UEdGraph} (h1 : SameMeta g g1) (h2 : SameMeta g1 g2) :
    SameMeta g g2 := fun k => (h2 k).trans (h1 k)

theorem RemoveNode_sameMeta (g : UEdGraph) (c : Nat) : SameMeta g (RemoveNode g c) := by
  intro k
  have h : (RemoveNode g c).Objects[k]? = _ := breakAllNodeLinks_getElem? c g.Objects 0 k
  rw [h]
  cases g.Objects[k]? with
  | none => rfl
  | some n =>
    simp only [Option.map_some']
    split <;> rfl

theorem RemoveNode_nodes_sublist (g : UEdGraph) (c : Nat) :
    (RemoveNode g c).Nodes.Sublist g.Nodes :=
  List.filter_sublist _

theorem dedupeCandidate_frame (kept : Option Nat) (pin : String) (st : DedupeState) (c : Nat) :
    SameMeta st.Graph (dedupeCandidate kept pin st c).Graph ∧
    (dedupeCandidate kept pin st c).Graph.Nodes.Sublist st.Graph.Nodes := by
  unfold dedupeCandidate
  split
  · exact ⟨sameMeta_refl _, List.Sublist.refl _⟩
  · exact ⟨RemoveNode_sameMeta _ _, RemoveNode_nodes_sublist _ _⟩

theorem dedupeLoop_frame (kept : Option Nat) (pin : String) (l : List Nat) :
    ∀ st : DedupeState,
      SameMeta st.Graph (l.foldl (dedupeCandidate kept pin) st).Graph ∧
      (l.foldl (dedupeCandidate kept pin) st).Graph.Nodes.Sublist st.Graph.Nodes := by
  induction l with
  | nil => intro st; exact ⟨sameMeta_refl _, List.Sublist.refl _⟩
  | cons c rest ih =>
    intro st
    obtain ⟨h1, h2⟩ := dedupeCandidate_frame kept pin st c
    obtain ⟨h3, h4⟩ := ih (dedupeCandidate kept pin st c)
    exact ⟨h1.trans h3, h4.trans h2⟩

theorem removeChainLoop_frame (l : List Nat) :
    ∀ st : UEdGraph × Nat,
      SameMeta st.1 (l.foldl removeChainNode st).1 ∧
      (l.foldl removeChainNode st).1.Nodes.Sublist st.1.Nodes := by
  induction l with
  | nil => intro st; exact ⟨sameMeta_refl _, List.Sublist.refl _⟩
  | cons a rest ih =>
    intro st
    obtain ⟨h3, h4⟩ := ih (removeChainNode st a)
    have h12 : SameMeta st.1 (removeChainNode st a).1 ∧
        (removeChainNode st a).1.Nodes.Sublist st.1.Nodes := by
      unfold removeChainNode
      split
      · exact ⟨RemoveNode_sameMeta _ _, RemoveNode_nodes_sublist _ _⟩
      · exact ⟨sameMeta_refl _, List.Sublist.refl _⟩
    exact ⟨h12.1.trans h3, h4.trans h12.2⟩

theorem dedupe_frame (g : UEdGraph) (WidgetName EventName KeepNodeId pin : String) :
    SameMeta g (HandleDedupeBlueprintComponentBoundEvents g WidgetName EventName
      KeepNodeId pin).Graph ∧
    (HandleDedupeBlueprintComponentBoundEvents g WidgetName EventName
      KeepNodeId pin).Graph.Nodes.Sublist g.Nodes := by
  unfold HandleDedupeBlueprintComponentBoundEvents
  simp only
  split
  · exact ⟨sameMeta_refl _, List.Sublist.refl _⟩
  · obtain ⟨h1, h2⟩ := dedupeLoop_frame
      (selectKeptEventNode g KeepNodeId (collectMatchedEvents g WidgetName EventName)).1 pin
      (selectKeptEventNode g KeepNodeId (collectMatchedEvents g WidgetName EventName)).2
      ⟨g, [], 0⟩
    obtain ⟨h3, h4⟩ := removeChainLoop_frame
      ((selectKeptEventNode g KeepNodeId (collectMatchedEvents g WidgetName EventName)).2.foldl
        (dedupeCandidate
          (selectKeptEventNode g KeepNodeId (collectMatchedEvents g WidgetName EventName)).1 pin)
        ⟨g, [], 0⟩).ChainNodesToRemove
      (((selectKeptEventNode g KeepNodeId (collectMatchedEvents g WidgetName EventName)).2.foldl
        (dedupeCandidate
          (selectKeptEventNode g KeepNodeId (collectMatchedEvents g WidgetName EventName)).1 pin)
        ⟨g, [], 0⟩).Graph, 0)
    exact ⟨h1.trans h3, h4.trans h2⟩

theorem isMatchedEvent_sameMeta {g g1 : UEdGraph} (h : SameMeta g g1)
    (WidgetName EventName : String) (n : Nat) :
    isMatchedEvent g1 WidgetName EventName n = isMatchedEvent g WidgetName EventName n := by
  have hk := h n
  unfold isMatchedEvent
  cases h1 : g1.Objects[n]? with
  | none =>
    cases h0 : g.Objects[n]? with
    | none => rfl
    | some a => rw [h1, h0] at hk; exact Option.noConfusion hk
  | some b =>
    cases h0 : g.Objects[n]? with
    | none => rw [h1, h0] at hk; exact Option.noConfusion hk
    | some a =>
      rw [h1, h0] at hk
      simp only [Option.map_some', Option.some.injEq, nodeMeta, Prod.mk.injEq] at hk
      simp only [hk.2.2.2]

theorem dedupeLoop_all_kept (kept : Option Nat) (pin : String) (l : List Nat)
    (hall : ∀ c ∈ l, some c = kept) :
    ∀ st : DedupeState, l.foldl (dedupeCandidate kept pin) st = st := by
  induction l with
  | nil => intro st; rfl
  | cons c rest ih =>
    intro st
    have hc : dedupeCandidate kept pin st c = st := by
      unfold dedupeCandidate
      rw [if_pos (hall c (List.mem_cons_self _ _))]
    simp only [List.foldl_cons, hc]
    exact ih (fun x hx => hall x (List.mem_cons_of_mem _ hx)) st

theorem dedupe_noop_of_all_equal (g : UEdGraph) (WidgetName EventName KeepNodeId pin : String)
    (heq : ∀ a ∈ collectMatchedEvents g WidgetName EventName,
      ∀ b ∈ collectMatchedEvents g WidgetName EventName, a = b) :
    (HandleDedupeBlueprintComponentBoundEvents g WidgetName EventName KeepNodeId pin).Graph = g ∧
    (HandleDedupeBlueprintComponentBoundEvents g WidgetName EventName KeepNodeId
      pin).removed_event_nodes = 0 ∧
    (HandleDedupeBlueprintComponentBoundEvents g WidgetName EventName KeepNodeId
      pin).removed_chain_nodes = 0 := by
  by_cases hfew : (collectMatchedEvents g WidgetName EventName).length ≤ 1
  · unfold HandleDedupeBlueprintComponentBoundEvents
    simp only
    rw [if_pos hfew]
    exact ⟨rfl, rfl, rfl⟩
  · have hne : collectMatchedEvents g WidgetName EventName ≠ [] := by
      intro h
      rw [h] at hfew
      simp at hfew
    obtain ⟨k, hsel, hk, _, _⟩ :=
      selectKeptEventNode_spec g KeepNodeId (collectMatchedEvents g WidgetName EventName) hne
    have hall : ∀ c ∈ (selectKeptEventNode g KeepNodeId
        (collectMatchedEvents g WidgetName EventName)).2,
        some c = (selectKeptEventNode g KeepNodeId
          (collectMatchedEvents g WidgetName EventName)).1 := by
      intro c hc
      rw [mem_selectKeptEventNode] at hc
      rw [hsel, heq c hc k hk]
    have hfold := dedupeLoop_all_kept _ pin _ hall ⟨g, [], 0⟩
    unfold HandleDedupeBlueprintComponentBoundEvents
    simp only
    rw [if_neg hfew, hfold]
    exact ⟨rfl, rfl, rfl⟩

theorem dedupe_survivors_equal (g : UEdGraph) (WidgetName EventName KeepNodeId pin : String) :
    ∀ a ∈ collectMatchedEvents (HandleDedupeBlueprintComponentBoundEvents g WidgetName
        EventName KeepNodeId pin).Graph WidgetName EventName,
      some a = (selectKeptEventNode g KeepNodeId
        (collectMatchedEvents g WidgetName EventName)).1 ∨
      (collectMatchedEvents g WidgetName EventName).length ≤ 1 := by
  intro a ha
  by_cases hmany : 2 ≤ (collectMatchedEvents g WidgetName EventName).length
  · left
    obtain ⟨R, st, _, hR, hnodes, _⟩ := dedupe_spec g WidgetName EventName KeepNodeId pin hmany
    unfold collectMatchedEvents at ha
    obtain ⟨ha1, ha2⟩ := List.mem_filter.mp ha
    rw [isMatchedEvent_sameMeta (dedupe_frame g WidgetName EventName KeepNodeId pin).1] at ha2
    obtain ⟨hg, hnR, _⟩ := (hnodes a).mp ha1
    by_contra hne
    exact hnR ((hR a).mpr ⟨List.mem_filter.mpr ⟨hg, ha2⟩, hne⟩)
  · right
    omega

theorem length_le_one_of_all_equal {l : List Nat} (hnd : l.Nodup)
    (heq : ∀ a ∈ l, ∀ b ∈ l, a = b) : l.length ≤ 1 := by
  cases l with
  | nil => simp
  | cons a t =>
    cases t with
    | nil => simp
    | cons b t2 =>
      exfalso
      have hab : a = b := heq a (List.mem_cons_self _ _) b
        (List.mem_cons_of_mem _ (List.mem_cons_self _ _))
      rw [List.nodup_cons] at hnd
      exact hnd.1 (hab ▸ List.mem_cons_self _ _)

theorem dedupe_survivors_all_equal (g : UEdGraph)
    (WidgetName EventName KeepNodeId pin : String) :
    ∀ a ∈ collectMatchedEvents (HandleDedupeBlueprintComponentBoundEvents g WidgetName
        EventName KeepNodeId pin).Graph WidgetName EventName,
    ∀ b ∈ collectMatchedEvents (HandleDedupeBlueprintComponentBoundEvents g WidgetName
        EventName KeepNodeId pin).Graph WidgetName EventName, a = b := by
  by_cases hfew : (collectMatchedEvents g WidgetName EventName).length ≤ 1
  · have hg : (HandleDedupeBlueprintComponentBoundEvents g WidgetName EventName KeepNodeId
        pin).Graph = g := by
      unfold HandleDedupeBlueprintComponentBoundEvents
      simp only
      rw [if_pos hfew]
    rw [hg]
    intro a ha b hb
    cases hM : collectMatchedEvents g WidgetName EventName with
    | nil => rw [hM] at ha; simp at ha
    | cons x t =>
      cases t with
      | nil =>
        rw [hM] at ha hb
        simp only [List.mem_singleton] at ha hb
        rw [ha, hb]
      | cons y t2 =>
        rw [hM] at hfew
        simp at hfew
  · intro a ha b hb
    rcases dedupe_survivors_equal g WidgetName EventName KeepNodeId pin a ha with h1 | h1
    · rcases dedupe_survivors_equal g WidgetName EventName KeepNodeId pin b hb with h2 | h2
      · exact Option.some.inj (h1.trans h2.symm)
      · exact absurd h2 hfew
    · exact absurd h1 hfew

/-- C12 (P3): Dedupe is idempotent. On the graph left by a first run, a second
run for the same identity key (with any preferred identifier and pin name)
removes nothing: both counts are 0 and the graph is unchanged. All matching
nodes left by the first run are one and the same node, so at most one remains
when the node array lists no node twice. -/
theorem dedupe_idempotent (g : UEdGraph)
    (WidgetName EventName KeepNodeId EventOutputPinName KeepNodeId2 EventOutputPinName2 : String) :
    (HandleDedupeBlueprintComponentBoundEvents
      (HandleDedupeBlueprintComponentBoundEvents g WidgetName EventName KeepNodeId
        EventOutputPinName).Graph
      WidgetName EventName KeepNodeId2 EventOutputPinName2).removed_event_nodes = 0 ∧
    (HandleDedupeBlueprintComponentBoundEvents
      (HandleDedupeBlueprintComponentBoundEvents g WidgetName EventName KeepNodeId
        EventOutputPinName).Graph
      WidgetName EventName KeepNodeId2 EventOutputPinName2).removed_chain_nodes = 0 ∧
    (HandleDedupeBlueprintComponentBoundEvents
      (HandleDedupeBlueprintComponentBoundEvents g WidgetName EventName KeepNodeId
        EventOutputPinName).Graph
      WidgetName EventName KeepNodeId2 EventOutputPinName2).Graph =
      (HandleDedupeBlueprintComponentBoundEvents g WidgetName EventName KeepNodeId
        EventOutputPinName).Graph ∧
    (∀ a ∈ collectMatchedEvents (HandleDedupeBlueprintComponentBoundEvents g WidgetName
        EventName KeepNodeId EventOutputPinName).Graph WidgetName EventName,
      ∀ b ∈ collectMatchedEvents (HandleDedupeBlueprintComponentBoundEvents g WidgetName
        EventName KeepNodeId EventOutputPinName).Graph WidgetName EventName, a = b) ∧
    (g.Nodes.Nodup →
      (collectMatchedEvents (HandleDedupeBlueprintComponentBoundEvents g WidgetName
        EventName KeepNodeId EventOutputPinName).Graph WidgetName EventName).length ≤ 1) := by
  have heq := dedupe_survivors_all_equal g WidgetName EventName KeepNodeId EventOutputPinName
  obtain ⟨h1, h2, h3⟩ := dedupe_noop_of_all_equal
    (HandleDedupeBlueprintComponentBoundEvents g WidgetName EventName KeepNodeId
      EventOutputPinName).Graph WidgetName EventName KeepNodeId2 EventOutputPinName2 heq
  refine ⟨h2, h3, h1, heq, ?_⟩
  intro hnd
  apply length_le_one_of_all_equal _ heq
  unfold collectMatchedEvents
  exact ((dedupe_frame g WidgetName EventName KeepNodeId
    EventOutputPinName).2.nodup hnd).filter _

/-- Witness of C12 on Scenario 2, whose node array lists no node twice. -/
theorem dedupe_idempotent_witness :
    scenario2.Nodes.Nodup ∧
    (collectMatchedEvents (HandleDedupeBlueprintComponentBoundEvents scenario2 "Button1"
      "OnClicked" "" "Then").Graph "Button1" "OnClicked").length ≤ 1 :=
  ⟨by decide,
    (dedupe_idempotent scenario2 "Button1" "OnClicked" "" "Then" "" "Then").2.2.2.2
      (by decide)⟩

/-- C13 (the code at the failing input): D1 and D2 both drive F, so the closure
of D1 holds F and D2. D2 is removed as a candidate and again as a chain node:
the counts report 2 + 2 removals while the graph loses 3 nodes. -/
theorem dedupe_counts_candidate_twice :
    collectMatchedEvents nestedDuplicates "Button1" "OnClicked" = [0, 1, 2] ∧
    (selectKeptEventNode nestedDuplicates ""
      (collectMatchedEvents nestedDuplicates "Button1" "OnClicked")).1 = some 0 ∧
    CollectExecChainNodes nestedDuplicates 1 "Then" = [3, 2] ∧
    (HandleDedupeBlueprintComponentBoundEvents nestedDuplicates "Button1" "OnClicked" ""
      "Then").matched_events = 3 ∧
    (HandleDedupeBlueprintComponentBoundEvents nestedDuplicates "Button1" "OnClicked" ""
      "Then").removed_event_nodes = 2 ∧
    (HandleDedupeBlueprintComponentBoundEvents nestedDuplicates "Button1" "OnClicked" ""
      "Then").removed_chain_nodes = 2 ∧
    nestedDuplicates.Nodes.length = 5 ∧
    (HandleDedupeBlueprintComponentBoundEvents nestedDuplicates "Button1" "OnClicked" ""
      "Then").Graph.Nodes = [0, 4] := by
  refine ⟨by decide, by decide, by decide, by decide, by decide, by decide, by decide,
    by decide⟩

/-! ### The type resolver -/

theorem scanClasses_eq_find (ClassName : String) (l : List UClass) :
    scanClasses ClassName l = l.find? (scanMatches ClassName) := by
  induction l with
  | nil => rfl
  | cons c rest ih =>
    unfold scanClasses
    by_cases h : scanMatches ClassName c = true
    · rw [if_pos h, List.find?_cons_of_pos _ h]
    · rw [if_neg h, List.find?_cons_of_neg _ h, ih]

theorem ResolveClassByName_eq_firstSuccessful (cat : TypeCatalog) (InClassName : String)
    (hne : TrimStartAndEnd InClassName ≠ "") :
    ResolveClassByName cat InClassName =
      firstSuccessfulStrategy cat (TrimStartAndEnd InClassName) := by
  unfold ResolveClassByName firstSuccessfulStrategy exactLookup directLoad prefixedLookup
    linearScan
  simp only
  rw [if_neg hne, scanClasses_eq_find]
  cases h1 : cat.FindObject (TrimStartAndEnd InClassName) with
  | some c => simp [Option.orElse]
  | none =>
    cases h2 : StartsWith (TrimStartAndEnd InClassName) "/Script/" with
    | true =>
      cases h3 : cat.LoadObject (TrimStartAndEnd InClassName) with
      | some c => simp [Option.orElse]
      | none =>
        cases h4 : StartsWith (TrimStartAndEnd InClassName) "U" with
        | true => simp [Option.orElse]
        | false =>
          cases h5 : cat.FindObject ("U" ++ TrimStartAndEnd InClassName) with
          | some c => simp [Option.orElse]
          | none => simp [Option.orElse]
    | false =>
      cases h4 : StartsWith (TrimStartAndEnd InClassName) "U" with
      | true => simp [Option.orElse]
      | false =>
        cases h5 : cat.FindObject ("U" ++ TrimStartAndEnd InClassName) with
        | some c => simp [Option.orElse]
        | none => simp [Option.orElse]

theorem firstSuccessfulStrategy_eq_none (cat : TypeCatalog) (Name : String) :
    firstSuccessfulStrategy cat Name = none ↔
      exactLookup cat Name = none ∧ directLoad cat Name = none ∧
      prefixedLookup cat Name = none ∧ linearScan cat Name = none := by
  unfold firstSuccessfulStrategy
  cases exactLookup cat Name <;> cases directLoad cat Name <;>
    cases prefixedLookup cat Name <;> cases linearScan cat Name <;> simp [Option.orElse]

/-- C14 (amended): for a name that is not empty after trimming,
`ResolveClassByName` returns the result of the earliest strategy that succeeds,
in the order exact lookup, direct load of a module path, lookup with "U"
prepended, linear scan; a successful exact lookup is returned whatever the
later strategies would find, and NotFound is returned exactly when all four
fail. -/
theorem resolve_earliest_strategy (cat : TypeCatalog) (InClassName : String)
    (hne : TrimStartAndEnd InClassName ≠ "") :
    ResolveClassByName cat InClassName =
      firstSuccessfulStrategy cat (TrimStartAndEnd InClassName) ∧
    (∀ c, exactLookup cat (TrimStartAndEnd InClassName) = some c →
      ResolveClassByName cat InClassName = some c) ∧
    (ResolveClassByName cat InClassName = none ↔
      exactLookup cat (TrimStartAndEnd InClassName) = none ∧
      directLoad cat (TrimStartAndEnd InClassName) = none ∧
      prefixedLookup cat (TrimStartAndEnd InClassName) = none ∧
      linearScan cat (TrimStartAndEnd InClassName) = none) := by
  have h := ResolveClassByName_eq_firstSuccessful cat InClassName hne
  refine ⟨h, ?_, ?_⟩
  · intro c hc
    rw [h]
    unfold firstSuccessfulStrategy
    rw [hc]
    rfl
  · rw [h]
    exact firstSuccessfulStrategy_eq_none cat _

/-- Witness of C14 (amended) on Scenario 4 with the query "GameplayStatics". -/
theorem resolve_earliest_strategy_witness :
    TrimStartAndEnd "GameplayStatics" ≠ "" ∧
    ResolveClassByName scenario4 "GameplayStatics" =
      firstSuccessfulStrategy scenario4 (TrimStartAndEnd "GameplayStatics") :=
  ⟨by decide, (resolve_earliest_strategy scenario4 "GameplayStatics" (by decide)).1⟩

/-- C14 as stated fails on the empty name: against a catalog that holds a class
named "U", the linear scan of the empty query succeeds (the class name without
its leading letter equals the query), yet `ResolveClassByName` returns
NotFound, because an empty name is rejected before any strategy is tried. -/
theorem resolve_empty_name_not_found :
    ResolveClassByName (catalogOf [UClass.root "U" []]) "" = none ∧
    linearScan (catalogOf [UClass.root "U" []]) (TrimStartAndEnd "") =
      some (UClass.root "U" []) ∧
    firstSuccessfulStrategy (catalogOf [UClass.root "U" []]) (TrimStartAndEnd "") =
      some (UClass.root "U" []) := by
  refine ⟨by decide, by decide, by decide⟩

theorem ResolveClassByName_falls_through (cat : TypeCatalog) (InClassName : String)
    (hne : TrimStartAndEnd InClassName ≠ "")
    (h1 : exactLookup cat (TrimStartAndEnd InClassName) = none)
    (h2 : directLoad cat (TrimStartAndEnd InClassName) = none)
    (h3 : prefixedLookup cat (TrimStartAndEnd InClassName) = none) :
    ResolveClassByName cat InClassName =
      cat.Classes.find? (scanMatches (TrimStartAndEnd InClassName)) := by
  rw [ResolveClassByName_eq_firstSuccessful cat InClassName hne]
  unfold firstSuccessfulStrategy
  rw [h1, h2, h3]
  rfl

/-- C15: when the first three strategies fail and `ResolveClassByName` falls
through to the linear scan, it returns the first class in iteration order whose
name equals the query ignoring case, or whose name without a leading "U"
equals the query without a leading "U" ignoring case; it returns NotFound
exactly when no class of the catalog passes that test. -/
theorem resolve_linear_scan_first_match (cat : TypeCatalog) (InClassName : String)
    (hne : TrimStartAndEnd InClassName ≠ "")
    (h1 : exactLookup cat (TrimStartAndEnd InClassName) = none)
    (h2 : directLoad cat (TrimStartAndEnd InClassName) = none)
    (h3 : prefixedLookup cat (TrimStartAndEnd InClassName) = none) :
    (∀ c, ResolveClassByName cat InClassName = some c ↔
      ((EqualsIgnoreCase c.GetName (TrimStartAndEnd InClassName) = true ∨
        EqualsIgnoreCase (stripUPrefix c.GetName)
          (stripUPrefix (TrimStartAndEnd InClassName)) = true) ∧
      ∃ before after, cat.Classes = before ++ c :: after ∧
        ∀ x ∈ before,
          EqualsIgnoreCase x.GetName (TrimStartAndEnd InClassName) = false ∧
          EqualsIgnoreCase (stripUPrefix x.GetName)
            (stripUPrefix (TrimStartAndEnd InClassName)) = false)) ∧
    (ResolveClassByName cat InClassName = none ↔
      ∀ x ∈ cat.Classes,
        EqualsIgnoreCase x.GetName (TrimStartAndEnd InClassName) = false ∧
        EqualsIgnoreCase (stripUPrefix x.GetName)
          (stripUPrefix (TrimStartAndEnd InClassName)) = false) := by
  rw [ResolveClassByName_falls_through cat InClassName hne h1 h2 h3]
  constructor
  · intro c
    rw [List.find?_eq_some]
    simp only [scanMatches, Bool.or_eq_true, Bool.not_eq_true', Bool.or_eq_false_iff]
  · rw [List.find?_eq_none]
    simp only [scanMatches, Bool.or_eq_true, not_or, Bool.not_eq_true]

/-- Witness of C15: a catalog that stores "UGameplayStatics" after "UObject",
queried with "uGAMEPLAYSTATICS", which only the scan can match. -/
theorem resolve_linear_scan_first_match_witness :
    TrimStartAndEnd "uGAMEPLAYSTATICS" ≠ "" ∧
    exactLookup scenario4 (TrimStartAndEnd "uGAMEPLAYSTATICS") = none ∧
    directLoad scenario4 (TrimStartAndEnd "uGAMEPLAYSTATICS") = none ∧
    prefixedLookup scenario4 (TrimStartAndEnd "uGAMEPLAYSTATICS") = none ∧
    (ResolveClassByName scenario4 "uGAMEPLAYSTATICS" = none ↔
      ∀ x ∈ scenario4.Classes,
        EqualsIgnoreCase x.GetName (TrimStartAndEnd "uGAMEPLAYSTATICS") = false ∧
        EqualsIgnoreCase (stripUPrefix x.GetName)
          (stripUPrefix (TrimStartAndEnd "uGAMEPLAYSTATICS")) = false) :=
  ⟨by decide, by decide, by decide, by decide,
    (resolve_linear_scan_first_match scenario4 "uGAMEPLAYSTATICS" (by decide) (by decide)
      (by decide) (by decide)).2⟩

theorem lowerChars_U_append (n : String) : lowerChars ("U" ++ n) = 'u' :: lowerChars n := by
  unfold lowerChars
  rw [String.data_append]
  rfl

theorem stripUPrefix_U_append (n : String) : stripUPrefix ("U" ++ n) = n := by
  unfold stripUPrefix StartsWith
  rw [lowerChars_U_append]
  have h : lowerChars "U" = ['u'] := by decide
  rw [h]
  simp only [List.isPrefixOf, beq_self_eq_true, Bool.and_self, if_true]
  unfold RightChop
  rw [String.data_append]
  rfl

theorem stripUPrefix_of_not_startsWith {n : String} (h : StartsWith n "U" = false) :
    stripUPrefix n = n := by
  unfold stripUPrefix
  rw [h]
  rfl

theorem EqualsIgnoreCase_self (n : String) : EqualsIgnoreCase n n = true := by
  unfold EqualsIgnoreCase
  exact beq_self_eq_true _

/-- C16 (amended): for every name n that is not empty, has no whitespace at
either end and does not begin with the letter "U" (in either case), and every
catalog that stores a class under the name "U" followed by n (the class is
among the iterated classes, or the exact lookup of that name finds it),
`ResolveClassByName` succeeds on n. -/
theorem resolve_with_prefix_inserted (cat : TypeCatalog) (n : String) (c : UClass)
    (hne : n ≠ "") (htrim : TrimStartAndEnd n = n) (hnoU : StartsWith n "U" = false)
    (hstored : (c ∈ cat.Classes ∧ c.GetName = "U" ++ n) ∨
      cat.FindObject ("U" ++ n) = some c) :
    ∃ r, ResolveClassByName cat n = some r := by
  have hne2 : TrimStartAndEnd n ≠ "" := by rw [htrim]; exact hne
  cases hres : ResolveClassByName cat n with
  | some r => exact ⟨r, rfl⟩
  | none =>
    exfalso
    rw [ResolveClassByName_eq_firstSuccessful cat n hne2, htrim,
      firstSuccessfulStrategy_eq_none] at hres
    rcases hstored with ⟨hc, hname⟩ | hfind
    · have hscan := hres.2.2.2
      unfold linearScan at hscan
      rw [List.find?_eq_none] at hscan
      apply hscan c hc
      unfold scanMatches
      rw [hname, stripUPrefix_U_append, stripUPrefix_of_not_startsWith hnoU,
        EqualsIgnoreCase_self]
      simp
    · have hpre := hres.2.2.1
      unfold prefixedLookup at hpre
      rw [hnoU, hfind] at hpre
      simp at hpre

/-- Witness of C16 (amended) on Scenario 4 with n = "GameplayStatics". -/
theorem resolve_with_prefix_inserted_witness :
    "GameplayStatics" ≠ "" ∧ TrimStartAndEnd "GameplayStatics" = "GameplayStatics" ∧
    StartsWith "GameplayStatics" "U" = false ∧
    UClass.sub "UGameplayStatics" [] (UClass.root "UObject" []) ∈ scenario4.Classes ∧
    ∃ r, ResolveClassByName scenario4 "GameplayStatics" = some r :=
  ⟨by decide, by decide, by decide, by decide,
    resolve_with_prefix_inserted scenario4 "GameplayStatics"
      (UClass.sub "UGameplayStatics" [] (UClass.root "UObject" []))
      (by decide) (by decide) (by decide) (Or.inl ⟨by decide, by decide⟩)⟩

/-- C16 as stated fails for a name that itself begins with "U": the catalog
stores the class under "U" followed by "UserWidget" and finds it under that
exact name, yet resolving "UserWidget" returns NotFound (the prefixed lookup is
skipped, and the scan compares "UserWidget" with "serWidget"). -/
theorem resolve_name_starting_with_U_fails :
    (∃ c ∈ (catalogOf [UClass.root "UUserWidget" []]).Classes,
      c.GetName = "U" ++ "UserWidget") ∧
    (catalogOf [UClass.root "UUserWidget" []]).FindObject ("U" ++ "UserWidget") =
      some (UClass.root "UUserWidget" []) ∧
    ResolveClassByName (catalogOf [UClass.root "UUserWidget" []]) "UserWidget" = none := by
  refine ⟨⟨UClass.root "UUserWidget" [], by decide, by decide⟩, by decide, by decide⟩

/-- C17 (Scenario 4): when the exact lookup of "GameplayStatics" fails and the
class is stored as "UGameplayStatics", `ResolveClassByName` returns that class,
found by the lookup with "U" prepended; so it is on the Scenario 4 catalog. -/
theorem resolve_gameplay_statics (cat : TypeCatalog) (c : UClass)
    (hexact : cat.FindObject "GameplayStatics" = none)
    (hstored : cat.FindObject "UGameplayStatics" = some c) :
    (ResolveClassByName cat "GameplayStatics" = some c ∧
      exactLookup cat (TrimStartAndEnd "GameplayStatics") = none ∧
      directLoad cat (TrimStartAndEnd "GameplayStatics") = none ∧
      prefixedLookup cat (TrimStartAndEnd "GameplayStatics") = some c) ∧
    ResolveClassByName scenario4 "GameplayStatics" =
      some (UClass.sub "UGameplayStatics" [] (UClass.root "UObject" [])) ∧
    scenario4.Classes.filter (scanMatches "GameplayStatics") =
      [UClass.sub "UGameplayStatics" [] (UClass.root "UObject" [])] := by
  refine ⟨?_, by decide, by decide⟩
  have htrim : TrimStartAndEnd "GameplayStatics" = "GameplayStatics" := by decide
  have hs : StartsWith "GameplayStatics" "/Script/" = false := by decide
  have hu : StartsWith "GameplayStatics" "U" = false := by decide
  have hcat : "U" ++ "GameplayStatics" = "UGameplayStatics" := by decide
  have h1 : exactLookup cat "GameplayStatics" = none := hexact
  have h2 : directLoad cat "GameplayStatics" = none := by
    unfold directLoad
    rw [hs]
    rfl
  have h3 : prefixedLookup cat "GameplayStatics" = some c := by
    unfold prefixedLookup
    rw [hu, hcat, hstored]
    rfl
  rw [htrim]
  refine ⟨?_, h1, h2, h3⟩
  rw [ResolveClassByName_eq_firstSuccessful cat "GameplayStatics" (by decide), htrim]
  unfold firstSuccessfulStrategy
  rw [h1, h2, h3]
  rfl

/-- Witness of C17 on the Scenario 4 catalog. -/
theorem resolve_gameplay_statics_witness :
    scenario4.FindObject "GameplayStatics" = none ∧
    scenario4.FindObject "UGameplayStatics" =
      some (UClass.sub "UGameplayStatics" [] (UClass.root "UObject" [])) ∧
    ResolveClassByName scenario4 "GameplayStatics" =
      some (UClass.sub "UGameplayStatics" [] (UClass.root "UObject" [])) :=
  ⟨by decide, by decide,
    (resolve_gameplay_statics scenario4
      (UClass.sub "UGameplayStatics" [] (UClass.root "UObject" []))
      (by decide) (by decide)).1.1⟩

/-! ### Function resolution -/

theorem findFunctionIgnoreCase_eq_find (FunctionName : String) (l : List UFunction) :
    findFunctionIgnoreCase FunctionName l =
      l.find? (fun f => EqualsIgnoreCase f.Name FunctionName) := by
  induction l with
  | nil => rfl
  | cons f rest ih =>
    unfold findFunctionIgnoreCase
    by_cases h : EqualsIgnoreCase f.Name FunctionName = true
    · rw [if_pos h, List.find?_cons]
      simp only [h]
    · rw [if_neg h, List.find?_cons, ih]
      simp only [h]

theorem searchClass_eq_matchInType (FunctionName : String) (c : UClass) :
    searchClass FunctionName c = matchInType FunctionName c := by
  unfold searchClass matchInType UClass.FindFunctionByName
  rw [findFunctionIgnoreCase_eq_find]
  cases c.Functions.find? (fun f => f.Name == FunctionName) <;> rfl

theorem searchClassHierarchy_eq_findSome (FunctionName : String) (c : UClass) :
    searchClassHierarchy FunctionName c =
      c.ancestors.findSome? (matchInType FunctionName) := by
  induction c with
  | root Name Functions =>
    unfold searchClassHierarchy UClass.ancestors
    rw [searchClass_eq_matchInType]
    simp only [List.findSome?_cons, List.findSome?_nil]
    cases matchInType FunctionName (UClass.root Name Functions) <;> rfl
  | sub Name Functions SuperClass ih =>
    unfold searchClassHierarchy UClass.ancestors
    rw [searchClass_eq_matchInType, ih]
    simp only [List.findSome?_cons]
    cases matchInType FunctionName (UClass.sub Name Functions SuperClass) <;> rfl

theorem UClass.ancestors_head (c : UClass) : ∃ rest, c.ancestors = c :: rest := by
  cases c with
  | root Name Functions => exact ⟨[], rfl⟩
  | sub Name Functions SuperClass => exact ⟨SuperClass.ancestors, rfl⟩

theorem matchInType_of_exact {FunctionName : String} {c : UClass} {f : UFunction}
    (h : c.FindFunctionByName FunctionName = some f) : matchInType FunctionName c = some f := by
  unfold UClass.FindFunctionByName at h
  unfold matchInType
  rw [h]
  rfl

theorem matchInType_of_no_exact {FunctionName : String} {c : UClass}
    (h : c.FindFunctionByName FunctionName = none) :
    matchInType FunctionName c =
      c.Functions.find? (fun f => EqualsIgnoreCase f.Name FunctionName) := by
  unfold UClass.FindFunctionByName at h
  unfold matchInType
  rw [h]
  rfl

theorem findFunctionInClass_eq_findSome (TargetClass : UClass) (FunctionName : String) :
    findFunctionInClass TargetClass FunctionName =
      TargetClass.ancestors.findSome? (matchInType FunctionName) := by
  unfold findFunctionInClass
  cases h : TargetClass.FindFunctionByName FunctionName with
  | none => exact searchClassHierarchy_eq_findSome FunctionName TargetClass
  | some f =>
    obtain ⟨rest, hrest⟩ := TargetClass.ancestors_head
    rw [hrest, List.findSome?_cons, matchInType_of_exact h]

theorem matchInType_eq_none_iff (FunctionName : String) (c : UClass) :
    matchInType FunctionName c = none ↔
      ∀ f ∈ c.Functions, EqualsIgnoreCase f.Name FunctionName = false := by
  constructor
  · intro h
    cases hex : c.FindFunctionByName FunctionName with
    | some f => rw [matchInType_of_exact hex] at h; exact Option.noConfusion h
    | none =>
      rw [matchInType_of_no_exact hex, List.find?_eq_none] at h
      intro f hf
      simpa using h f hf
  · intro h
    have hex : c.FindFunctionByName FunctionName = none := by
      unfold UClass.FindFunctionByName
      rw [List.find?_eq_none]
      intro f hf hname
      have hfn : f.Name = FunctionName := by simpa using hname
      have := h f hf
      rw [hfn, EqualsIgnoreCase_self] at this
      exact Bool.noConfusion this
    rw [matchInType_of_no_exact hex, List.find?_eq_none]
    intro f hf
    simpa using h f hf

/-- C18: given the resolved owner type, the function lookup walks the owner and
then its ancestors in order and returns the match of the nearest type that has
one; within a type the exact name match is preferred and the match ignoring
case is tried before the parent; it finds nothing exactly when no type of the
chain has a function whose name equals the requested name ignoring case. -/
theorem function_resolution_nearest_type (TargetClass : UClass) (FunctionName : String) :
    (∀ f, findFunctionInClass TargetClass FunctionName = some f ↔
      ∃ nearer c farther, TargetClass.ancestors = nearer ++ c :: farther ∧
        (∀ x ∈ nearer, ∀ h ∈ x.Functions, EqualsIgnoreCase h.Name FunctionName = false) ∧
        ((c.FindFunctionByName FunctionName = some f) ∨
          (c.FindFunctionByName FunctionName = none ∧
            c.Functions.find? (fun h => EqualsIgnoreCase h.Name FunctionName) = some f))) ∧
    (findFunctionInClass TargetClass FunctionName = none ↔
      ∀ c ∈ TargetClass.ancestors, ∀ f ∈ c.Functions,
        EqualsIgnoreCase f.Name FunctionName = false) := by
  rw [findFunctionInClass_eq_findSome]
  constructor
  · intro f
    rw [List.findSome?_eq_some_iff]
    constructor
    · rintro ⟨nearer, c, farther, hsplit, hmatch, hnone⟩
      refine ⟨nearer, c, farther, hsplit, ?_, ?_⟩
      · intro x hx
        exact (matchInType_eq_none_iff FunctionName x).mp (hnone x hx)
      · cases hex : c.FindFunctionByName FunctionName with
        | some f2 =>
          rw [matchInType_of_exact hex] at hmatch
          exact Or.inl hmatch
        | none =>
          rw [matchInType_of_no_exact hex] at hmatch
          exact Or.inr ⟨rfl, hmatch⟩
    · rintro ⟨nearer, c, farther, hsplit, hnone, hmatch⟩
      refine ⟨nearer, c, farther, hsplit, ?_, ?_⟩
      · rcases hmatch with h | ⟨h1, h2⟩
        · exact matchInType_of_exact h
        · rw [matchInType_of_no_exact h1]
          exact h2
      · intro x hx
        exact (matchInType_eq_none_iff FunctionName x).mpr (hnone x hx)
  · rw [List.findSome?_eq_none_iff]
    constructor
    · intro h c hc
      exact (matchInType_eq_none_iff FunctionName c).mp (h c hc)
    · intro h c hc
      exact (matchInType_eq_none_iff FunctionName c).mpr (h c hc)

theorem findInTarget_unresolved (cat : TypeCatalog) (g : UEdGraph)
    (FunctionName Target : String) (NodePosition : Int × Int) (NewGuid : String)
    (UnresolvedPins : List UEdGraphPin) (hres : resolveTargetClass cat Target = none) :
    findInTarget cat g FunctionName Target NodePosition NewGuid UnresolvedPins =
      (none, none, g) := by
  unfold findInTarget
  rw [hres]

/-- C19 (amended): when the target is not empty and every strategy of the
target resolution fails, the function is looked up in the blueprint's own
generated class. The command fails with the error "Function not found" and no
node is added when that class has no function of that name; when it has one, a
call node for it is added to the graph. -/
theorem add_function_call_unresolved_target (cat : TypeCatalog) (g : UEdGraph)
    (GeneratedClass : UClass) (FunctionName Target : String) (NodePosition : Int × Int)
    (NewGuid : String) (UnresolvedPins : List UEdGraphPin)
    (hTarget : Target ≠ "") (hres : resolveTargetClass cat Target = none) :
    (GeneratedClass.FindFunctionByName FunctionName = none →
      findOrCreateFunctionNode cat g GeneratedClass FunctionName Target NodePosition NewGuid
        UnresolvedPins =
        Except.error ("Function not found: " ++ FunctionName ++ " in target " ++ Target)) ∧
    (∀ f, GeneratedClass.FindFunctionByName FunctionName = some f →
      findOrCreateFunctionNode cat g GeneratedClass FunctionName Target NodePosition NewGuid
        UnresolvedPins = Except.ok (CreateFunctionCallNode g f NodePosition NewGuid) ∧
      (CreateFunctionCallNode g f NodePosition NewGuid).1.Nodes =
        g.Nodes ++ [g.Objects.length]) := by
  have hfound := findInTarget_unresolved cat g FunctionName Target NodePosition NewGuid
    UnresolvedPins hres
  constructor
  · intro hnone
    unfold findOrCreateFunctionNode
    simp only [if_pos hTarget, hfound, Option.isNone_none, and_self, if_true, hnone,
      if_neg hTarget]
  · intro f hsome
    constructor
    · unfold findOrCreateFunctionNode
      simp only [if_pos hTarget, hfound, Option.isNone_none, and_self, if_true, hsome]
    · rfl

/-- Witness of C19 (amended): an empty catalog, the target "NoSuchClass" and
the blueprint class of `sampleGeneratedClass`. -/
theorem add_function_call_unresolved_target_witness :
    "NoSuchClass" ≠ "" ∧ resolveTargetClass (catalogOf []) "NoSuchClass" = none ∧
    (sampleGeneratedClass.FindFunctionByName "Missing" = none →
      findOrCreateFunctionNode (catalogOf []) scenario1 sampleGeneratedClass "Missing"
        "NoSuchClass" (0, 0) "N1" [] =
        Except.error ("Function not found: " ++ "Missing" ++ " in target " ++ "NoSuchClass")) :=
  ⟨by decide, by decide,
    (add_function_call_unresolved_target (catalogOf []) scenario1 sampleGeneratedClass
      "Missing" "NoSuchClass" (0, 0) "N1" [] (by decide) (by decide)).1⟩

/-- C19 as stated fails: the target "NoSuchClass" is not empty and cannot be
resolved, but the blueprint's generated class has the function "MyFunc", so
the handler creates the call node and the graph gains a node. -/
theorem add_function_call_falls_back_to_blueprint :
    "NoSuchClass" ≠ "" ∧ resolveTargetClass (catalogOf []) "NoSuchClass" = none ∧
    ∃ r, findOrCreateFunctionNode (catalogOf []) scenario1 sampleGeneratedClass "MyFunc"
        "NoSuchClass" (0, 0) "N1" [] = Except.ok r ∧
      r.1.Nodes = [0, 1, 2, 3, 4] ∧ r.2 = 4 ∧ scenario1.Nodes = [0, 1, 2, 3] := by
  refine ⟨by decide, by decide, ?_⟩
  refine ⟨CreateFunctionCallNode scenario1
    ⟨"MyFunc", [inPin "execute" [], outPin "then" []]⟩ (0, 0) "N1", ?_, by decide,
    by decide, by decide⟩
  rfl

/-! ### Parameters and the blueprint store -/

theorem requireStringField_some {W : BlueprintStore} {Params : FJsonObject}
    {FieldName Value : String} (h : TryGetStringField H Params FieldName = some Value)
    (body : String → FResponse × BlueprintStore) :
    requireStringField H W Params FieldName body = body Value := by
  unfold requireStringField
  rw [h]

theorem requireStringField_none {W : BlueprintStore} {Params : FJsonObject}
    {FieldName : String} (h : TryGetStringField H Params FieldName = none)
    (body : String → FResponse × BlueprintStore) :
    requireStringField H W Params FieldName body =
      (FResponse.Error ("Missing '" ++ FieldName ++ "' parameter"), W) := by
  unfold requireStringField
  rw [h]

theorem StoreBlueprint_self (W : BlueprintStore) (BlueprintName : String)
    (Blueprint : UBlueprint) (h : FindBlueprint W BlueprintName = some Blueprint) :
    StoreBlueprint W BlueprintName Blueprint = W := by
  induction W with
  | nil => rfl
  | cons e rest ih =>
    unfold FindBlueprint at h
    unfold StoreBlueprint
    by_cases he : (e.1 == BlueprintName) = true
    · rw [if_pos he]
      rw [List.find?_cons, he] at h
      simp only [Option.map_some', Option.some.injEq] at h
      rw [← h]
    · rw [if_neg he]
      rw [List.find?_cons] at h
      simp only [he] at h
      rw [ih h]

theorem FindBlueprint_StoreBlueprint (W : BlueprintStore) (BlueprintName : String)
    (Blueprint NewBlueprint : UBlueprint) (h : FindBlueprint W BlueprintName = some Blueprint) :
    FindBlueprint (StoreBlueprint W BlueprintName NewBlueprint) BlueprintName =
      some NewBlueprint := by
  induction W with
  | nil => simp [FindBlueprint] at h
  | cons e rest ih =>
    unfold FindBlueprint at h ⊢
    unfold StoreBlueprint
    by_cases he : (e.1 == BlueprintName) = true
    · rw [if_pos he, List.find?_cons]
      simp only [he, Option.map_some']
    · rw [if_neg he, List.find?_cons]
      rw [List.find?_cons] at h
      simp only [he] at h ⊢
      exact ih h

theorem withBlueprint_found {W : BlueprintStore} {BlueprintName : String}
    {Blueprint : UBlueprint} (h : FindBlueprint W BlueprintName = some Blueprint)
    (body : UBlueprint → FResponse × UBlueprint) :
    withBlueprint W BlueprintName body =
      ((body Blueprint).1, StoreBlueprint W BlueprintName (body Blueprint).2) := by
  unfold withBlueprint
  rw [h]

theorem withEventGraph_found {H : FEditorHost} {W : BlueprintStore} {BlueprintName : String}
    {Blueprint : UBlueprint} {g : UEdGraph} (h : FindBlueprint W BlueprintName = some Blueprint)
    (hg : Blueprint.EventGraph = some g)
    (body : UBlueprint → UEdGraph → FResponse × UBlueprint) :
    withEventGraph H W BlueprintName body =
      ((body Blueprint g).1, StoreBlueprint W BlueprintName (body Blueprint g).2) := by
  unfold withEventGraph
  rw [withBlueprint_found h]
  unfold FindOrCreateEventGraph
  rw [hg]

/-! ### Connecting nodes -/

theorem connectSearch_same_target (g : UEdGraph) (NodeId : String) (l : List Nat) :
    ∀ st : Option Nat × Option Nat, st.2 = none →
      (l.foldl (connectSearchStep g NodeId NodeId) st).2 = none := by
  induction l with
  | nil => intro st h; exact h
  | cons a rest ih =>
    intro st h
    rw [List.foldl_cons]
    apply ih
    unfold connectSearchStep
    by_cases hc : EqualsIgnoreCase (nodeGuid g a) NodeId = true
    · rw [if_pos hc]
      exact h
    · rw [if_neg hc, if_neg hc]
      exact h

/-- C30, on the code as it is: when `source_node_id` and `target_node_id` are
the same identifier, the node search of `HandleConnectBlueprintNodes` never
sets the target node (the test of the target identifier is the `else` branch
of the test of the source identifier), and the handler returns "Source or
target node not found", also when the identifier names a node of the graph. -/
theorem connect_same_node_reported_not_found (H : FEditorHost) (W : BlueprintStore)
    (Params : FJsonObject) (BlueprintName NodeId SourcePinName TargetPinName : String)
    (Blueprint : UBlueprint) (g : UEdGraph)
    (h1 : TryGetStringField H Params "blueprint_name" = some BlueprintName)
    (h2 : TryGetStringField H Params "source_node_id" = some NodeId)
    (h3 : TryGetStringField H Params "target_node_id" = some NodeId)
    (h4 : TryGetStringField H Params "source_pin" = some SourcePinName)
    (h5 : TryGetStringField H Params "target_pin" = some TargetPinName)
    (hb : FindBlueprint W BlueprintName = some Blueprint)
    (hg : Blueprint.EventGraph = some g) :
    HandleConnectBlueprintNodes H W Params =
      (FResponse.Error "Source or target node not found", W) := by
  unfold HandleConnectBlueprintNodes
  rw [requireStringField_some h1, requireStringField_some h2, requireStringField_some h3,
    requireStringField_some h4, requireStringField_some h5, withEventGraph_found hb hg]
  have hnone : (findSourceAndTarget g NodeId NodeId).2 = none :=
    connectSearch_same_target g NodeId g.Nodes (none, none) rfl
  cases hf : findSourceAndTarget g NodeId NodeId with
  | mk s t =>
    rw [hf] at hnone
    simp only at hnone
    subst hnone
    cases s <;> simp only [StoreBlueprint_self W BlueprintName Blueprint hb]

theorem connect_same_node_reported_not_found_witness :
    (∃ Node ∈ scenario1.Nodes, IsValid scenario1 Node ∧ nodeGuid scenario1 Node = "E") ∧
    HandleConnectBlueprintNodes sampleHost (sampleStore (some scenario1))
        (stringParams [("blueprint_name", "BP"), ("source_node_id", "E"),
          ("target_node_id", "E"), ("source_pin", "Then"), ("target_pin", "Then")]) =
      (FResponse.Error "Source or target node not found", sampleStore (some scenario1)) :=
  ⟨⟨0, by decide, by decide, by decide⟩,
    connect_same_node_reported_not_found sampleHost (sampleStore (some scenario1)) _
      "BP" "E" "Then" "Then" ⟨some scenario1, sampleTypedClass, [], 0, 0⟩ scenario1
      (by decide) (by decide) (by decide) (by decide) (by decide) (by decide) rfl⟩

/-! ### Required parameters -/

theorem requireStringField_firstAbsent {W : BlueprintStore} {Params : FJsonObject}
    {FieldName Missing : String} {rest : List String}
    {body : String → FResponse × BlueprintStore}
    (h : firstAbsent H Params (FieldName :: rest) = some Missing)
    (hbody : ∀ Value, firstAbsent H Params rest = some Missing →
      body Value = (FResponse.Error ("Missing '" ++ Missing ++ "' parameter"), W)) :
    requireStringField H W Params FieldName body =
      (FResponse.Error ("Missing '" ++ Missing ++ "' parameter"), W) := by
  unfold firstAbsent at h
  rw [List.find?_cons] at h
  cases hf : TryGetStringField H Params FieldName with
  | none =>
    rw [hf] at h
    simp only [Option.isNone_none, Option.some.injEq] at h
    rw [← h]
    exact requireStringField_none hf body
  | some Value =>
    rw [hf] at h
    simp only [Option.isNone_some] at h
    rw [requireStringField_some hf]
    exact hbody Value h

theorem firstAbsent_nil (Params : FJsonObject) (Missing : String) :
    firstAbsent H Params [] ≠ some Missing := by
  simp [firstAbsent]

/-- C24, as amended: for every command and every parameter map in which one
of the parameters the command requires whatever the other parameters are is
absent, `HandleCommand` returns the error "Missing 'field' parameter" naming
the first absent one in the validation order of the handler, and the
blueprint store is unchanged. A parameter is absent when `TryGetStringField`
fails on it: the field is missing or holds null, an array or an object; a
number or a flag is converted to its text and is present. -/
theorem missing_parameter_reported_first (H : FEditorHost) (cat : TypeCatalog)
    (W : BlueprintStore) (CommandType : String) (Params : FJsonObject) (Missing : String)
    (h : firstAbsent H Params (validationOrder CommandType) = some Missing) :
    HandleCommand H cat W CommandType Params =
      (FResponse.Error ("Missing '" ++ Missing ++ "' parameter"), W) := by
  unfold validationOrder at h
  unfold HandleCommand
  by_cases c0 : EqualsIgnoreCase CommandType "connect_blueprint_nodes" = true
  · rw [if_pos c0] at h ⊢
    unfold HandleConnectBlueprintNodes
    refine requireStringField_firstAbsent h fun _ h => ?_
    refine requireStringField_firstAbsent h fun _ h => ?_
    refine requireStringField_firstAbsent h fun _ h => ?_
    refine requireStringField_firstAbsent h fun _ h => ?_
    refine requireStringField_firstAbsent h fun _ h => ?_
    exact absurd h (firstAbsent_nil Params Missing)
  rw [if_neg c0] at h ⊢
  by_cases c1 : EqualsIgnoreCase CommandType "add_blueprint_get_self_component_reference" = true
  · rw [if_pos c1] at h ⊢
    unfold HandleAddBlueprintGetSelfComponentReference
    refine requireStringField_firstAbsent h fun _ h => ?_
    refine requireStringField_firstAbsent h fun _ h => ?_
    exact absurd h (firstAbsent_nil Params Missing)
  rw [if_neg c1] at h ⊢
  by_cases c2 : EqualsIgnoreCase CommandType "add_blueprint_event_node" = true
  · rw [if_pos c2] at h ⊢
    unfold HandleAddBlueprintEvent
    refine requireStringField_firstAbsent h fun _ h => ?_
    refine requireStringField_firstAbsent h fun _ h => ?_
    exact absurd h (firstAbsent_nil Params Missing)
  rw [if_neg c2] at h ⊢
  by_cases c3 : EqualsIgnoreCase CommandType "add_blueprint_function_node" = true
  · rw [if_pos c3] at h ⊢
    unfold HandleAddBlueprintFunctionCall
    refine requireStringField_firstAbsent h fun _ h => ?_
    refine requireStringField_firstAbsent h fun _ h => ?_
    exact absurd h (firstAbsent_nil Params Missing)
  rw [if_neg c3] at h ⊢
  by_cases c4 : EqualsIgnoreCase CommandType "add_blueprint_variable" = true
  · rw [if_pos c4] at h ⊢
    unfold HandleAddBlueprintVariable
    refine requireStringField_firstAbsent h fun _ h => ?_
    refine requireStringField_firstAbsent h fun _ h => ?_
    refine requireStringField_firstAbsent h fun _ h => ?_
    exact absurd h (firstAbsent_nil Params Missing)
  rw [if_neg c4] at h ⊢
  by_cases c5 : EqualsIgnoreCase CommandType "add_blueprint_input_action_node" = true
  · rw [if_pos c5] at h ⊢
    unfold HandleAddBlueprintInputActionNode
    refine requireStringField_firstAbsent h fun _ h => ?_
    refine requireStringField_firstAbsent h fun _ h => ?_
    exact absurd h (firstAbsent_nil Params Missing)
  rw [if_neg c5] at h ⊢
  by_cases c6 : EqualsIgnoreCase CommandType "add_blueprint_self_reference" = true
  · rw [if_pos c6] at h ⊢
    unfold HandleAddBlueprintSelfReference
    refine requireStringField_firstAbsent h fun _ h => ?_
    exact absurd h (firstAbsent_nil Params Missing)
  rw [if_neg c6] at h ⊢
  by_cases c7 : EqualsIgnoreCase CommandType "add_blueprint_dynamic_cast_node" = true
  · rw [if_pos c7] at h ⊢
    unfold HandleAddBlueprintDynamicCastNode
    refine requireStringField_firstAbsent h fun _ h => ?_
    refine requireStringField_firstAbsent h fun _ h => ?_
    exact absurd h (firstAbsent_nil Params Missing)
  rw [if_neg c7] at h ⊢
  by_cases c8 : EqualsIgnoreCase CommandType "add_blueprint_subsystem_getter_node" = true
  · rw [if_pos c8] at h ⊢
    unfold HandleAddBlueprintSubsystemGetterNode
    refine requireStringField_firstAbsent h fun _ h => ?_
    refine requireStringField_firstAbsent h fun _ h => ?_
    exact absurd h (firstAbsent_nil Params Missing)
  rw [if_neg c8] at h ⊢
  by_cases c9 : EqualsIgnoreCase CommandType "add_blueprint_make_struct_node" = true
  · rw [if_pos c9] at h ⊢
    unfold HandleAddBlueprintMakeStructNode
    refine requireStringField_firstAbsent h fun _ h => ?_
    refine requireStringField_firstAbsent h fun _ h => ?_
    exact absurd h (firstAbsent_nil Params Missing)
  rw [if_neg c9] at h ⊢
  by_cases c10 : EqualsIgnoreCase CommandType "break_blueprint_node_pin_links" = true
  · rw [if_pos c10] at h ⊢
    unfold HandleBreakBlueprintNodePinLinks
    refine requireStringField_firstAbsent h fun _ h => ?_
    refine requireStringField_firstAbsent h fun _ h => ?_
    refine requireStringField_firstAbsent h fun _ h => ?_
    exact absurd h (firstAbsent_nil Params Missing)
  rw [if_neg c10] at h ⊢
  by_cases c11 : EqualsIgnoreCase CommandType "clear_blueprint_event_exec_chain" = true
  · rw [if_pos c11] at h ⊢
    unfold HandleClearBlueprintEventExecChain
    refine requireStringField_firstAbsent h fun _ h => ?_
    refine requireStringField_firstAbsent h fun _ h => ?_
    exact absurd h (firstAbsent_nil Params Missing)
  rw [if_neg c11] at h ⊢
  by_cases c12 : EqualsIgnoreCase CommandType "dedupe_blueprint_component_bound_events" = true
  · rw [if_pos c12] at h ⊢
    unfold HandleDedupeCommand
    refine requireStringField_firstAbsent h fun _ h => ?_
    refine requireStringField_firstAbsent h fun _ h => ?_
    refine requireStringField_firstAbsent h fun _ h => ?_
    exact absurd h (firstAbsent_nil Params Missing)
  rw [if_neg c12] at h ⊢
  by_cases c13 : EqualsIgnoreCase CommandType "bind_blueprint_multicast_delegate" = true
  · rw [if_pos c13] at h ⊢
    unfold HandleBindBlueprintMulticastDelegate
    refine requireStringField_firstAbsent h fun _ h => ?_
    refine requireStringField_firstAbsent h fun _ h => ?_
    refine requireStringField_firstAbsent h fun _ h => ?_
    exact absurd h (firstAbsent_nil Params Missing)
  rw [if_neg c13] at h ⊢
  by_cases c14 : EqualsIgnoreCase CommandType "find_blueprint_nodes" = true
  · rw [if_pos c14] at h ⊢
    unfold HandleFindBlueprintNodes
    refine requireStringField_firstAbsent h fun _ h => ?_
    refine requireStringField_firstAbsent h fun _ h => ?_
    exact absurd h (firstAbsent_nil Params Missing)
  rw [if_neg c14] at h ⊢
  by_cases c15 : EqualsIgnoreCase CommandType "clear_blueprint_event_graph" = true
  · rw [if_pos c15] at h ⊢
    unfold HandleClearBlueprintEventGraph
    refine requireStringField_firstAbsent h fun _ h => ?_
    exact absurd h (firstAbsent_nil Params Missing)
  rw [if_neg c15] at h ⊢
  exact absurd h (firstAbsent_nil Params Missing)

/-- Witness of C24 (amended): the dedupe command without `event_name`, and
`break_blueprint_node_pin_links` with a number for `node_id` and an array for
`pin_name`: the number is read as the text "7", the array is not read and
`pin_name` is reported. With a text for `pin_name` the same number passes the
tests and the node lookup answers with it. -/
theorem missing_parameter_reported_first_witness :
    firstAbsent sampleHost (stringParams [("blueprint_name", "BP"), ("widget_name", "Button1")])
        (validationOrder "dedupe_blueprint_component_bound_events") = some "event_name" ∧
    HandleCommand sampleHost scenario4 (sampleStore (some scenario2))
        "dedupe_blueprint_component_bound_events"
        (stringParams [("blueprint_name", "BP"), ("widget_name", "Button1")]) =
      (FResponse.Error "Missing 'event_name' parameter", sampleStore (some scenario2)) ∧
    TryGetStringField sampleHost
        [("blueprint_name", FJsonValue.JsonString "BP"),
          ("node_id", FJsonValue.JsonNumber ⟨7, 0⟩), ("pin_name", FJsonValue.JsonArray [])]
        "node_id" = some "7" ∧
    HandleCommand sampleHost scenario4 (sampleStore (some scenario1))
        "break_blueprint_node_pin_links"
        [("blueprint_name", FJsonValue.JsonString "BP"),
          ("node_id", FJsonValue.JsonNumber ⟨7, 0⟩), ("pin_name", FJsonValue.JsonArray [])] =
      (FResponse.Error "Missing 'pin_name' parameter", sampleStore (some scenario1)) ∧
    (HandleCommand sampleHost scenario4 (sampleStore (some scenario1))
        "break_blueprint_node_pin_links"
        [("blueprint_name", FJsonValue.JsonString "BP"),
          ("node_id", FJsonValue.JsonNumber ⟨7, 0⟩),
          ("pin_name", FJsonValue.JsonString "Then")]).1 =
      FResponse.Error "Node not found: 7" :=
  ⟨by decide,
    missing_parameter_reported_first sampleHost scenario4 (sampleStore (some scenario2))
      "dedupe_blueprint_component_bound_events" _ "event_name" (by decide),
    by decide,
    missing_parameter_reported_first sampleHost scenario4 (sampleStore (some scenario1))
      "break_blueprint_node_pin_links" _ "pin_name" (by decide),
    by decide⟩

/-- C24, as stated, fails for `find_blueprint_nodes` with `node_type` "Event"
and no `event_name`: the parameter is tested after the blueprint and its event
graph are looked up. When the blueprint does not exist the error is "Blueprint
not found", not the missing parameter; when the blueprint has no event graph,
one has been created by the time the missing parameter is reported. -/
theorem find_nodes_event_name_checked_late :
    TryGetStringField sampleHost (stringParams [("blueprint_name", "BP"), ("node_type", "Event")])
        "event_name" = none ∧
    (HandleCommand sampleHost scenario4 [] "find_blueprint_nodes"
        (stringParams [("blueprint_name", "BP"), ("node_type", "Event")])).1 =
      FResponse.Error "Blueprint not found: BP" ∧
    (HandleCommand sampleHost scenario4 (sampleStore none) "find_blueprint_nodes"
        (stringParams [("blueprint_name", "BP"), ("node_type", "Event")])) =
      (FResponse.Error "Missing 'event_name' parameter for Event node search",
        sampleStore (some ⟨[], []⟩)) ∧
    graphOf (sampleStore none) "BP" = none ∧
    graphOf (sampleStore (some ⟨[], []⟩)) "BP" = some ⟨[], []⟩ := by
  decide

/-! ### Member variables -/

theorem ne_of_not_equalsIgnoreCase {A B : String} (h : EqualsIgnoreCase A B = false) :
    A ≠ B := by
  intro hAB
  rw [hAB, EqualsIgnoreCase_self] at h
  exact Bool.noConfusion h

/-- C21: coercing an array of three numbers `[x, y, z]` onto a pin of struct
category whose sub-category object is the vector struct stores the literal
"(X=..,Y=..,Z=..)" whose components are the numbers as the format `%f` prints
them; with a `%f` that prints 1, 2 and 3 with six decimals, `[1, 2, 3]` gives
exactly "(X=1.000000,Y=2.000000,Z=3.000000)". -/
theorem coerce_vector_literal (H : FEditorHost) (cat : TypeCatalog) (ParamPin : UEdGraphPin)
    (x y z : FJsonNumber)
    (hc : ParamPin.PinCategory = EPinCategory.PC_Struct)
    (hs : ParamPin.PinSubCategoryObject = some FVectorStruct) :
    setParameterDefault H cat ParamPin
        (FJsonValue.JsonArray
          [FJsonValue.JsonNumber x, FJsonValue.JsonNumber y, FJsonValue.JsonNumber z]) =
      Except.ok { ParamPin with
        DefaultValue := "(X=" ++ H.PrintfFloat x ++ ",Y=" ++ H.PrintfFloat y ++
          ",Z=" ++ H.PrintfFloat z ++ ")" } ∧
    (H.PrintfFloat ⟨1, 0⟩ = "1.000000" → H.PrintfFloat ⟨2, 0⟩ = "2.000000" →
      H.PrintfFloat ⟨3, 0⟩ = "3.000000" →
      setParameterDefault H cat ParamPin
          (FJsonValue.JsonArray
            [FJsonValue.JsonNumber ⟨1, 0⟩, FJsonValue.JsonNumber ⟨2, 0⟩,
              FJsonValue.JsonNumber ⟨3, 0⟩]) =
        Except.ok { ParamPin with DefaultValue := "(X=1.000000,Y=2.000000,Z=3.000000)" }) := by
  constructor
  · simp only [setParameterDefault]
    rw [if_pos ⟨hc, hs⟩]
    rfl
  · intro p1 p2 p3
    simp only [setParameterDefault]
    rw [if_pos ⟨hc, hs⟩]
    simp only [vectorString, FJsonValue.AsNumber, p1, p2, p3]
    rfl

theorem coerce_vector_literal_witness :
    setParameterDefault sampleHost scenario4
        { PinName := "Location", Direction := EEdGraphPinDirection.EGPD_Input, LinkedTo := [],
          PinCategory := EPinCategory.PC_Struct, PinSubCategoryObject := some FVectorStruct }
        (FJsonValue.JsonArray
          [FJsonValue.JsonNumber ⟨1, 0⟩, FJsonValue.JsonNumber ⟨2, 0⟩,
            FJsonValue.JsonNumber ⟨3, 0⟩]) =
      Except.ok
        { PinName := "Location", Direction := EEdGraphPinDirection.EGPD_Input, LinkedTo := [],
          PinCategory := EPinCategory.PC_Struct, PinSubCategoryObject := some FVectorStruct,
          DefaultValue := "(X=1.000000,Y=2.000000,Z=3.000000)" } :=
  (coerce_vector_literal sampleHost scenario4
    { PinName := "Location", Direction := EEdGraphPinDirection.EGPD_Input, LinkedTo := [],
      PinCategory := EPinCategory.PC_Struct, PinSubCategoryObject := some FVectorStruct }
    ⟨1, 0⟩ ⟨2, 0⟩ ⟨3, 0⟩ rfl rfl).2 (by decide) (by decide) (by decide)

/-- C22, on the code as it is: on a pin of boolean category a string value and
a boolean value store "true" or "false", but a number value takes the branch
of lines 892-899, which does not test the boolean category, and stores the
text `SanitizeFloat` gives the number. -/
theorem coerce_boolean_pin (H : FEditorHost) (cat : TypeCatalog) (ParamPin : UEdGraphPin)
    (hc : ParamPin.PinCategory = EPinCategory.PC_Boolean) :
    (∀ s, setParameterDefault H cat ParamPin (FJsonValue.JsonString s) =
      Except.ok { ParamPin with DefaultValue := boolText (H.StringAsBool s) }) ∧
    (∀ b, setParameterDefault H cat ParamPin (FJsonValue.JsonBoolean b) =
      Except.ok { ParamPin with DefaultValue := boolText b }) ∧
    (∀ n, setParameterDefault H cat ParamPin (FJsonValue.JsonNumber n) =
      Except.ok { ParamPin with DefaultValue := H.SanitizeFloat n }) := by
  refine ⟨?_, ?_, ?_⟩
  · intro s
    simp only [setParameterDefault, setStringParameter]
    rw [hc]
    simp
  · intro b
    rfl
  · intro n
    simp only [setParameterDefault]
    rw [hc]
    simp

theorem coerce_boolean_pin_witness :
    setParameterDefault sampleHost scenario4
        { PinName := "Enabled", Direction := EEdGraphPinDirection.EGPD_Input, LinkedTo := [],
          PinCategory := EPinCategory.PC_Boolean, DefaultValue := "false" }
        (FJsonValue.JsonNumber ⟨1, 0⟩) =
      Except.ok
        { PinName := "Enabled", Direction := EEdGraphPinDirection.EGPD_Input, LinkedTo := [],
          PinCategory := EPinCategory.PC_Boolean, DefaultValue := "1.0" } ∧
    "1.0" ≠ "false" ∧ "1.0" ≠ "true" :=
  ⟨(coerce_boolean_pin sampleHost scenario4
      { PinName := "Enabled", Direction := EEdGraphPinDirection.EGPD_Input, LinkedTo := [],
        PinCategory := EPinCategory.PC_Boolean, DefaultValue := "false" } rfl).2.2 ⟨1, 0⟩,
    by decide, by decide⟩

/-! ### The parameter loop -/

theorem setParameterDefault_shape {H : FEditorHost} {cat : TypeCatalog}
    {ParamPin NewPin : UEdGraphPin} {Value : FJsonValue}
    (h : setParameterDefault H cat ParamPin Value = Except.ok NewPin) :
    NewPin.PinName = ParamPin.PinName ∧ NewPin.Direction = ParamPin.Direction ∧
      NewPin.PinCategory = ParamPin.PinCategory ∧ NewPin.LinkedTo = ParamPin.LinkedTo := by
  unfold setParameterDefault at h
  split at h
  · unfold setStringParameter at h
    repeat' split at h
    all_goals
      first
      | exact Except.noConfusion h
      | (cases h; exact ⟨rfl, rfl, rfl, rfl⟩)
  all_goals
    repeat' split at h
    all_goals (cases h; exact ⟨rfl, rfl, rfl, rfl⟩)

theorem findIdx_map_key {α β : Type} (f : α → β) (p : β → Bool) (l : List α) :
    (l.map f).findIdx p = l.findIdx (fun a => p (f a)) := by
  induction l with
  | nil => rfl
  | cons a rest ih => simp only [List.map_cons, List.findIdx_cons, ih]

theorem FindPin_eq_of_names (Pins Pins1 : List UEdGraphPin) (PinName : String)
    (Direction : EEdGraphPinDirection)
    (h : Pins1.map (fun Pin => (Pin.PinName, Pin.Direction)) =
      Pins.map (fun Pin => (Pin.PinName, Pin.Direction))) :
    FindPin Pins1 PinName Direction = FindPin Pins PinName Direction := by
  have hl : Pins1.length = Pins.length := by
    have := congrArg List.length h
    simpa using this
  have hi : Pins1.findIdx (fun Pin => Pin.PinName == PinName && Pin.Direction == Direction) =
      Pins.findIdx (fun Pin => Pin.PinName == PinName && Pin.Direction == Direction) := by
    have e1 := findIdx_map_key (fun Pin : UEdGraphPin => (Pin.PinName, Pin.Direction))
      (fun k => k.1 == PinName && k.2 == Direction) Pins1
    have e2 := findIdx_map_key (fun Pin : UEdGraphPin => (Pin.PinName, Pin.Direction))
      (fun k => k.1 == PinName && k.2 == Direction) Pins
    rw [← e1, ← e2, h]
  unfold FindPin
  simp only [hi, hl]

theorem set_map_eq_of_key {α β : Type} (f : α → β) (l : List α) (i : Nat) (a b : α)
    (ha : l[i]? = some a) (hab : f b = f a) : (l.set i b).map f = l.map f := by
  apply List.ext_getElem?
  intro k
  rw [List.getElem?_map, List.getElem?_map, List.getElem?_set]
  by_cases hk : i = k
  · subst hk
    rw [if_pos rfl]
    have hlt : i < l.length := by
      by_contra hn
      rw [List.getElem?_eq_none_iff.mpr (Nat.le_of_not_lt hn)] at ha
      exact Option.noConfusion ha
    rw [if_pos hlt, ha]
    simp [hab]
  · rw [if_neg hk]

theorem setFunctionParameters_class_error (H : FEditorHost) (cat : TypeCatalog)
    (ParamName StringVal : String) (hfail : findClassReference cat StringVal = none) :
    ∀ (ParamList : List (String × FJsonValue)) (Pins : List UEdGraphPin) (Index : Nat),
      (ParamName, FJsonValue.JsonString StringVal) ∈ ParamList →
      FindPin Pins ParamName EEdGraphPinDirection.EGPD_Input = some Index →
      (Pins[Index]?).map (fun Pin => Pin.PinCategory) = some EPinCategory.PC_Class →
      (setFunctionParameters H cat ParamList Pins).1.isSome = true := by
  intro ParamList
  induction ParamList with
  | nil => intro Pins Index hmem; simp at hmem
  | cons Param rest ih =>
    intro Pins Index hmem hfind hcat
    unfold setFunctionParameters
    rcases List.mem_cons.mp hmem with hhead | htail
    · rw [← hhead]
      simp only [hfind]
      cases hp : Pins[Index]? with
      | none => rw [hp] at hcat; simp at hcat
      | some ParamPin =>
        rw [hp] at hcat
        simp only [Option.map_some', Option.some.injEq] at hcat
        simp only [setParameterDefault, setStringParameter, hcat, if_true, hfail]
        rfl
    · cases hf : FindPin Pins Param.1 EEdGraphPinDirection.EGPD_Input with
      | none => exact ih Pins Index htail hfind hcat
      | some j =>
        simp only
        cases hj : Pins[j]? with
        | none => exact ih Pins Index htail hfind hcat
        | some ParamPin =>
          simp only
          cases hset : setParameterDefault H cat ParamPin Param.2 with
          | error Message => rfl
          | ok NewPin =>
            simp only
            obtain ⟨hn, hd, hc, -⟩ := setParameterDefault_shape hset
            refine ih (Pins.set j NewPin) Index htail ?_ ?_
            · rw [FindPin_eq_of_names Pins (Pins.set j NewPin) ParamName _
                (set_map_eq_of_key (fun Pin : UEdGraphPin => (Pin.PinName, Pin.Direction))
                  Pins j ParamPin NewPin hj (by simp only [hn, hd]))]
              exact hfind
            · have := set_map_eq_of_key (fun Pin : UEdGraphPin => Pin.PinCategory) Pins j
                ParamPin NewPin hj hc
              have h2 := congrArg (fun l => l[Index]?) this
              simp only [List.getElem?_map] at h2
              rw [h2]
              exact hcat

/-! ### The function-call handler -/

theorem findInTarget_graph (cat : TypeCatalog) (g : UEdGraph) (FunctionName Target : String)
    (NodePosition : Int × Int) (NewGuid : String) (UnresolvedPins : List UEdGraphPin) :
    ((findInTarget cat g FunctionName Target NodePosition NewGuid UnresolvedPins).2.1 = none ∧
      (findInTarget cat g FunctionName Target NodePosition NewGuid UnresolvedPins).2.2 = g) ∨
    ((findInTarget cat g FunctionName Target NodePosition NewGuid UnresolvedPins).2.1 =
        some (AddNode g NewGuid NodePosition UnresolvedPins).2 ∧
      (findInTarget cat g FunctionName Target NodePosition NewGuid UnresolvedPins).2.2 =
        (AddNode g NewGuid NodePosition UnresolvedPins).1) := by
  unfold findInTarget
  cases resolveTargetClass cat Target with
  | none => exact Or.inl ⟨rfl, rfl⟩
  | some TargetClass =>
    simp only
    cases findFunctionInClass TargetClass FunctionName with
    | some Function => exact Or.inl ⟨rfl, rfl⟩
    | none =>
      simp only
      split
      · exact Or.inr ⟨rfl, rfl⟩
      · exact Or.inl ⟨rfl, rfl⟩

theorem findOrCreateFunctionNode_ok {cat : TypeCatalog} {g : UEdGraph} {GeneratedClass : UClass}
    {FunctionName Target : String} {NodePosition : Int × Int} {NewGuid : String}
    {UnresolvedPins : List UEdGraphPin} {created : UEdGraph × Nat}
    (h : findOrCreateFunctionNode cat g GeneratedClass FunctionName Target NodePosition NewGuid
      UnresolvedPins = Except.ok created) :
    ∃ Pins, created = AddNode g NewGuid NodePosition Pins := by
  unfold findOrCreateFunctionNode at h
  simp only at h
  by_cases hT : Target ≠ ""
  · simp only [if_pos hT] at h
    rcases findInTarget_graph cat g FunctionName Target NodePosition NewGuid UnresolvedPins
      with ⟨h1, h2⟩ | ⟨h1, h2⟩
    · rw [h1, h2] at h
      simp only at h
      split at h
      · cases h
        exact ⟨_, rfl⟩
      · exact Except.noConfusion h
    · rw [h1, h2] at h
      simp only at h
      cases h
      exact ⟨_, rfl⟩
  · simp only [if_neg hT] at h
    split at h
    · cases h
      exact ⟨_, rfl⟩
    · exact Except.noConfusion h

theorem withEventGraph_of_graph {H : FEditorHost} {W : BlueprintStore} {BlueprintName : String}
    {Blueprint : UBlueprint} {found : UBlueprint × UEdGraph}
    (h : FindBlueprint W BlueprintName = some Blueprint)
    (hg : FindOrCreateEventGraph H Blueprint = some found)
    (body : UBlueprint → UEdGraph → FResponse × UBlueprint) :
    withEventGraph H W BlueprintName body =
      ((body found.1 found.2).1, StoreBlueprint W BlueprintName (body found.1 found.2).2) := by
  unfold withEventGraph
  rw [withBlueprint_found h, hg]

/-- C23: when a parameter of `add_blueprint_function_node` holds a string, its
name is the name of an input pin of the function node, that pin is of class
category, and none of the three class lookups finds a class for the string,
the command returns an error response. -/
theorem class_reference_failure_fails_command (H : FEditorHost) (cat : TypeCatalog)
    (W : BlueprintStore) (Params : FJsonObject)
    (BlueprintName FunctionName ParamName StringVal : String) (Blueprint : UBlueprint)
    (found : UBlueprint × UEdGraph) (created : UEdGraph × Nat) (Index : Nat)
    (h1 : TryGetStringField H Params "blueprint_name" = some BlueprintName)
    (h2 : TryGetStringField H Params "function_name" = some FunctionName)
    (hb : FindBlueprint W BlueprintName = some Blueprint)
    (hg : FindOrCreateEventGraph H Blueprint = some found)
    (hc : findOrCreateFunctionNode cat found.2 found.1.GeneratedClass FunctionName
      ((TryGetStringField H Params "target").getD "") (readNodePosition H Params)
      (H.CreateNewGuid found.2) H.UnresolvedPins = Except.ok created)
    (hparam : (ParamName, FJsonValue.JsonString StringVal) ∈ functionParameters Params)
    (hpin : FindPin (reconstructedNode H created.1 created.2).Pins ParamName
      EEdGraphPinDirection.EGPD_Input = some Index)
    (hcat : ((reconstructedNode H created.1 created.2).Pins[Index]?).map
      (fun Pin => Pin.PinCategory) = some EPinCategory.PC_Class)
    (hfail : findClassReference cat StringVal = none) :
    (HandleAddBlueprintFunctionCall H cat W Params).1.isError = true := by
  unfold HandleAddBlueprintFunctionCall
  rw [requireStringField_some h1, requireStringField_some h2, withEventGraph_of_graph hb hg]
  simp only [hc]
  have hsome := setFunctionParameters_class_error H cat ParamName StringVal hfail
    (functionParameters Params) _ Index hparam hpin hcat
  cases hr : (setFunctionParameters H cat (functionParameters Params)
      (reconstructedNode H created.1 created.2).Pins).1 with
  | none => rw [hr] at hsome; exact Bool.noConfusion hsome
  | some Message => rfl

theorem class_reference_failure_fails_command_witness :
    (HandleAddBlueprintFunctionCall sampleHost (catalogOf []) (sampleStore (some scenario1))
      (stringParams [("blueprint_name", "BP"), ("function_name", "Spawn")] ++
        [("params", FJsonValue.JsonObject
          [("Enabled", FJsonValue.JsonBoolean true),
            ("ActorClass", FJsonValue.JsonString "ANope")])])).1.isError = true :=
  class_reference_failure_fails_command sampleHost (catalogOf []) (sampleStore (some scenario1))
    _ "BP" "Spawn" "ActorClass" "ANope" ⟨some scenario1, sampleTypedClass, [], 0, 0⟩
    (⟨some scenario1, sampleTypedClass, [], 0, 0⟩, scenario1)
    (CreateFunctionCallNode scenario1
      ⟨"Spawn",
        [ { PinName := "ActorClass", Direction := EEdGraphPinDirection.EGPD_Input,
            LinkedTo := [], PinCategory := EPinCategory.PC_Class },
          { PinName := "Enabled", Direction := EEdGraphPinDirection.EGPD_Input, LinkedTo := [],
            PinCategory := EPinCategory.PC_Boolean, DefaultValue := "false" },
          { PinName := "Location", Direction := EEdGraphPinDirection.EGPD_Input, LinkedTo := [],
            PinCategory := EPinCategory.PC_Struct,
            PinSubCategoryObject := some FVectorStruct } ]⟩ (0, 0) "N4")
    0 (by decide) (by decide) (by decide) rfl rfl (by simp [functionParameters,
      TryGetObjectField, TryGetField, stringParams]) (by decide) (by decide) (by decide)

/-! ### Breaking the links of a pin -/

theorem breakPinLinksInNode_getElem? (Target : PinRef) (i : Nat) (Pins : List UEdGraphPin) :
    ∀ j k, (breakPinLinksInNode Target i j Pins)[k]? =
      (Pins[k]?).map (fun Pin : UEdGraphPin =>
        if i = Target.Node ∧ j + k = Target.Pin then Pin.withoutLinks
        else { Pin with LinkedTo := Pin.LinkedTo.filter (fun l => l ≠ Target) }) := by
  induction Pins with
  | nil => intro j k; simp [breakPinLinksInNode]
  | cons Pin rest ih =>
    intro j k
    cases k with
    | zero => simp [breakPinLinksInNode]
    | succ m =>
      simp only [breakPinLinksInNode, List.getElem?_cons_succ]
      rw [ih (j + 1) m]
      have : j + 1 + m = j + (m + 1) := by omega
      rw [this]

theorem breakPinLinksInStore_getElem? (Target : PinRef) (l : List UEdGraphNode) :
    ∀ i k, (breakPinLinksInStore Target i l)[k]? =
      (l[k]?).map (fun n : UEdGraphNode =>
        { n with Pins := breakPinLinksInNode Target (i + k) 0 n.Pins }) := by
  induction l with
  | nil => intro i k; simp [breakPinLinksInStore]
  | cons n rest ih =>
    intro i k
    cases k with
    | zero => simp [breakPinLinksInStore]
    | succ m =>
      simp only [breakPinLinksInStore, List.getElem?_cons_succ]
      rw [ih (i + 1) m]
      have : i + 1 + m = i + (m + 1) := by omega
      rw [this]

theorem pinAt_BreakAllPinLinks (g : UEdGraph) (Target Ref : PinRef) :
    pinAt (BreakAllPinLinks g Target) Ref =
      (pinAt g Ref).map (fun Pin : UEdGraphPin =>
        if Ref.Node = Target.Node ∧ Ref.Pin = Target.Pin then Pin.withoutLinks
        else { Pin with LinkedTo := Pin.LinkedTo.filter (fun l => l ≠ Target) }) := by
  unfold pinAt pinsOf BreakAllPinLinks
  simp only [breakPinLinksInStore_getElem?, Nat.zero_add]
  cases hn : g.Objects[Ref.Node]? with
  | none => simp
  | some n =>
    simp only [Option.map_some', breakPinLinksInNode_getElem?, Nat.zero_add]

theorem not_mem_links_after_break (g : UEdGraph) (Target Ref : PinRef) (Pin : UEdGraphPin)
    (h : pinAt (BreakAllPinLinks g Target) Ref = some Pin) : Target ∉ Pin.LinkedTo := by
  rw [pinAt_BreakAllPinLinks] at h
  cases hp : pinAt g Ref with
  | none => rw [hp] at h; exact Option.noConfusion h
  | some Old =>
    rw [hp] at h
    simp only [Option.map_some', Option.some.injEq] at h
    rw [← h]
    split
    · simp [UEdGraphPin.withoutLinks]
    · simp

theorem find?_eq_some_of_unique {α : Type} (p : α → Bool) (l : List α) (a : α)
    (ha : a ∈ l) (hp : p a = true) (huniq : ∀ b ∈ l, p b = true → b = a) :
    l.find? p = some a := by
  induction l with
  | nil => simp at ha
  | cons b rest ih =>
    rw [List.find?_cons]
    cases hb : p b with
    | true =>
      simp only
      rw [huniq b (List.mem_cons_self _ _) hb]
    | false =>
      simp only
      rcases List.mem_cons.mp ha with h | h
      · rw [h, hb] at hp
        exact Bool.noConfusion hp
      · exact ih h (fun c hc => huniq c (List.mem_cons_of_mem _ hc))

theorem findNodeByGuid_of_unique (g : UEdGraph) (NodeId : String) (Node : Nat)
    (hN : Node ∈ g.Nodes) (hv : IsValid g Node)
    (hid : EqualsIgnoreCase (nodeGuid g Node) NodeId = true)
    (huniq : ∀ n ∈ g.Nodes, IsValid g n → EqualsIgnoreCase (nodeGuid g n) NodeId = true →
      n = Node) :
    findNodeByGuid g NodeId = some Node := by
  unfold findNodeByGuid
  apply find?_eq_some_of_unique _ _ _ hN
  · simp [hv, hid]
  · intro b hb hpb
    simp only [Bool.and_eq_true, decide_eq_true_eq] at hpb
    exact huniq b hb hpb.1 hpb.2

theorem findPinIndexByName_of_first (Pins : List UEdGraphPin) (PinName : String) (Index : Nat)
    (Pin : UEdGraphPin) (hpin : Pins[Index]? = some Pin)
    (hname : EqualsIgnoreCase Pin.PinName PinName = true)
    (hfirst : ∀ j P, j < Index → Pins[j]? = some P →
      EqualsIgnoreCase P.PinName PinName = false) :
    findPinIndexByName Pins PinName = some Index := by
  have hlt : Index < Pins.length := by
    by_contra hn
    rw [List.getElem?_eq_none_iff.mpr (Nat.le_of_not_lt hn)] at hpin
    exact Option.noConfusion hpin
  have hget : Pins[Index] = Pin := by
    rw [List.getElem?_eq_getElem hlt] at hpin
    exact Option.some.inj hpin
  have hidx : Pins.findIdx (fun Pin => EqualsIgnoreCase Pin.PinName PinName) = Index := by
    rw [List.findIdx_eq hlt]
    refine ⟨by simp [hget, hname], ?_⟩
    intro j hj
    have := hfirst j (Pins[j]) hj (List.getElem?_eq_getElem (Nat.lt_trans hj hlt))
    simpa using this
  unfold findPinIndexByName
  simp only [hidx, hlt, if_true]

/-- C27: for a node of the graph named by `node_id` (identifiers are unique,
I2) and the first pin of that node named `pin_name`, the command
`break_blueprint_node_pin_links` succeeds, `removed_links` is the number of
links the pin held before the call, and afterwards the pin holds no link and
appears in the link set of no pin of the graph. On a pin without links this
gives `removed_links = 0` and no error. Identifiers and pin names are compared
as the code compares them, ignoring letter case. -/
theorem break_pin_links_removes_all (H : FEditorHost) (W : BlueprintStore)
    (Params : FJsonObject) (BlueprintName NodeId PinName : String) (Blueprint : UBlueprint)
    (g : UEdGraph) (TargetNode Index : Nat) (Pin : UEdGraphPin)
    (h1 : TryGetStringField H Params "blueprint_name" = some BlueprintName)
    (h2 : TryGetStringField H Params "node_id" = some NodeId)
    (h3 : TryGetStringField H Params "pin_name" = some PinName)
    (hb : FindBlueprint W BlueprintName = some Blueprint)
    (hg : Blueprint.EventGraph = some g)
    (hN : TargetNode ∈ g.Nodes) (hv : IsValid g TargetNode)
    (hid : EqualsIgnoreCase (nodeGuid g TargetNode) NodeId = true)
    (huniq : ∀ n ∈ g.Nodes, IsValid g n → EqualsIgnoreCase (nodeGuid g n) NodeId = true →
      n = TargetNode)
    (hpin : pinAt g ⟨TargetNode, Index⟩ = some Pin)
    (hname : EqualsIgnoreCase Pin.PinName PinName = true)
    (hfirst : ∀ j P, j < Index → pinAt g ⟨TargetNode, j⟩ = some P →
      EqualsIgnoreCase P.PinName PinName = false) :
    ∃ g1,
      (HandleBreakBlueprintNodePinLinks H W Params).1 =
        FResponse.Result [("node_id", FResultValue.Text NodeId),
          ("pin_name", FResultValue.Text PinName),
          ("removed_links", FResultValue.Count Pin.LinkedTo.length)] ∧
      graphOf (HandleBreakBlueprintNodePinLinks H W Params).2 BlueprintName = some g1 ∧
      (pinAt g1 ⟨TargetNode, Index⟩).map (fun P => P.LinkedTo) = some [] ∧
      (∀ Ref P, pinAt g1 Ref = some P → (⟨TargetNode, Index⟩ : PinRef) ∉ P.LinkedTo) ∧
      g1.Nodes = g.Nodes ∧
      (Pin.LinkedTo = [] →
        (HandleBreakBlueprintNodePinLinks H W Params).1 =
          FResponse.Result [("node_id", FResultValue.Text NodeId),
            ("pin_name", FResultValue.Text PinName),
            ("removed_links", FResultValue.Count 0)]) := by
  have hnode := findNodeByGuid_of_unique g NodeId TargetNode hN hv hid huniq
  have hidx := findPinIndexByName_of_first (pinsOf g TargetNode) PinName Index Pin hpin hname
    hfirst
  have hresp : HandleBreakBlueprintNodePinLinks H W Params =
      (FResponse.Result [("node_id", FResultValue.Text NodeId),
          ("pin_name", FResultValue.Text PinName),
          ("removed_links", FResultValue.Count Pin.LinkedTo.length)],
        StoreBlueprint W BlueprintName
          (MarkBlueprintAsModified
            (Blueprint.withGraph (BreakAllPinLinks g ⟨TargetNode, Index⟩)))) := by
    unfold HandleBreakBlueprintNodePinLinks
    rw [requireStringField_some h1, requireStringField_some h2, requireStringField_some h3,
      withEventGraph_found hb hg]
    simp only [hnode, hidx, hpin]
  refine ⟨BreakAllPinLinks g ⟨TargetNode, Index⟩, ?_, ?_, ?_, ?_, rfl, ?_⟩
  · rw [hresp]
  · rw [hresp]
    unfold graphOf
    rw [FindBlueprint_StoreBlueprint W BlueprintName Blueprint _ hb]
    rfl
  · rw [pinAt_BreakAllPinLinks, hpin]
    simp [UEdGraphPin.withoutLinks]
  · intro Ref P hP
    exact not_mem_links_after_break g _ Ref P hP
  · intro h0
    rw [hresp, h0]
    rfl

/-- Witness of C27 on Scenario 1: the node G is named as "g" and its pin
"Value" as "value". -/
theorem break_pin_links_removes_all_witness :
    (∃ g1,
      (HandleBreakBlueprintNodePinLinks sampleHost (sampleStore (some scenario1))
        (stringParams [("blueprint_name", "BP"), ("node_id", "g"), ("pin_name", "value")])).1 =
        FResponse.Result [("node_id", FResultValue.Text "g"),
          ("pin_name", FResultValue.Text "value"),
          ("removed_links", FResultValue.Count (inPin "Value" [⟨3, 0⟩]).LinkedTo.length)] ∧
      graphOf (HandleBreakBlueprintNodePinLinks sampleHost (sampleStore (some scenario1))
        (stringParams [("blueprint_name", "BP"), ("node_id", "g"),
          ("pin_name", "value")])).2 "BP" = some g1 ∧
      (pinAt g1 ⟨2, 1⟩).map (fun P => P.LinkedTo) = some [] ∧
      (∀ Ref P, pinAt g1 Ref = some P → (⟨2, 1⟩ : PinRef) ∉ P.LinkedTo) ∧
      g1.Nodes = scenario1.Nodes ∧
      ((inPin "Value" [⟨3, 0⟩]).LinkedTo = [] →
        (HandleBreakBlueprintNodePinLinks sampleHost (sampleStore (some scenario1))
          (stringParams [("blueprint_name", "BP"), ("node_id", "g"),
            ("pin_name", "value")])).1 =
          FResponse.Result [("node_id", FResultValue.Text "g"),
            ("pin_name", FResultValue.Text "value"),
            ("removed_links", FResultValue.Count 0)])) ∧
    (HandleBreakBlueprintNodePinLinks sampleHost (sampleStore (some scenario1))
      (stringParams [("blueprint_name", "BP"), ("node_id", "G"), ("pin_name", "then")])).1 =
      FResponse.Result [("node_id", FResultValue.Text "G"),
        ("pin_name", FResultValue.Text "then"), ("removed_links", FResultValue.Count 0)] :=
  ⟨break_pin_links_removes_all sampleHost (sampleStore (some scenario1)) _ "BP" "g" "value"
    ⟨some scenario1, sampleTypedClass, [], 0, 0⟩ scenario1 2 1 (inPin "Value" [⟨3, 0⟩])
    (by decide) (by decide) (by decide) (by decide) rfl (by decide) (by decide) (by decide)
    (by decide) (by decide) (by decide)
    (by
      intro j P hj hP
      have hj0 : j = 0 := by omega
      subst hj0
      have : P = inPin "execute" [⟨1, 1⟩] := by
        have h := hP
        rw [show pinAt scenario1 ⟨2, 0⟩ = some (inPin "execute" [⟨1, 1⟩]) from by decide] at h
        exact (Option.some.inj h).symm
      rw [this]
      decide),
    by decide⟩

/-! ### Clearing an exec chain -/

theorem scanFold_nodup (g : UEdGraph) (e : Nat) (nodes : List Nat) :
    ∀ st : List Nat × Bool, st.1.Nodup → (nodes.foldl (scanCandidate g e) st).1.Nodup := by
  induction nodes with
  | nil => intro st h; exact h
  | cons c rest ih =>
    intro st h
    rw [List.foldl_cons]
    apply ih
    rcases scanCandidate_cases g e st c with ⟨hc, _⟩ | ⟨hc, hcond⟩
    · rw [hc]; exact h
    · rw [hc]
      exact List.Nodup.append h (List.nodup_singleton c)
        (by
          intro a ha hb
          rw [List.mem_singleton] at hb
          subst hb
          exact hcond.2.2.1 ha)

theorem dependencyLoop_nodup (g : UEdGraph) (e : Nat) (fuel : Nat) :
    ∀ (S : List Nat) (k : Nat), S.Nodup → (dependencyLoop g e fuel S k).NodesToRemove.Nodup := by
  induction fuel with
  | zero => intro S k h; exact h
  | succ f ih =>
    intro S k h
    have hscan : (dependencyScan g e S).1.Nodup := scanFold_nodup g e g.Nodes (S, false) h
    unfold dependencyLoop
    simp only
    split
    · exact ih _ _ hscan
    · exact hscan

theorem CollectExecChainNodes_nodup (g : UEdGraph) (e : Nat) (name : String) :
    (CollectExecChainNodes g e name).Nodup := by
  cases hpin : FindNodePinByName g e name with
  | none =>
    rw [CollectExecChainNodes_of_no_pin hpin]
    exact List.nodup_nil
  | some pin =>
    rw [CollectExecChainNodes_of_pin hpin]
    unfold dependencyPhase
    apply dependencyLoop_nodup
    have inv := execPhase_inv g e pin
    rw [inv.same]
    exact inv.nodup

theorem CollectExecChainNodes_valid {g : UEdGraph} {e : Nat} {name : String} {n : Nat}
    (hn : n ∈ CollectExecChainNodes g e name) : IsValid g n := by
  obtain ⟨pin, _, h | h⟩ := CollectExecChainNodes_mem hn
  · exact h.valid.1
  · exact h.2.1

theorem removeChainLoop_count (l : List Nat) :
    ∀ st : UEdGraph × Nat, (∀ n ∈ l, IsValid st.1 n) →
      (l.foldl removeChainNode st).2 = st.2 + l.length := by
  induction l with
  | nil => intro st _; rfl
  | cons a rest ih =>
    intro st hall
    rw [List.foldl_cons]
    have ha : IsValid st.1 a := hall a (List.mem_cons_self _ _)
    have hstep : removeChainNode st a = (RemoveNode st.1 a, st.2 + 1) := by
      unfold removeChainNode
      rw [if_pos ha]
    rw [hstep, ih]
    · simp only [List.length_cons]
      omega
    · intro n hn
      exact (RemoveNode_valid st.1 a n).mpr (hall n (List.mem_cons_of_mem _ hn))

/-- C28: for a seed node of the graph named by `event_node_id` (identifiers
are unique, I2) that has a pin of the given name, "Then" when
`event_output_pin` is not given, `clear_blueprint_event_exec_chain` leaves in
the graph exactly the nodes that are not in the closure of the seed and the
pin, the seed among them, and `removed_nodes` is the number of nodes of the
closure, which has no repeated element. Identifiers and pin names are compared
as the code compares them, ignoring letter case. -/
theorem clear_exec_chain_removes_closure (H : FEditorHost) (W : BlueprintStore)
    (Params : FJsonObject) (BlueprintName EventNodeId PinName : String)
    (Blueprint : UBlueprint) (g : UEdGraph) (EventNode : Nat) (Pin : UEdGraphPin)
    (h1 : TryGetStringField H Params "blueprint_name" = some BlueprintName)
    (h2 : TryGetStringField H Params "event_node_id" = some EventNodeId)
    (h3 : PinName = (TryGetStringField H Params "event_output_pin").getD "Then")
    (hb : FindBlueprint W BlueprintName = some Blueprint)
    (hg : Blueprint.EventGraph = some g)
    (hN : EventNode ∈ g.Nodes) (hv : IsValid g EventNode)
    (hid : EqualsIgnoreCase (nodeGuid g EventNode) EventNodeId = true)
    (huniq : ∀ n ∈ g.Nodes, IsValid g n →
      EqualsIgnoreCase (nodeGuid g n) EventNodeId = true → n = EventNode)
    (hpin : Pin ∈ pinsOf g EventNode)
    (hname : EqualsIgnoreCase Pin.PinName PinName = true) :
    ∃ g1,
      (HandleClearBlueprintEventExecChain H W Params).1 =
        FResponse.Result [("event_node_id", FResultValue.Text EventNodeId),
          ("event_output_pin", FResultValue.Text PinName),
          ("removed_nodes",
            FResultValue.Count (CollectExecChainNodes g EventNode PinName).length)] ∧
      graphOf (HandleClearBlueprintEventExecChain H W Params).2 BlueprintName = some g1 ∧
      (∀ n, n ∈ g1.Nodes ↔ n ∈ g.Nodes ∧ n ∉ CollectExecChainNodes g EventNode PinName) ∧
      EventNode ∈ g1.Nodes ∧
      (CollectExecChainNodes g EventNode PinName).Nodup := by
  have hnode := findNodeByGuid_of_unique g EventNodeId EventNode hN hv hid huniq
  have hfound : ∃ Found, FindNodePinByName g EventNode PinName = some Found := by
    unfold FindNodePinByName
    rw [if_pos hv]
    apply Option.isSome_iff_exists.mp
    rw [List.find?_isSome]
    exact ⟨Pin, hpin, hname⟩
  obtain ⟨Found, hFound⟩ := hfound
  have hvalid : ∀ n ∈ CollectExecChainNodes g EventNode PinName, IsValid g n :=
    fun n hn => CollectExecChainNodes_valid hn
  have hcount := removeChainLoop_count (CollectExecChainNodes g EventNode PinName) (g, 0) hvalid
  have hresp : HandleClearBlueprintEventExecChain H W Params =
      (FResponse.Result [("event_node_id", FResultValue.Text EventNodeId),
          ("event_output_pin", FResultValue.Text PinName),
          ("removed_nodes",
            FResultValue.Count (CollectExecChainNodes g EventNode PinName).length)],
        StoreBlueprint W BlueprintName
          (MarkBlueprintAsStructurallyModified
            (Blueprint.withGraph
              ((CollectExecChainNodes g EventNode PinName).foldl removeChainNode (g, 0)).1))) := by
    unfold HandleClearBlueprintEventExecChain
    rw [requireStringField_some h1, requireStringField_some h2, withEventGraph_found hb hg]
    simp only [← h3, hnode, hFound, hcount, Nat.zero_add]
  have hnodes : ∀ n,
      n ∈ ((CollectExecChainNodes g EventNode PinName).foldl removeChainNode (g, 0)).1.Nodes ↔
        n ∈ g.Nodes ∧ n ∉ CollectExecChainNodes g EventNode PinName := by
    intro n
    rw [(removeChainLoop_nodes (CollectExecChainNodes g EventNode PinName) n (g, 0)).1]
    constructor
    · rintro ⟨hn, hnot⟩
      exact ⟨hn, fun hmem => hnot ⟨hmem, hvalid n hmem⟩⟩
    · rintro ⟨hn, hnot⟩
      exact ⟨hn, fun hmem => hnot hmem.1⟩
  refine ⟨_, ?_, ?_, hnodes, ?_, CollectExecChainNodes_nodup g EventNode PinName⟩
  · rw [hresp]
  · rw [hresp]
    unfold graphOf
    rw [FindBlueprint_StoreBlueprint W BlueprintName Blueprint _ hb]
    rfl
  · refine (hnodes EventNode).mpr ⟨hN, ?_⟩
    intro hmem
    obtain ⟨pin, _, h | h⟩ := CollectExecChainNodes_mem hmem
    · exact h.valid.2 rfl
    · exact h.2.2.1 rfl

/-- Witness of C28 on Scenario 1: the event E is named as "e" and the pin is
the default "Then". -/
theorem clear_exec_chain_removes_closure_witness :
    ∃ g1,
      (HandleClearBlueprintEventExecChain sampleHost (sampleStore (some scenario1))
        (stringParams [("blueprint_name", "BP"), ("event_node_id", "e")])).1 =
        FResponse.Result [("event_node_id", FResultValue.Text "e"),
          ("event_output_pin", FResultValue.Text "Then"),
          ("removed_nodes",
            FResultValue.Count (CollectExecChainNodes scenario1 0 "Then").length)] ∧
      graphOf (HandleClearBlueprintEventExecChain sampleHost (sampleStore (some scenario1))
        (stringParams [("blueprint_name", "BP"), ("event_node_id", "e")])).2 "BP" = some g1 ∧
      (∀ n, n ∈ g1.Nodes ↔ n ∈ scenario1.Nodes ∧ n ∉ CollectExecChainNodes scenario1 0 "Then") ∧
      0 ∈ g1.Nodes ∧
      (CollectExecChainNodes scenario1 0 "Then").Nodup :=
  clear_exec_chain_removes_closure sampleHost (sampleStore (some scenario1)) _ "BP" "e" "Then"
    ⟨some scenario1, sampleTypedClass, [], 0, 0⟩ scenario1 0 (outPin "Then" [⟨1, 0⟩])
    (by decide) (by decide) (by decide) (by decide) rfl (by decide) (by decide) (by decide)
    (by decide) (by decide) (by decide)

/-! ### Marking the blueprint -/

theorem requireStringField_outcome {H : FEditorHost} {cat : TypeCatalog} {W : BlueprintStore}
    {CommandType : String} {Params : FJsonObject} {FieldName : String}
    {body : String → FResponse × BlueprintStore}
    (hbody : ∀ Value, TryGetStringField H Params FieldName = some Value →
      (body Value).1.isError = true → ErrorOutcome H cat W CommandType Params (body Value).2)
    (herr : (requireStringField H W Params FieldName body).1.isError = true) :
    ErrorOutcome H cat W CommandType Params (requireStringField H W Params FieldName body).2 := by
  cases hf : TryGetStringField H Params FieldName with
  | none =>
    rw [requireStringField_none hf]
    exact Or.inl rfl
  | some Value =>
    rw [requireStringField_some hf] at herr ⊢
    exact hbody Value hf herr

theorem withBlueprint_outcome {H : FEditorHost} {cat : TypeCatalog} {W : BlueprintStore}
    {CommandType : String} {Params : FJsonObject} {BlueprintName : String}
    {body : UBlueprint → FResponse × UBlueprint}
    (hbody : ∀ Blueprint, FindBlueprint W BlueprintName = some Blueprint →
      (body Blueprint).1.isError = true →
      ErrorOutcome H cat W CommandType Params
        (StoreBlueprint W BlueprintName (body Blueprint).2))
    (herr : (withBlueprint W BlueprintName body).1.isError = true) :
    ErrorOutcome H cat W CommandType Params (withBlueprint W BlueprintName body).2 := by
  cases hb : FindBlueprint W BlueprintName with
  | none =>
    unfold withBlueprint
    rw [hb]
    exact Or.inl rfl
  | some Blueprint =>
    rw [withBlueprint_found hb] at herr ⊢
    exact hbody Blueprint hb herr

theorem withEventGraph_outcome {H : FEditorHost} {cat : TypeCatalog} {W : BlueprintStore}
    {CommandType : String} {Params : FJsonObject} {BlueprintName : String}
    {body : UBlueprint → UEdGraph → FResponse × UBlueprint}
    (hbody : ∀ Blueprint found, FindBlueprint W BlueprintName = some Blueprint →
      FindOrCreateEventGraph H Blueprint = some found →
      (body found.1 found.2).1.isError = true →
      ErrorOutcome H cat W CommandType Params
        (StoreBlueprint W BlueprintName (body found.1 found.2).2))
    (herr : (withEventGraph H W BlueprintName body).1.isError = true) :
    ErrorOutcome H cat W CommandType Params (withEventGraph H W BlueprintName body).2 := by
  unfold withEventGraph at herr ⊢
  refine withBlueprint_outcome (fun Blueprint hb hbp => ?_) herr
  cases hf : FindOrCreateEventGraph H Blueprint with
  | none =>
    simp only
    rw [StoreBlueprint_self W BlueprintName Blueprint hb]
    exact Or.inl rfl
  | some found =>
    rw [hf] at hbp
    exact hbody Blueprint found hb hf hbp

theorem outcome_of_lookup {H : FEditorHost} {cat : TypeCatalog} {W : BlueprintStore}
    {CommandType : String} {Params : FJsonObject} {BlueprintName : String}
    {Blueprint : UBlueprint} {found : UBlueprint × UEdGraph}
    (h1 : TryGetStringField H Params "blueprint_name" = some BlueprintName)
    (hb : FindBlueprint W BlueprintName = some Blueprint)
    (hf : FindOrCreateEventGraph H Blueprint = some found) :
    ErrorOutcome H cat W CommandType Params (StoreBlueprint W BlueprintName found.1) :=
  Or.inr ⟨BlueprintName, Blueprint, found, h1, hb, hf, Or.inl rfl⟩

theorem connect_outcome (H : FEditorHost) (cat : TypeCatalog) (W : BlueprintStore)
    (CommandType : String) (Params : FJsonObject)
    (herr : (HandleConnectBlueprintNodes H W Params).1.isError = true) :
    ErrorOutcome H cat W CommandType Params (HandleConnectBlueprintNodes H W Params).2 := by
  unfold HandleConnectBlueprintNodes at herr ⊢
  refine requireStringField_outcome (fun BlueprintName h1 herr => ?_) herr
  refine requireStringField_outcome (fun _ _ herr => ?_) herr
  refine requireStringField_outcome (fun _ _ herr => ?_) herr
  refine requireStringField_outcome (fun _ _ herr => ?_) herr
  refine requireStringField_outcome (fun _ _ herr => ?_) herr
  refine withEventGraph_outcome (fun Blueprint found hb hf hbody => ?_) herr
  revert hbody
  split
  · split
    · intro hbody; exact Bool.noConfusion hbody
    · intro _; exact outcome_of_lookup h1 hb hf
  · intro _; exact outcome_of_lookup h1 hb hf

theorem component_reference_outcome (H : FEditorHost) (cat : TypeCatalog) (W : BlueprintStore)
    (CommandType : String) (Params : FJsonObject)
    (herr : (HandleAddBlueprintGetSelfComponentReference H W Params).1.isError = true) :
    ErrorOutcome H cat W CommandType Params
      (HandleAddBlueprintGetSelfComponentReference H W Params).2 := by
  unfold HandleAddBlueprintGetSelfComponentReference at herr ⊢
  refine requireStringField_outcome (fun BlueprintName h1 herr => ?_) herr
  refine requireStringField_outcome (fun _ _ herr => ?_) herr
  refine withEventGraph_outcome (fun Blueprint found hb hf hbody => ?_) herr
  exact Bool.noConfusion hbody

theorem add_event_outcome (H : FEditorHost) (cat : TypeCatalog) (W : BlueprintStore)
    (CommandType : String) (Params : FJsonObject)
    (herr : (HandleAddBlueprintEvent H W Params).1.isError = true) :
    ErrorOutcome H cat W CommandType Params (HandleAddBlueprintEvent H W Params).2 := by
  unfold HandleAddBlueprintEvent at herr ⊢
  refine requireStringField_outcome (fun BlueprintName h1 herr => ?_) herr
  refine requireStringField_outcome (fun _ _ herr => ?_) herr
  refine withEventGraph_outcome (fun Blueprint found hb hf hbody => ?_) herr
  revert hbody
  split
  · intro _; exact outcome_of_lookup h1 hb hf
  · intro hbody; exact Bool.noConfusion hbody

theorem add_variable_outcome (H : FEditorHost) (cat : TypeCatalog) (W : BlueprintStore)
    (CommandType : String) (Params : FJsonObject)
    (herr : (HandleAddBlueprintVariable H W Params).1.isError = true) :
    ErrorOutcome H cat W CommandType Params (HandleAddBlueprintVariable H W Params).2 := by
  unfold HandleAddBlueprintVariable at herr ⊢
  refine requireStringField_outcome (fun BlueprintName h1 herr => ?_) herr
  refine requireStringField_outcome (fun _ _ herr => ?_) herr
  refine requireStringField_outcome (fun _ _ herr => ?_) herr
  refine withBlueprint_outcome (fun Blueprint hb hbody => ?_) herr
  revert hbody
  split
  · intro _
    simp only
    rw [StoreBlueprint_self W BlueprintName Blueprint hb]
    exact Or.inl rfl
  · intro hbody; exact Bool.noConfusion hbody

theorem input_action_outcome (H : FEditorHost) (cat : TypeCatalog) (W : BlueprintStore)
    (CommandType : String) (Params : FJsonObject)
    (herr : (HandleAddBlueprintInputActionNode H W Params).1.isError = true) :
    ErrorOutcome H cat W CommandType Params (HandleAddBlueprintInputActionNode H W Params).2 := by
  unfold HandleAddBlueprintInputActionNode at herr ⊢
  refine requireStringField_outcome (fun BlueprintName h1 herr => ?_) herr
  refine requireStringField_outcome (fun _ _ herr => ?_) herr
  refine withEventGraph_outcome (fun Blueprint found hb hf hbody => ?_) herr
  revert hbody
  split
  · intro _; exact outcome_of_lookup h1 hb hf
  · intro hbody; exact Bool.noConfusion hbody

theorem self_reference_outcome (H : FEditorHost) (cat : TypeCatalog) (W : BlueprintStore)
    (CommandType : String) (Params : FJsonObject)
    (herr : (HandleAddBlueprintSelfReference H W Params).1.isError = true) :
    ErrorOutcome H cat W CommandType Params (HandleAddBlueprintSelfReference H W Params).2 := by
  unfold HandleAddBlueprintSelfReference at herr ⊢
  refine requireStringField_outcome (fun BlueprintName h1 herr => ?_) herr
  refine withEventGraph_outcome (fun Blueprint found hb hf hbody => ?_) herr
  revert hbody
  split
  · intro _; exact outcome_of_lookup h1 hb hf
  · intro hbody; exact Bool.noConfusion hbody

theorem dynamic_cast_outcome (H : FEditorHost) (cat : TypeCatalog) (W : BlueprintStore)
    (CommandType : String) (Params : FJsonObject)
    (herr : (HandleAddBlueprintDynamicCastNode H cat W Params).1.isError = true) :
    ErrorOutcome H cat W CommandType Params
      (HandleAddBlueprintDynamicCastNode H cat W Params).2 := by
  unfold HandleAddBlueprintDynamicCastNode at herr ⊢
  refine requireStringField_outcome (fun BlueprintName h1 herr => ?_) herr
  refine requireStringField_outcome (fun _ _ herr => ?_) herr
  refine withEventGraph_outcome (fun Blueprint found hb hf hbody => ?_) herr
  revert hbody
  split
  · intro _; exact outcome_of_lookup h1 hb hf
  · intro hbody; exact Bool.noConfusion hbody

theorem subsystem_getter_outcome (H : FEditorHost) (cat : TypeCatalog) (W : BlueprintStore)
    (CommandType : String) (Params : FJsonObject)
    (herr : (HandleAddBlueprintSubsystemGetterNode H cat W Params).1.isError = true) :
    ErrorOutcome H cat W CommandType Params
      (HandleAddBlueprintSubsystemGetterNode H cat W Params).2 := by
  unfold HandleAddBlueprintSubsystemGetterNode at herr ⊢
  refine requireStringField_outcome (fun BlueprintName h1 herr => ?_) herr
  refine requireStringField_outcome (fun _ _ herr => ?_) herr
  refine withEventGraph_outcome (fun Blueprint found hb hf hbody => ?_) herr
  revert hbody
  split
  · intro _; exact outcome_of_lookup h1 hb hf
  · split
    · intro _; exact outcome_of_lookup h1 hb hf
    · intro hbody; exact Bool.noConfusion hbody

theorem make_struct_outcome (H : FEditorHost) (cat : TypeCatalog) (W : BlueprintStore)
    (CommandType : String) (Params : FJsonObject)
    (herr : (HandleAddBlueprintMakeStructNode H W Params).1.isError = true) :
    ErrorOutcome H cat W CommandType Params (HandleAddBlueprintMakeStructNode H W Params).2 := by
  unfold HandleAddBlueprintMakeStructNode at herr ⊢
  refine requireStringField_outcome (fun BlueprintName h1 herr => ?_) herr
  refine requireStringField_outcome (fun _ _ herr => ?_) herr
  refine withEventGraph_outcome (fun Blueprint found hb hf hbody => ?_) herr
  revert hbody
  split
  · intro _; exact outcome_of_lookup h1 hb hf
  · intro hbody; exact Bool.noConfusion hbody

theorem break_pin_links_outcome (H : FEditorHost) (cat : TypeCatalog) (W : BlueprintStore)
    (CommandType : String) (Params : FJsonObject)
    (herr : (HandleBreakBlueprintNodePinLinks H W Params).1.isError = true) :
    ErrorOutcome H cat W CommandType Params (HandleBreakBlueprintNodePinLinks H W Params).2 := by
  unfold HandleBreakBlueprintNodePinLinks at herr ⊢
  refine requireStringField_outcome (fun BlueprintName h1 herr => ?_) herr
  refine requireStringField_outcome (fun _ _ herr => ?_) herr
  refine requireStringField_outcome (fun _ _ herr => ?_) herr
  refine withEventGraph_outcome (fun Blueprint found hb hf hbody => ?_) herr
  revert hbody
  split
  · intro _; exact outcome_of_lookup h1 hb hf
  · split
    · intro _; exact outcome_of_lookup h1 hb hf
    · intro hbody; exact Bool.noConfusion hbody

theorem clear_exec_chain_outcome (H : FEditorHost) (cat : TypeCatalog) (W : BlueprintStore)
    (CommandType : String) (Params : FJsonObject)
    (herr : (HandleClearBlueprintEventExecChain H W Params).1.isError = true) :
    ErrorOutcome H cat W CommandType Params
      (HandleClearBlueprintEventExecChain H W Params).2 := by
  unfold HandleClearBlueprintEventExecChain at herr ⊢
  refine requireStringField_outcome (fun BlueprintName h1 herr => ?_) herr
  refine requireStringField_outcome (fun _ _ herr => ?_) herr
  refine withEventGraph_outcome (fun Blueprint found hb hf hbody => ?_) herr
  revert hbody
  split
  · intro _; exact outcome_of_lookup h1 hb hf
  · split
    · intro _; exact outcome_of_lookup h1 hb hf
    · intro hbody; exact Bool.noConfusion hbody

theorem dedupe_outcome (H : FEditorHost) (cat : TypeCatalog) (W : BlueprintStore)
    (CommandType : String) (Params : FJsonObject)
    (herr : (HandleDedupeCommand H W Params).1.isError = true) :
    ErrorOutcome H cat W CommandType Params (HandleDedupeCommand H W Params).2 := by
  unfold HandleDedupeCommand at herr ⊢
  refine requireStringField_outcome (fun BlueprintName h1 herr => ?_) herr
  refine requireStringField_outcome (fun _ _ herr => ?_) herr
  refine requireStringField_outcome (fun _ _ herr => ?_) herr
  refine withEventGraph_outcome (fun Blueprint found hb hf hbody => ?_) herr
  revert hbody
  simp only
  split
  · intro hbody; exact Bool.noConfusion hbody
  · intro hbody; exact Bool.noConfusion hbody

theorem find_nodes_outcome (H : FEditorHost) (cat : TypeCatalog) (W : BlueprintStore)
    (CommandType : String) (Params : FJsonObject)
    (herr : (HandleFindBlueprintNodes H W Params).1.isError = true) :
    ErrorOutcome H cat W CommandType Params (HandleFindBlueprintNodes H W Params).2 := by
  unfold HandleFindBlueprintNodes at herr ⊢
  refine requireStringField_outcome (fun BlueprintName h1 herr => ?_) herr
  refine requireStringField_outcome (fun _ _ herr => ?_) herr
  refine withEventGraph_outcome (fun Blueprint found hb hf hbody => ?_) herr
  revert hbody
  split
  · split
    · intro _; exact outcome_of_lookup h1 hb hf
    · intro hbody; exact Bool.noConfusion hbody
  · intro hbody; exact Bool.noConfusion hbody

theorem clear_event_graph_outcome (H : FEditorHost) (cat : TypeCatalog) (W : BlueprintStore)
    (CommandType : String) (Params : FJsonObject)
    (herr : (HandleClearBlueprintEventGraph H W Params).1.isError = true) :
    ErrorOutcome H cat W CommandType Params (HandleClearBlueprintEventGraph H W Params).2 := by
  unfold HandleClearBlueprintEventGraph at herr ⊢
  refine requireStringField_outcome (fun BlueprintName h1 herr => ?_) herr
  refine withEventGraph_outcome (fun Blueprint found hb hf hbody => ?_) herr
  exact Bool.noConfusion hbody

theorem set_append_length {α : Type} (l : List α) (a b : α) :
    (l ++ [a]).set l.length b = l ++ [b] := by
  induction l with
  | nil => rfl
  | cons x rest ih =>
    simp only [List.cons_append, List.length_cons, List.set_cons_succ, ih]

theorem function_call_outcome (H : FEditorHost) (cat : TypeCatalog) (W : BlueprintStore)
    (CommandType : String) (Params : FJsonObject)
    (hcmd : EqualsIgnoreCase CommandType "add_blueprint_function_node" = true)
    (herr : (HandleAddBlueprintFunctionCall H cat W Params).1.isError = true) :
    ErrorOutcome H cat W CommandType Params (HandleAddBlueprintFunctionCall H cat W Params).2 := by
  unfold HandleAddBlueprintFunctionCall at herr ⊢
  refine requireStringField_outcome (fun BlueprintName h1 herr => ?_) herr
  refine requireStringField_outcome (fun FunctionName _ herr => ?_) herr
  refine withEventGraph_outcome (fun Blueprint found hb hf hbody => ?_) herr
  cases hc : findOrCreateFunctionNode cat found.2 found.1.GeneratedClass FunctionName
      ((TryGetStringField H Params "target").getD "") (readNodePosition H Params)
      (H.CreateNewGuid found.2) H.UnresolvedPins with
  | error Message =>
    simp only [hc]
    exact outcome_of_lookup h1 hb hf
  | ok created =>
    simp only [hc] at hbody ⊢
    obtain ⟨Pins, hcreated⟩ := findOrCreateFunctionNode_ok hc
    cases hr : (setFunctionParameters H cat (functionParameters Params)
        (reconstructedNode H created.1 created.2).Pins).1 with
    | none =>
      rw [hr] at hbody
      exact Bool.noConfusion hbody
    | some Message =>
      simp only
      refine Or.inr ⟨BlueprintName, Blueprint, found, h1, hb, hf, Or.inr (Or.inl ⟨hcmd, ?_⟩)⟩
      refine ⟨(reconstructedNode H created.1 created.2).withPins
        (setFunctionParameters H cat (functionParameters Params)
          (reconstructedNode H created.1 created.2).Pins).2, ?_⟩
      rw [hcreated]
      simp only [AddNode, UEdGraph.setNode, set_append_length]

theorem bindDelegateEvent_error (H : FEditorHost) (Params : FJsonObject)
    (Blueprint : UBlueprint) (g : UEdGraph) (AssignNode : Nat) (TargetClass : UClass)
    (DelegateName : String) (DelegateProperty : FMulticastDelegateProperty)
    (SignatureFunction : UFunction)
    (hsig : DelegateProperty.SignatureFunction = some SignatureFunction)
    (herr : (bindDelegateEvent H Params Blueprint g AssignNode TargetClass DelegateName
      SignatureFunction).1.isError = true) :
    ∃ g1, BindErrorGraph H Params Blueprint g AssignNode DelegateName DelegateProperty g1 ∧
      (bindDelegateEvent H Params Blueprint g AssignNode TargetClass DelegateName
        SignatureFunction).2 = Blueprint.withGraph g1 := by
  unfold bindDelegateEvent at herr ⊢
  simp only at herr ⊢
  cases hce : H.CreateCustomEvent g (customEventPosition H Params)
      (H.FindUniqueKismetName Blueprint (DelegateName ++ "_Event")) SignatureFunction with
  | none => exact ⟨g, Or.inl rfl, rfl⟩
  | some created =>
    rw [hce] at herr
    simp only at herr ⊢
    cases hp : connectDelegatePins H created.1 created.2 AssignNode with
    | error Message =>
      exact ⟨created.1, Or.inr ⟨SignatureFunction, created, hsig, hce, Or.inl rfl⟩, rfl⟩
    | ok gc =>
      rw [hp] at herr
      simp only at herr ⊢
      cases ht : connectDelegateTarget H Params gc AssignNode with
      | error Message =>
        exact ⟨gc, Or.inr ⟨SignatureFunction, created, hsig, hce,
          Or.inr ⟨gc, hp, Or.inl rfl⟩⟩, rfl⟩
      | ok gt =>
        rw [ht] at herr
        simp only at herr ⊢
        cases hx : connectDelegateExec H Params gt AssignNode with
        | error Message =>
          exact ⟨gt, Or.inr ⟨SignatureFunction, created, hsig, hce,
            Or.inr ⟨gc, hp, Or.inr ht⟩⟩, rfl⟩
        | ok gx =>
          rw [hx] at herr
          exact Bool.noConfusion herr

theorem bind_delegate_outcome (H : FEditorHost) (cat : TypeCatalog) (W : BlueprintStore)
    (CommandType : String) (Params : FJsonObject)
    (hcmd : EqualsIgnoreCase CommandType "bind_blueprint_multicast_delegate" = true)
    (herr : (HandleBindBlueprintMulticastDelegate H cat W Params).1.isError = true) :
    ErrorOutcome H cat W CommandType Params
      (HandleBindBlueprintMulticastDelegate H cat W Params).2 := by
  unfold HandleBindBlueprintMulticastDelegate at herr ⊢
  refine requireStringField_outcome (fun BlueprintName h1 herr => ?_) herr
  refine requireStringField_outcome (fun TargetClassName h2 herr => ?_) herr
  refine requireStringField_outcome (fun DelegateName h3 herr => ?_) herr
  refine withEventGraph_outcome (fun Blueprint found hb hf hbody => ?_) herr
  cases hr : ResolveClassByName cat TargetClassName with
  | none => exact outcome_of_lookup h1 hb hf
  | some TargetClass =>
    rw [hr] at hbody
    simp only at hbody ⊢
    cases hd : H.FindDelegateProperty TargetClass DelegateName with
    | none => exact outcome_of_lookup h1 hb hf
    | some DelegateProperty =>
      rw [hd] at hbody
      simp only at hbody ⊢
      cases hsig : DelegateProperty.SignatureFunction with
      | none =>
        exact Or.inr ⟨BlueprintName, Blueprint, found, h1, hb, hf, Or.inr (Or.inr ⟨hcmd,
          TargetClassName, DelegateName, TargetClass, DelegateProperty, _, h2, h3, hr, hd,
          Or.inl rfl, rfl⟩)⟩
      | some SignatureFunction =>
        rw [hsig] at hbody
        simp only at hbody ⊢
        obtain ⟨g1, hstage, hres⟩ := bindDelegateEvent_error H Params found.1 _ _ TargetClass
          DelegateName DelegateProperty SignatureFunction hsig hbody
        rw [hres]
        exact Or.inr ⟨BlueprintName, Blueprint, found, h1, hb, hf, Or.inr (Or.inr ⟨hcmd,
          TargetClassName, DelegateName, TargetClass, DelegateProperty, g1, h2, h3, hr, hd,
          hstage, rfl⟩)⟩

theorem HandleCommand_outcome (H : FEditorHost) (cat : TypeCatalog) (W : BlueprintStore)
    (CommandType : String) (Params : FJsonObject)
    (herr : (HandleCommand H cat W CommandType Params).1.isError = true) :
    ErrorOutcome H cat W CommandType Params (HandleCommand H cat W CommandType Params).2 := by
  unfold HandleCommand at herr ⊢
  by_cases c0 : EqualsIgnoreCase CommandType "connect_blueprint_nodes" = true
  · rw [if_pos c0] at herr ⊢
    exact connect_outcome H cat W CommandType Params herr
  rw [if_neg c0] at herr ⊢
  by_cases c1 : EqualsIgnoreCase CommandType "add_blueprint_get_self_component_reference" = true
  · rw [if_pos c1] at herr ⊢
    exact component_reference_outcome H cat W CommandType Params herr
  rw [if_neg c1] at herr ⊢
  by_cases c2 : EqualsIgnoreCase CommandType "add_blueprint_event_node" = true
  · rw [if_pos c2] at herr ⊢
    exact add_event_outcome H cat W CommandType Params herr
  rw [if_neg c2] at herr ⊢
  by_cases c3 : EqualsIgnoreCase CommandType "add_blueprint_function_node" = true
  · rw [if_pos c3] at herr ⊢
    exact function_call_outcome H cat W CommandType Params c3 herr
  rw [if_neg c3] at herr ⊢
  by_cases c4 : EqualsIgnoreCase CommandType "add_blueprint_variable" = true
  · rw [if_pos c4] at herr ⊢
    exact add_variable_outcome H cat W CommandType Params herr
  rw [if_neg c4] at herr ⊢
  by_cases c5 : EqualsIgnoreCase CommandType "add_blueprint_input_action_node" = true
  · rw [if_pos c5] at herr ⊢
    exact input_action_outcome H cat W CommandType Params herr
  rw [if_neg c5] at herr ⊢
  by_cases c6 : EqualsIgnoreCase CommandType "add_blueprint_self_reference" = true
  · rw [if_pos c6] at herr ⊢
    exact self_reference_outcome H cat W CommandType Params herr
  rw [if_neg c6] at herr ⊢
  by_cases c7 : EqualsIgnoreCase CommandType "add_blueprint_dynamic_cast_node" = true
  · rw [if_pos c7] at herr ⊢
    exact dynamic_cast_outcome H cat W CommandType Params herr
  rw [if_neg c7] at herr ⊢
  by_cases c8 : EqualsIgnoreCase CommandType "add_blueprint_subsystem_getter_node" = true
  · rw [if_pos c8] at herr ⊢
    exact subsystem_getter_outcome H cat W CommandType Params herr
  rw [if_neg c8] at herr ⊢
  by_cases c9 : EqualsIgnoreCase CommandType "add_blueprint_make_struct_node" = true
  · rw [if_pos c9] at herr ⊢
    exact make_struct_outcome H cat W CommandType Params herr
  rw [if_neg c9] at herr ⊢
  by_cases c10 : EqualsIgnoreCase CommandType "break_blueprint_node_pin_links" = true
  · rw [if_pos c10] at herr ⊢
    exact break_pin_links_outcome H cat W CommandType Params herr
  rw [if_neg c10] at herr ⊢
  by_cases c11 : EqualsIgnoreCase CommandType "clear_blueprint_event_exec_chain" = true
  · rw [if_pos c11] at herr ⊢
    exact clear_exec_chain_outcome H cat W CommandType Params herr
  rw [if_neg c11] at herr ⊢
  by_cases c12 : EqualsIgnoreCase CommandType "dedupe_blueprint_component_bound_events" = true
  · rw [if_pos c12] at herr ⊢
    exact dedupe_outcome H cat W CommandType Params herr
  rw [if_neg c12] at herr ⊢
  by_cases c13 : EqualsIgnoreCase CommandType "bind_blueprint_multicast_delegate" = true
  · rw [if_pos c13] at herr ⊢
    exact bind_delegate_outcome H cat W CommandType Params c13 herr
  rw [if_neg c13] at herr ⊢
  by_cases c14 : EqualsIgnoreCase CommandType "find_blueprint_nodes" = true
  · rw [if_pos c14] at herr ⊢
    exact find_nodes_outcome H cat W CommandType Params herr
  rw [if_neg c14] at herr ⊢
  by_cases c15 : EqualsIgnoreCase CommandType "clear_blueprint_event_graph" = true
  · rw [if_pos c15] at herr ⊢
    exact clear_event_graph_outcome H cat W CommandType Params herr
  rw [if_neg c15] at herr ⊢
  exact Or.inl rfl

/-- C25, as amended: when `HandleCommand` returns an error, the store is as it
was before the call, with three exceptions. A command that has looked up the
event graph of a blueprint that had none leaves the graph that
`FindOrCreateEventGraph` created for it. `add_blueprint_function_node` that
fails in its parameter loop leaves the call node it has created: the graph
holds its former node objects and node array unchanged, followed by that node.
`bind_blueprint_multicast_delegate` that fails after it has added the assign
node leaves that node and, according to the step that fails, the custom event
and the connections made by then: the graph is one of those of
`BindErrorGraph`. For every other command and every other error the blueprint
and its graph are as the lookup found them. -/
theorem error_leaves_store_or_created_nodes (H : FEditorHost) (cat : TypeCatalog)
    (W : BlueprintStore) (CommandType : String) (Params : FJsonObject)
    (herr : (HandleCommand H cat W CommandType Params).1.isError = true) :
    (HandleCommand H cat W CommandType Params).2 = W ∨
    ∃ BlueprintName Blueprint found,
      TryGetStringField H Params "blueprint_name" = some BlueprintName ∧
      FindBlueprint W BlueprintName = some Blueprint ∧
      FindOrCreateEventGraph H Blueprint = some found ∧
      ((HandleCommand H cat W CommandType Params).2 =
          StoreBlueprint W BlueprintName found.1 ∨
        (EqualsIgnoreCase CommandType "add_blueprint_function_node" = true ∧
          ∃ Node, (HandleCommand H cat W CommandType Params).2 =
            StoreBlueprint W BlueprintName
              (found.1.withGraph
                ⟨found.2.Objects ++ [Node], found.2.Nodes ++ [found.2.Objects.length]⟩)) ∨
        (EqualsIgnoreCase CommandType "bind_blueprint_multicast_delegate" = true ∧
          ∃ TargetClassName DelegateName TargetClass DelegateProperty g1,
            TryGetStringField H Params "target_class" = some TargetClassName ∧
            TryGetStringField H Params "delegate_name" = some DelegateName ∧
            ResolveClassByName cat TargetClassName = some TargetClass ∧
            H.FindDelegateProperty TargetClass DelegateName = some DelegateProperty ∧
            BindErrorGraph H Params found.1
              (AddNode found.2 (H.CreateNewGuid found.2) (readNodePosition H Params)
                (H.AssignDelegatePins TargetClass DelegateName)).1
              (AddNode found.2 (H.CreateNewGuid found.2) (readNodePosition H Params)
                (H.AssignDelegatePins TargetClass DelegateName)).2
              DelegateName DelegateProperty g1 ∧
            (HandleCommand H cat W CommandType Params).2 =
              StoreBlueprint W BlueprintName (found.1.withGraph g1))) :=
  HandleCommand_outcome H cat W CommandType Params herr

/-- Witness of C25 (amended): `break_blueprint_node_pin_links` for an unknown
node returns its error and leaves the store as it was. -/
theorem error_leaves_store_or_created_nodes_witness :
    (HandleCommand sampleHost scenario4 (sampleStore (some scenario1))
      "break_blueprint_node_pin_links"
      (stringParams [("blueprint_name", "BP"), ("node_id", "Q"), ("pin_name", "Then")])).1 =
      FResponse.Error "Node not found: Q" ∧
    ((HandleCommand sampleHost scenario4 (sampleStore (some scenario1))
        "break_blueprint_node_pin_links"
        (stringParams [("blueprint_name", "BP"), ("node_id", "Q"), ("pin_name", "Then")])).2 =
        sampleStore (some scenario1) ∨
      ∃ BlueprintName Blueprint found,
        TryGetStringField sampleHost
          (stringParams [("blueprint_name", "BP"), ("node_id", "Q"), ("pin_name", "Then")])
          "blueprint_name" = some BlueprintName ∧
        FindBlueprint (sampleStore (some scenario1)) BlueprintName = some Blueprint ∧
        FindOrCreateEventGraph sampleHost Blueprint = some found ∧
        ((HandleCommand sampleHost scenario4 (sampleStore (some scenario1))
            "break_blueprint_node_pin_links"
            (stringParams [("blueprint_name", "BP"), ("node_id", "Q"),
              ("pin_name", "Then")])).2 =
            StoreBlueprint (sampleStore (some scenario1)) BlueprintName found.1 ∨
          (EqualsIgnoreCase "break_blueprint_node_pin_links" "add_blueprint_function_node" =
              true ∧
            ∃ Node, (HandleCommand sampleHost scenario4 (sampleStore (some scenario1))
              "break_blueprint_node_pin_links"
              (stringParams [("blueprint_name", "BP"), ("node_id", "Q"),
                ("pin_name", "Then")])).2 =
              StoreBlueprint (sampleStore (some scenario1)) BlueprintName
                (found.1.withGraph
                  ⟨found.2.Objects ++ [Node], found.2.Nodes ++ [found.2.Objects.length]⟩)) ∨
          (EqualsIgnoreCase "break_blueprint_node_pin_links"
              "bind_blueprint_multicast_delegate" = true ∧
            ∃ TargetClassName DelegateName TargetClass DelegateProperty g1,
              TryGetStringField sampleHost
                (stringParams [("blueprint_name", "BP"), ("node_id", "Q"),
                  ("pin_name", "Then")]) "target_class" = some TargetClassName ∧
              TryGetStringField sampleHost
                (stringParams [("blueprint_name", "BP"), ("node_id", "Q"),
                  ("pin_name", "Then")]) "delegate_name" = some DelegateName ∧
              ResolveClassByName scenario4 TargetClassName = some TargetClass ∧
              sampleHost.FindDelegateProperty TargetClass DelegateName =
                some DelegateProperty ∧
              BindErrorGraph sampleHost
                (stringParams [("blueprint_name", "BP"), ("node_id", "Q"),
                  ("pin_name", "Then")]) found.1
                (AddNode found.2 (sampleHost.CreateNewGuid found.2)
                  (readNodePosition sampleHost
                    (stringParams [("blueprint_name", "BP"), ("node_id", "Q"),
                      ("pin_name", "Then")]))
                  (sampleHost.AssignDelegatePins TargetClass DelegateName)).1
                (AddNode found.2 (sampleHost.CreateNewGuid found.2)
                  (readNodePosition sampleHost
                    (stringParams [("blueprint_name", "BP"), ("node_id", "Q"),
                      ("pin_name", "Then")]))
                  (sampleHost.AssignDelegatePins TargetClass DelegateName)).2
                DelegateName DelegateProperty g1 ∧
              (HandleCommand sampleHost scenario4 (sampleStore (some scenario1))
                "break_blueprint_node_pin_links"
                (stringParams [("blueprint_name", "BP"), ("node_id", "Q"),
                  ("pin_name", "Then")])).2 =
                StoreBlueprint (sampleStore (some scenario1)) BlueprintName
                  (found.1.withGraph g1)))) ∧
    (HandleCommand sampleHost scenario4 (sampleStore (some scenario1))
      "break_blueprint_node_pin_links"
      (stringParams [("blueprint_name", "BP"), ("node_id", "Q"), ("pin_name", "Then")])).2 =
      sampleStore (some scenario1) :=
  ⟨by decide,
    error_leaves_store_or_created_nodes sampleHost scenario4 (sampleStore (some scenario1))
      "break_blueprint_node_pin_links"
      (stringParams [("blueprint_name", "BP"), ("node_id", "Q"), ("pin_name", "Then")])
      (by decide),
    by decide⟩

/-- C25, as stated, fails. `add_blueprint_function_node` with a class-reference
parameter that names no class returns the error "Failed to find class 'ANope'"
and leaves the call node it has created in the graph, which held four nodes
before the call and holds five after it. `bind_blueprint_multicast_delegate`
for a delegate without signature function returns its error with the assign
node left in the graph, and for an unknown `target_node_id` with the assign
node and the custom event left in it. A command that fails after the lookup
of the event graph of a blueprint that had none leaves the created graph. -/
theorem error_leaves_created_node :
    (HandleCommand sampleHost (catalogOf []) (sampleStore (some scenario1))
      "add_blueprint_function_node"
      (stringParams [("blueprint_name", "BP"), ("function_name", "Spawn")] ++
        [("params", FJsonValue.JsonObject
          [("ActorClass", FJsonValue.JsonString "ANope")])])).1 =
      FResponse.Error "Failed to find class 'ANope'" ∧
    (graphOf (sampleStore (some scenario1)) "BP").map (fun g => g.Nodes) = some [0, 1, 2, 3] ∧
    (graphOf (HandleCommand sampleHost (catalogOf []) (sampleStore (some scenario1))
      "add_blueprint_function_node"
      (stringParams [("blueprint_name", "BP"), ("function_name", "Spawn")] ++
        [("params", FJsonValue.JsonObject
          [("ActorClass", FJsonValue.JsonString "ANope")])])).2 "BP").map
        (fun g => g.Nodes) = some [0, 1, 2, 3, 4] ∧
    (HandleCommand sampleHost scenario4 (sampleStore (some scenario1))
      "bind_blueprint_multicast_delegate"
      (stringParams [("blueprint_name", "BP"), ("target_class", "GameplayStatics"),
        ("delegate_name", "OnLegacy")])).1 =
      FResponse.Error
        "Delegate 'OnLegacy' on class 'UGameplayStatics' has no signature function" ∧
    (graphOf (HandleCommand sampleHost scenario4 (sampleStore (some scenario1))
      "bind_blueprint_multicast_delegate"
      (stringParams [("blueprint_name", "BP"), ("target_class", "GameplayStatics"),
        ("delegate_name", "OnLegacy")])).2 "BP").map (fun g => g.Nodes) =
      some [0, 1, 2, 3, 4] ∧
    (HandleCommand sampleHost scenario4 (sampleStore (some scenario1))
      "bind_blueprint_multicast_delegate"
      (stringParams [("blueprint_name", "BP"), ("target_class", "GameplayStatics"),
        ("delegate_name", "OnClicked"), ("target_node_id", "Q")])).1 =
      FResponse.Error "target_node_id not found: Q" ∧
    (graphOf (HandleCommand sampleHost scenario4 (sampleStore (some scenario1))
      "bind_blueprint_multicast_delegate"
      (stringParams [("blueprint_name", "BP"), ("target_class", "GameplayStatics"),
        ("delegate_name", "OnClicked"), ("target_node_id", "Q")])).2 "BP").map
        (fun g => g.Nodes) = some [0, 1, 2, 3, 4, 5] ∧
    graphOf (sampleStore none) "BP" = none ∧
    HandleCommand sampleHost scenario4 (sampleStore none) "connect_blueprint_nodes"
      (stringParams [("blueprint_name", "BP"), ("source_node_id", "A"),
        ("target_node_id", "B"), ("source_pin", "Then"), ("target_pin", "execute")]) =
      (FResponse.Error "Source or target node not found", sampleStore (some ⟨[], []⟩)) := by
  decide

end UnrealMCP
